import Mathlib

/-! # Rewinder: the delta-based snapshot store

A shallow embedding of `internal/state/models.go`, `internal/snapshot/engine.go`,
`internal/plugins`, `internal/restore/engine_windows.go`, `Services.Restore` of
`internal/services/services.go` and `internal/policy/config.go`, and theorems about it.

Conventions of the embedding

* Go `map[K]V` values are association lists with pairwise distinct keys (`GoMap`).
  `range` visits the entries in list order.  Go leaves that order unspecified, so the
  theorems below only state facts that do not depend on it (membership, lookup by key,
  lengths).
* `sort.Slice` is an insertion sort; again only order-independent facts are stated.
* `time.Time` is an integer instant (nanoseconds), `time.Duration` an integer.
* Strings are Lean strings.  `strings.ToLower` lowers the ASCII letters (the Unicode
  case tables are not reproduced), `strings.TrimSpace` trims the code points of
  `unicode.IsSpace`.
* A value of a plugin map (`any`) is kept as its JSON text, which is all the store ever
  observes of it.  A `nil` map is `none`.
* The file system, the clock and the UUID generator are not part of the program: each
  `Ingest` call receives their answers in an `IngestEnv`, and the checkpoint files are
  carried in an explicit `Disk`.
* A restore acts on the system through the Windows API.  Each such call is recorded as a
  `RestoreEvent`, in order, and what the system answers is read from a `RestoreEnv`, whose
  answers about windows do not change while one restore runs.
-/

namespace Rewinder

/-! ## Go maps -/

/-- A Go map, as the list of its entries. -/
abbrev GoMap (K V : Type) := List (K × V)

namespace GoMap

variable {K V : Type} [DecidableEq K]

/-- The read `m[k]` with its `ok` flag. -/
def get? : GoMap K V → K → Option V
  | [], _ => none
  | (k', v) :: m, k => if k = k' then some v else get? m k

/-- The assignment `m[k] = v`. -/
def set : GoMap K V → K → V → GoMap K V
  | [], k, v => [(k, v)]
  | (k', v') :: m, k, v => if k = k' then (k, v) :: m else (k', v') :: set m k v

/-- The builtin `delete(m, k)`. -/
def delete : GoMap K V → K → GoMap K V
  | [], _ => []
  | (k', v) :: m, k => if k' = k then delete m k else (k', v) :: delete m k

/-- The keys, in iteration order. -/
def keys (m : GoMap K V) : List K := m.map Prod.fst

/-- The values, in iteration order. -/
def values (m : GoMap K V) : List V := m.map Prod.snd

end GoMap

/-! ## Library functions -/

/-- The code points of `unicode.IsSpace`. -/
def isSpace (c : Char) : Bool :=
  let n := c.toNat
  (9 ≤ n && n ≤ 13) || n = 32 || n = 0x85 || n = 0xA0 || n = 0x1680 ||
  (0x2000 ≤ n && n ≤ 0x200A) || n = 0x2028 || n = 0x2029 || n = 0x202F ||
  n = 0x205F || n = 0x3000

/-- The function `strings.TrimSpace`. -/
def trimSpace (s : String) : String :=
  ⟨((s.data.dropWhile isSpace).reverse.dropWhile isSpace).reverse⟩

/-- The function `strings.ToLower`, on the ASCII letters. -/
def toLower (s : String) : String :=
  ⟨s.data.map Char.toLower⟩

/-! ## internal/state/models.go -/

structure Rect where
  Left : Int
  Top : Int
  Right : Int
  Bottom : Int
deriving DecidableEq, Repr

structure WindowState where
  HWND : Nat
  Rect : Rect
  MonitorID : String
  ZOrder : Int
  IsForeground : Bool
  IsMinimized : Bool
  IsMaximized : Bool
  VirtualDesktop : String
  ClassName : String
  Title : String
deriving DecidableEq, Repr

structure FileRef where
  Path : String
deriving DecidableEq, Repr

structure InputState where
  InputLanguage : String
deriving DecidableEq, Repr

/-- The type `map[string]any` of `AppState.PluginData`: `none` is the nil map, and each
value is held as its JSON text. -/
abbrev PluginData := Option (GoMap String String)

structure AppState where
  AppID : String
  PID : Int
  ExecutablePath : String
  CommandLine : String
  WorkingDir : String
  ForegroundWindowClass : String
  Windows : List WindowState
  OpenFiles : List FileRef
  ClipboardHash : String
  PluginData : PluginData
  InputState : InputState
  Timestamp : Int
deriving DecidableEq, Repr

/-! ## internal/snapshot/engine.go: deltas -/

structure WindowDiff where
  HWND : Nat
  Before : Option WindowState
  After : Option WindowState
deriving DecidableEq, Repr

structure StateDelta where
  WindowsChanged : Bool
  WindowDiffs : List WindowDiff
  FilesAdded : List FileRef
  FilesRemoved : List FileRef
  ClipboardChanged : Bool
  PluginChanged : Bool
  PluginData : PluginData
deriving DecidableEq, Repr

structure FullSnapshot where
  App : AppState
deriving DecidableEq, Repr

/-- The comparison `windowEq`: class name and title are not compared. -/
def windowEq (a b : WindowState) : Bool :=
  decide (a.Rect = b.Rect) &&
  decide (a.MonitorID = b.MonitorID) &&
  decide (a.ZOrder = b.ZOrder) &&
  decide (a.IsForeground = b.IsForeground) &&
  decide (a.IsMinimized = b.IsMinimized) &&
  decide (a.IsMaximized = b.IsMaximized) &&
  decide (a.VirtualDesktop = b.VirtualDesktop)

/-- The helper `stringsToLower`. -/
def stringsToLower (s : String) : String :=
  toLower (trimSpace s)

/-- The entries of a plugin map in key order, as `encoding/json` writes them. -/
def sortedEntries (m : GoMap String String) : List (String × String) :=
  m.insertionSort (fun a b => a.1 ≤ b.1)

/-- The bytes `json.Marshal` returns for a plugin map: `null` for the nil map, an object
with its keys in sorted order otherwise. -/
def jsonMarshal : PluginData → String
  | none => "null"
  | some m =>
    "\x7b" ++ ",".intercalate ((sortedEntries m).map (fun e => "\"" ++ e.1 ++ "\":" ++ e.2))
      ++ "\x7d"

/-- The comparison `jsonEq`, at the type it is called with. -/
def jsonEq (a b : PluginData) : Bool :=
  decide (jsonMarshal a = jsonMarshal b)

/-- The map a loop `for _, w := range ws { m[w.HWND] = w }` builds. -/
def windowMap (ws : List WindowState) : GoMap Nat WindowState :=
  ws.foldl (fun m w => m.set w.HWND w) []

/-- The set a loop `for _, f := range fs { m[stringsToLower(f.Path)] = struct{}{} }` builds. -/
def pathSet (fs : List FileRef) : GoMap String Unit :=
  fs.foldl (fun m f => m.set (stringsToLower f.Path) ()) []

/-- Lines 303-322 of `diffStates`: an entry for every window of `nextW` that is new or
differs from its counterpart, then one for every window of `prevW` that is gone. -/
def windowDiffs (prevW nextW : GoMap Nat WindowState) : List WindowDiff :=
  nextW.filterMap (fun e =>
    match prevW.get? e.1 with
    | none => some { HWND := e.1, Before := none, After := some e.2 }
    | some pw =>
      if !windowEq pw e.2 then some { HWND := e.1, Before := some pw, After := some e.2 }
      else none)
  ++ prevW.filterMap (fun e =>
    match nextW.get? e.1 with
    | none => some { HWND := e.1, Before := some e.2, After := none }
    | some _ => none)

/-- Lines 333-344 of `diffStates`: the paths of `a` that `b` lacks. -/
def pathsMissing (a b : GoMap String Unit) : List FileRef :=
  a.filterMap (fun e =>
    match b.get? e.1 with
    | none => some { Path := e.1 }
    | some _ => none)

/-- The function `diffStates`. -/
def diffStates (prev next : AppState) : StateDelta :=
  let prevW := windowMap prev.Windows
  let nextW := windowMap next.Windows
  let diffs := windowDiffs prevW nextW
  let prevF := pathSet prev.OpenFiles
  let nextF := pathSet next.OpenFiles
  let added := pathsMissing nextF prevF
  let removed := pathsMissing prevF nextF
  let clipChanged := decide (prev.ClipboardHash ≠ "") && decide (next.ClipboardHash ≠ "") &&
    decide (prev.ClipboardHash ≠ next.ClipboardHash)
  let pluginChanged := !jsonEq prev.PluginData next.PluginData
  { WindowsChanged := decide (diffs.length > 0)
    WindowDiffs := diffs
    FilesAdded := added
    FilesRemoved := removed
    ClipboardChanged := clipChanged
    PluginChanged := pluginChanged
    PluginData := next.PluginData }

/-- Lines 367-373 of `applyDelta`: the map after the diff entries have been applied. -/
def applyWindowDiffs (m : GoMap Nat WindowState) (ds : List WindowDiff) :
    GoMap Nat WindowState :=
  ds.foldl (fun m wd =>
    match wd.After with
    | none => m.delete wd.HWND
    | some w => m.set wd.HWND w) m

/-- The map a loop `for _, f := range fs { m[stringsToLower(f.Path)] = f }` builds. -/
def fileMap (fs : List FileRef) : GoMap String FileRef :=
  fs.foldl (fun m f => m.set (stringsToLower f.Path) f) []

/-- Lines 386-391 of `applyDelta`: the removals, then the additions. -/
def applyFileDiffs (m : GoMap String FileRef) (removed added : List FileRef) :
    GoMap String FileRef :=
  added.foldl (fun m f => m.set (stringsToLower f.Path) f)
    (removed.foldl (fun m f => m.delete (stringsToLower f.Path)) m)

/-- The function `applyDelta`.  The branch on `ClipboardChanged` is empty in the source: the
delta carries no fingerprint, and the clipboard field is left as it is. -/
def applyDelta (app : AppState) (d : StateDelta) : AppState :=
  let app₁ : AppState :=
    if d.WindowsChanged then
      let m := applyWindowDiffs (windowMap app.Windows) d.WindowDiffs
      { app with Windows := m.values.insertionSort (fun a b => a.ZOrder ≤ b.ZOrder) }
    else app
  let app₂ : AppState :=
    if d.FilesAdded.length > 0 || d.FilesRemoved.length > 0 then
      let m := applyFileDiffs (fileMap app₁.OpenFiles) d.FilesRemoved d.FilesAdded
      { app₁ with OpenFiles := m.values.insertionSort (fun a b => a.Path ≤ b.Path) }
    else app₁
  let app₃ : AppState := if d.ClipboardChanged then app₂ else app₂
  if d.PluginChanged then { app₃ with PluginData := d.PluginData } else app₃

/-! ## internal/ipcapi/types.go -/

structure SnapshotMeta where
  SnapshotID : String
  AppID : String
  Timestamp : Int
  WindowsCount : Int
  FilesAdded : Int
  FilesRemoved : Int
deriving DecidableEq, Repr

/-! ## internal/snapshot/engine.go: the store -/

structure EngineConfig where
  MaxSnapshotsPerApp : Int
  MaxRAMBytes : Int
  MaxDiskBytes : Int
  Retention : Int
  StorageDir : String
deriving DecidableEq, Repr

structure Snapshot where
  SnapshotID : String
  AppID : String
  BaseSnapshotID : Option String
  Delta : StateDelta
  Timestamp : Int
  Spilled : Bool
  DiskRef : String
deriving DecidableEq, Repr

structure appTimeline where
  appID : String
  exe : String
  name : String
  lastActivity : Int
  snapshots : List Snapshot
  ramBytes : Int
deriving DecidableEq, Repr

structure Engine where
  cfg : EngineConfig
  apps : GoMap String appTimeline
deriving DecidableEq, Repr

/-- The constant `time.Hour`, in nanoseconds. -/
def hour : Int := 3600 * 1000000000

/-- The zero value of `time.Time` (1 January of year 1), as an instant in nanoseconds. -/
def zeroTime : Int := -62135596800 * 1000000000

/-- The constructor `NewEngine` (the `os.MkdirAll` call creates no file). -/
def NewEngine (cfg : EngineConfig) : Engine :=
  let cfg₁ := if cfg.MaxSnapshotsPerApp ≤ 0 then { cfg with MaxSnapshotsPerApp := 500 } else cfg
  let cfg₂ := if cfg₁.Retention ≤ 0 then { cfg₁ with Retention := 24 * hour } else cfg₁
  { cfg := cfg₂, apps := [] }

/-! ### Checkpoint files -/

/-- A checkpoint file: the full snapshot that was serialised into it and the length of
its JSON text. -/
structure StoredFile where
  fs : FullSnapshot
  size : Nat
deriving DecidableEq, Repr

/-- The files under `cfg.StorageDir`, by their slash-separated relative path. -/
abbrev Disk := GoMap String StoredFile

/-- What the runtime answers to one checkpoint write that goes through: the hex digest
`hex.EncodeToString(sum[:16])` of the JSON text and the length of that text. -/
structure SpillOutcome where
  digest : String
  size : Nat
deriving DecidableEq, Repr

/-- The answers of the runtime to one `Ingest` call: the clock `time.Now()` read by
`applyRetentionLocked`, the identifier `uuid.NewString()`, and the outcome of the
checkpoint write (`none` when `json.Marshal` or `os.WriteFile` fails); the last two are
consulted only if the call gets that far. -/
structure IngestEnv where
  now : Int
  uuid : String
  spill : Option SpillOutcome
deriving DecidableEq, Repr

/-- The path `filepath.ToSlash(filepath.Join(appID, name))`; the rewriting of dot segments
and repeated separators by `filepath.Clean` is not reproduced. -/
def joinRef (appID name : String) : String :=
  if appID = "" then name else appID ++ "/" ++ name

/-- The read guard of `loadFullSnapshotLocked`: `10<<20` bytes. -/
def readLimit : Nat := 10 * 2 ^ 20

/-- What `json.Unmarshal` rebuilds from the JSON text of a full snapshot.  The field
`PluginData` is tagged `omitempty`: an empty map is not written and reads back as the nil
map.  Every other field reads back as written. -/
def jsonReload (fs : FullSnapshot) : FullSnapshot :=
  { App := { fs.App with
      PluginData := match fs.App.PluginData with
        | some [] => none
        | p => p } }

/-- The method `spillFullSnapshotLocked`: the disk afterwards and the returned reference. -/
def spillFullSnapshotLocked (disk : Disk) (out : Option SpillOutcome) (appID : String)
    (fs : FullSnapshot) : Disk × Except String String :=
  match out with
  | none => (disk, .error "write failed")
  | some o =>
    let name := o.digest ++ ".json.gz"
    let ref := joinRef appID name
    (disk.set ref { fs := fs, size := o.size }, .ok ref)

/-- The method `loadFullSnapshotLocked`: at most `readLimit` bytes of the JSON text are
read, and a truncated text does not parse. -/
def loadFullSnapshotLocked (disk : Disk) (ref : String) : Except String FullSnapshot :=
  match disk.get? ref with
  | none => .error "file not found"
  | some f =>
    if f.size > readLimit then .error "unexpected end of JSON input"
    else .ok (jsonReload f.fs)

/-! ### Chain resolution -/

/-- The test `s.Spilled && s.DiskRef != "" && s.BaseSnapshotID == nil`. -/
def isCheckpoint (s : Snapshot) : Bool :=
  s.Spilled && decide (s.DiskRef ≠ "") && s.BaseSnapshotID.isNone

/-- The first loop of `resolveSnapshotLocked`: the index of the first snapshot with the
given id. -/
def findSnapshot : List Snapshot → String → Option Nat
  | [], _ => none
  | s :: rest, id => if s.SnapshotID = id then some 0 else (findSnapshot rest id).map (· + 1)

/-- The second loop of `resolveSnapshotLocked`, `for i := idx; i >= 0; i--`: the chain,
newest first.  At `i = 0` the walk ends whether or not one of the two `break`s fires. -/
def collectChain (snaps : List Snapshot) : Nat → List Snapshot
  | 0 =>
    match snaps[0]? with
    | none => []
    | some s => [s]
  | i + 1 =>
    match snaps[i + 1]? with
    | none => []
    | some s => if isCheckpoint s then [s] else s :: collectChain snaps i

/-- The seed of a chain: the loaded checkpoint when the oldest link is one, the empty state
of the application otherwise. -/
def chainSeed (disk : Disk) (tl : appTimeline) (last : Snapshot) : Except String FullSnapshot :=
  if isCheckpoint last then loadFullSnapshotLocked disk last.DiskRef
  else .ok { App :=
    { AppID := tl.appID, PID := 0, ExecutablePath := tl.exe, CommandLine := "",
      WorkingDir := "", ForegroundWindowClass := "", Windows := [], OpenFiles := [],
      ClipboardHash := "", PluginData := none, InputState := { InputLanguage := "" },
      Timestamp := zeroTime } }

/-- The last loop of `resolveSnapshotLocked`: the deltas of the chain, oldest first. -/
def replayChain (base : FullSnapshot) (chain : List Snapshot) : FullSnapshot :=
  chain.foldr (fun s b => { App := applyDelta b.App s.Delta }) base

/-- The method `resolveSnapshotLocked`. -/
def resolveSnapshotLocked (disk : Disk) (tl : appTimeline) (snapshotID : String) :
    Except String (Snapshot × FullSnapshot) :=
  match findSnapshot tl.snapshots snapshotID with
  | none => .error "snapshot not found"
  | some idx =>
    let chain := collectChain tl.snapshots idx
    match chain.getLast?, tl.snapshots[idx]? with
    | some last, some sel =>
      match chainSeed disk tl last with
      | .error err => .error err
      | .ok base => .ok (sel, replayChain base chain)
    | _, _ => .error "index out of range"

/-- The method `ResolveSnapshot`. -/
def ResolveSnapshot (e : Engine) (disk : Disk) (appID snapshotID : String) :
    Except String (Snapshot × FullSnapshot) :=
  match e.apps.get? appID with
  | none => .error "unknown app"
  | some tl => resolveSnapshotLocked disk tl snapshotID

/-- The method `applyRetentionLocked`. -/
def applyRetentionLocked (cfg : EngineConfig) (now : Int) (tl : appTimeline) : appTimeline :=
  if cfg.Retention ≤ 0 then tl
  else
    let cut := now - cfg.Retention
    { tl with snapshots := tl.snapshots.filter (fun s => decide (s.Timestamp > cut)) }

/-! ### Ingest -/

/-- The separators of a Windows path. -/
def isSeparator (c : Char) : Bool := c = '/' || c = '\\'

/-- The function `filepath.Base`, without volume names. -/
def filepathBase (p : String) : String :=
  let cs := p.data.reverse.dropWhile isSeparator
  if p.data = [] then "."
  else if cs = [] then "\\"
  else ⟨(cs.takeWhile (fun c => !isSeparator c)).reverse⟩

/-- Lines 143-157 of `Ingest`: the timeline of the application, created on first sight,
with its activity stamp and display data refreshed. -/
def touchTimeline (e : Engine) (app : AppState) : appTimeline :=
  let tl : appTimeline :=
    match e.apps.get? app.AppID with
    | some tl => tl
    | none =>
      { appID := app.AppID, exe := app.ExecutablePath, name := filepathBase app.ExecutablePath,
        lastActivity := zeroTime, snapshots := [], ramBytes := 0 }
  if app.ExecutablePath ≠ "" then
    { tl with lastActivity := app.Timestamp, exe := app.ExecutablePath,
              name := filepathBase app.ExecutablePath }
  else { tl with lastActivity := app.Timestamp }

/-- Lines 161-172 of `Ingest`: the full state the new observation is compared with. -/
def diffBase (disk : Disk) (tl : appTimeline) (app : AppState) : FullSnapshot :=
  match tl.snapshots.getLast? with
  | none => { App := app }
  | some l =>
    match resolveSnapshotLocked disk tl l.SnapshotID with
    | .ok r => r.2
    | .error _ => { App := app }

/-- The test of line 178 on the delta. -/
def noChange (d : StateDelta) : Bool :=
  !d.WindowsChanged && !d.ClipboardChanged && decide (d.FilesAdded.length = 0) &&
    decide (d.FilesRemoved.length = 0) && !d.PluginChanged

/-- Lines 183-205 of `Ingest`: the new snapshot, checkpointed when the length of the
timeline is a multiple of 30 and the write goes through, and the disk afterwards. -/
def newSnapshot (disk : Disk) (env : IngestEnv) (tl : appTimeline) (app : AppState)
    (delta : StateDelta) : Disk × Snapshot :=
  let snap : Snapshot :=
    { SnapshotID := env.uuid, AppID := app.AppID,
      BaseSnapshotID := tl.snapshots.getLast?.map (fun s => s.SnapshotID),
      Delta := delta, Timestamp := app.Timestamp, Spilled := false, DiskRef := "" }
  if tl.snapshots.length % 30 = 0 then
    match spillFullSnapshotLocked disk env.spill app.AppID { App := app } with
    | (disk', .ok ref) =>
      (disk', { snap with Spilled := true, DiskRef := ref, BaseSnapshotID := none })
    | (disk', .error _) => (disk', snap)
  else (disk, snap)

/-- Lines 207-212 of `Ingest`: the append and the trim to the cap (a negative cap, which
`NewEngine` never leaves, would make the slice expression panic). -/
def appendCapped (cap : Int) (snaps : List Snapshot) (snap : Snapshot) : List Snapshot :=
  let all := snaps ++ [snap]
  if (all.length : Int) > cap then all.drop ((all.length : Int) - cap).toNat else all

/-- What `Ingest` returns and leaves behind. -/
structure IngestResult where
  engine : Engine
  disk : Disk
  meta : Option SnapshotMeta
  err : Option String
deriving DecidableEq, Repr

/-- The method `Ingest` (its debug prints left out). -/
def Ingest (e : Engine) (disk : Disk) (env : IngestEnv) (app : AppState) : IngestResult :=
  let tl := applyRetentionLocked e.cfg env.now (touchTimeline e app)
  let base := diffBase disk tl app
  let delta := diffStates base.App app
  if tl.snapshots.length > 0 && noChange delta then
    { engine := { e with apps := e.apps.set app.AppID tl }, disk := disk, meta := none,
      err := none }
  else
    let made := newSnapshot disk env tl app delta
    let tl' := { tl with snapshots := appendCapped e.cfg.MaxSnapshotsPerApp tl.snapshots made.2 }
    { engine := { e with apps := e.apps.set app.AppID tl' }, disk := made.1,
      meta := some
        { SnapshotID := env.uuid, AppID := app.AppID, Timestamp := app.Timestamp / 1000000,
          WindowsCount := app.Windows.length, FilesAdded := delta.FilesAdded.length,
          FilesRemoved := delta.FilesRemoved.length },
      err := none }

/-! ## internal/snapshot/engine.go: the timeline listing -/

/-- The summary `GetTimeline` builds for one snapshot (lines 125-132): `UnixMilli` rounds
the instant down to the millisecond, and the counts are those of the delta. -/
def summaryOf (s : Snapshot) : SnapshotMeta :=
  { SnapshotID := s.SnapshotID, AppID := s.AppID, Timestamp := s.Timestamp / 1000000,
    WindowsCount := s.Delta.WindowDiffs.length, FilesAdded := s.Delta.FilesAdded.length,
    FilesRemoved := s.Delta.FilesRemoved.length }

/-- The method `GetTimeline`: the nil slice for an unknown application, and otherwise the
summaries sorted by `sort.Slice` with `out[i].Timestamp > out[j].Timestamp`. -/
def GetTimeline (e : Engine) (appID : String) : List SnapshotMeta :=
  match e.apps.get? appID with
  | none => []
  | some tl =>
    (tl.snapshots.map summaryOf).insertionSort (fun a b => b.Timestamp ≤ a.Timestamp)

/-! ## internal/plugins -/

/-- The function `strings.Contains`. -/
def stringsContains (s sub : String) : Bool :=
  s.data.tails.any (fun t => sub.data.isPrefixOf t)

/-- The helper `quote` of the VS Code plugin: `strings.ContainsAny(s, " \t")` decides whether
the text is put between double quotes. -/
def quote (s : String) : String :=
  if s.data.any (fun c => c = ' ' || c = '\t') then "\"" ++ s ++ "\"" else s

/-- What a restore does to the outside world, one entry per call, in order: a progress
report and an error report (the events `onRestoreProgress` and `onRestoreError`, whose
application and snapshot ids are those of the call), a `ShellExecuteW` of a document, a
`CreateProcess` with its application name, command line and working directory (absent where
the pointer passed is nil), the wait for a window of a process with its answer, and the calls
`ShowWindow`, `MoveWindow`, `BringWindowToTop` and `SetForegroundWindow` on a window handle. -/
inductive RestoreEvent where
  | progress (stage : String) (percent : Int) (msg : String)
  | restoreError (msg : String)
  | shellOpen (path : String)
  | createProcess (app : Option String) (args : Option String) (wd : Option String)
  | waitForAnyWindow (pid : Int) (found : Bool)
  | showWindow (hwnd : Nat) (cmd : Nat)
  | moveWindow (hwnd : Nat) (x y width height : Int)
  | bringWindowToTop (hwnd : Nat)
  | setForegroundWindow (hwnd : Nat)
deriving DecidableEq, Repr

/-- The answers of the system to one restore, taken from a system whose windows do not change
while the restore runs: whether `OpenProcess` succeeds for a 32-bit process id, what
`CreateProcess` returns (the new process id or an error), whether a window of a process shows
up within the five seconds of `waitForAnyWindow`, the handles `EnumWindows` lists for a
process, whether `IsWindow` holds of a handle, the process id, class name and title of a
window, and what the type assertions of the plugins find in a plugin map whose values the
embedding keeps as JSON text: the `[]string` under `vscode`/`paths` and the one under
`office`/`docs`. -/
structure RestoreEnv where
  openProcess : Nat → Bool
  createProcess : Option String → Option String → Option String → Except String Nat
  windowAppears : Int → Bool
  enumWindows : Int → List Nat
  isWindow : Nat → Bool
  windowPID : Nat → Nat
  className : Nat → String
  title : Nat → String
  vscodePaths : PluginData → Option (List String)
  officeDocs : PluginData → Option (List String)

/-- The method `VSCodePlugin.CanHandle`. -/
def VSCodePlugin.CanHandle (app : AppState) : Bool :=
  let base := toLower (filepathBase app.ExecutablePath)
  base = "code.exe" || base = "code - insiders.exe" || stringsContains base "code"

/-- The method `VSCodePlugin.Restore`: a command line is built from the saved paths when the
state has none. -/
def VSCodePlugin.Restore (env : RestoreEnv) (app : AppState) : AppState :=
  match env.vscodePaths app.PluginData with
  | none => app
  | some raw =>
    if raw.length > 0 && app.CommandLine = "" && app.ExecutablePath ≠ "" then
      { app with CommandLine := " ".intercalate (quote app.ExecutablePath :: raw.map quote) }
    else app

/-- The method `ChromePlugin.CanHandle`. -/
def ChromePlugin.CanHandle (app : AppState) : Bool :=
  let base := toLower (filepathBase app.ExecutablePath)
  base = "chrome.exe" || base = "msedge.exe" || base = "brave.exe"

/-- The method `ChromePlugin.Restore`. -/
def ChromePlugin.Restore (app : AppState) : AppState :=
  if app.CommandLine = "" then app
  else if !stringsContains app.CommandLine "--restore-last-session" then
    { app with CommandLine := app.CommandLine ++ " --restore-last-session" }
  else app

/-- The method `OfficePlugin.CanHandle`. -/
def OfficePlugin.CanHandle (app : AppState) : Bool :=
  let base := toLower (filepathBase app.ExecutablePath)
  base = "winword.exe" || base = "excel.exe" || base = "powerpnt.exe"

/-- The method `OfficePlugin.Restore`: the saved documents are opened, the state is left as
it is. -/
def OfficePlugin.Restore (env : RestoreEnv) (app : AppState) : List RestoreEvent :=
  match env.officeDocs app.PluginData with
  | none => []
  | some docs => docs.map RestoreEvent.shellOpen

/-- The method `Registry.Restore` on the default registry (VS Code, Chrome, Office, in that
order): the state afterwards and what was done. -/
def Registry.Restore (env : RestoreEnv) (app : AppState) : AppState × List RestoreEvent :=
  let app₁ := if VSCodePlugin.CanHandle app then VSCodePlugin.Restore env app else app
  let app₂ := if ChromePlugin.CanHandle app₁ then ChromePlugin.Restore app₁ else app₁
  if OfficePlugin.CanHandle app₂ then (app₂, OfficePlugin.Restore env app₂) else (app₂, [])

/-! ## internal/restore/engine_windows.go -/

/-- The result of `windows.UTF16PtrFromString` with its error dropped: nil for a text that
holds a NUL. -/
def utf16Ptr (s : String) : Option String :=
  if s.data.contains (Char.ofNat 0) then none else some s

/-- The function `processExists`: `OpenProcess` is called on `uint32(pid)`. -/
def processExists (env : RestoreEnv) (pid : Int) : Bool :=
  env.openProcess (pid % 4294967296).toNat

/-- The function `relaunch`: what was done, and the new process id or the error. -/
def relaunch (env : RestoreEnv) (exePath cmdLine workingDir : String) :
    List RestoreEvent × Except String Int :=
  if exePath = "" && cmdLine = "" then ([], .error "missing executable path/command line")
  else
    let args := if cmdLine = "" then "\"" ++ exePath ++ "\"" else cmdLine
    let wd := if workingDir ≠ "" then utf16Ptr workingDir else none
    let cl := utf16Ptr args
    let appPtr := if exePath ≠ "" then utf16Ptr exePath else none
    match env.createProcess appPtr cl wd with
    | .error err => ([.createProcess appPtr cl wd], .error err)
    | .ok pid => ([.createProcess appPtr cl wd], .ok (pid : Int))

/-- The inner loop of `sortByZ`: the window `w`, which stands right of the windows `pre`
(given last first), is swapped with its left neighbour as long as that one has a greater
z-order. -/
def sinkByZ (w : WindowState) : List WindowState → List WindowState
  | [] => [w]
  | x :: pre => if x.ZOrder > w.ZOrder then x :: sinkByZ w pre else w :: x :: pre

/-- The function `sortByZ`: the windows are taken from left to right, each one sunk into
those before it. -/
def sortByZ (ws : List WindowState) : List WindowState :=
  (ws.foldl (fun pre w => sinkByZ w pre) []).reverse

/-- The test `h != 0 && isWindow(h) && int(getWindowPID(h)) == pid`. -/
def ownedWindow (env : RestoreEnv) (pid : Int) (h : Nat) : Bool :=
  decide (h ≠ 0) && env.isWindow h && decide ((env.windowPID h : Int) = pid)

/-- The conversion of a 32-bit integer to the `int` argument of a system call. -/
def wrap32 (x : Int) : Int := (x + 2147483648) % 4294967296 - 2147483648

/-- The function `applyWindowState`: the show state (`SW_SHOWMINIMIZED` = 2,
`SW_SHOWMAXIMIZED` = 3, `SW_SHOWNORMAL` = 1), then the rectangle. -/
def applyWindowState (hwnd : Nat) (sw : WindowState) : List RestoreEvent :=
  [.showWindow hwnd (if sw.IsMinimized then 2 else if sw.IsMaximized then 3 else 1),
   .moveWindow hwnd (wrap32 sw.Rect.Left) (wrap32 sw.Rect.Top)
     (wrap32 (sw.Rect.Right - sw.Rect.Left)) (wrap32 (sw.Rect.Bottom - sw.Rect.Top))]

/-- The function `findBestWindow`. -/
def findBestWindow (env : RestoreEnv) (current : List Nat) (sw : WindowState) : Nat :=
  match current.find? (fun h => env.className h = sw.ClassName && env.title h = sw.Title) with
  | some h => h
  | none =>
    match current.find? (fun h => env.className h = sw.ClassName) with
    | some h => h
    | none =>
      match current with
      | h :: _ => h
      | [] => 0

/-- The body of the first loop of `restoreWindows` (lines 124-132): the saved handle when it
is still a window of the process, the result of `findBestWindow` otherwise. -/
def placeWindow (env : RestoreEnv) (pid : Int) (current : List Nat) (sw : WindowState) :
    List RestoreEvent :=
  if ownedWindow env pid sw.HWND then applyWindowState sw.HWND sw
  else
    let best := findBestWindow env current sw
    if best ≠ 0 then applyWindowState best sw else []

/-- The function `restoreWindows`, which returns no error on any path: nothing is done for
a process without windows; otherwise every saved window is placed, the saved windows are
sorted, and those whose handle is still a window of the process are raised. -/
def restoreWindows (env : RestoreEnv) (pid : Int) (saved : List WindowState) :
    List RestoreEvent :=
  let current := env.enumWindows pid
  if current.length = 0 then []
  else
    (saved.map (placeWindow env pid current)).flatten ++
      ((sortByZ saved).filter (fun sw => ownedWindow env pid sw.HWND)).map
        (fun sw => RestoreEvent.bringWindowToTop sw.HWND)

/-- The function `restoreFocus`. -/
def restoreFocus (env : RestoreEnv) (pid : Int) (saved : List WindowState) :
    List RestoreEvent :=
  match saved.find? (fun sw => sw.IsForeground && ownedWindow env pid sw.HWND) with
  | some sw => [.setForegroundWindow sw.HWND]
  | none =>
    match env.enumWindows pid with
    | h :: _ => [.setForegroundWindow h]
    | [] => []

/-- What `RestoreSnapshot` returns and what it did. -/
structure RestoreResult where
  events : List RestoreEvent
  err : Option String
deriving DecidableEq, Repr

/-- Lines 41-48 of `RestoreSnapshot`: the two window stages.  `restoreWindows` sorts the
saved windows in place unless the process shows no window, and `restoreFocus` is handed the
same slice. -/
def restoreStages (env : RestoreEnv) (pid : Int) (app : AppState) : List RestoreEvent :=
  [.progress "restore_windows" 60 "Restoring window positions"] ++
    restoreWindows env pid app.Windows ++
    [.progress "restore_focus" 90 "Restoring focus"] ++
    restoreFocus env pid
      (if (env.enumWindows pid).length = 0 then app.Windows else sortByZ app.Windows)

/-- The method `RestoreSnapshot`; `full` is `none` for the nil pointer, and the progress
callback is recorded among the events. -/
def RestoreSnapshot (env : RestoreEnv) (_snap : Snapshot) (full : Option FullSnapshot) :
    RestoreResult :=
  match full with
  | none => { events := [], err := some "no snapshot state" }
  | some full =>
    let restored := Registry.Restore env full.App
    let app := restored.1
    let evs := restored.2 ++ [.progress "ensure_process" 15 "Ensuring process exists"]
    if app.PID ≤ 0 || !processExists env app.PID then
      match relaunch env app.ExecutablePath app.CommandLine app.WorkingDir with
      | (done, .error err) => { events := evs ++ done, err := some err }
      | (done, .ok npid) =>
        { events := evs ++ done ++
            [.progress "wait_windows" 35 "Waiting for main window",
             .waitForAnyWindow npid (env.windowAppears npid)] ++
            restoreStages env npid app,
          err := none }
    else { events := evs ++ restoreStages env app.PID app, err := none }

/-! ## internal/services/services.go -/

/-- The method `Services.Restore`, on the snapshot engine and the storage directory it finds:
the stage `resolve`, the resolution, the restore, and the stage `done`; an error is reported
and returned. -/
def Services.Restore (env : RestoreEnv) (e : Engine) (disk : Disk) (appID snapshotID : String) :
    RestoreResult :=
  match ResolveSnapshot e disk appID snapshotID with
  | .error err =>
    { events := [.progress "resolve" 5 "Resolving snapshot", .restoreError err],
      err := some err }
  | .ok (snap, full) =>
    match RestoreSnapshot env snap (some full) with
    | { events := evs, err := some err } =>
      { events := .progress "resolve" 5 "Resolving snapshot" :: evs ++ [.restoreError err],
        err := some err }
    | { events := evs, err := none } =>
      { events := .progress "resolve" 5 "Resolving snapshot" :: evs ++
          [.progress "done" 100 "Restore completed"],
        err := none }

/-! ## internal/policy/config.go -/

structure ResourceLimits where
  MaxRAMBytes : Int
  MaxDiskBytes : Int
  MaxSnapshotsPerApp : Int
deriving DecidableEq, Repr

structure Rules where
  ExcludeExeNames : List String
  ExcludePathSubstr : List String
  ExcludeWindowClasses : List String
deriving DecidableEq, Repr

structure Config where
  Retention : Int
  StorageDir : String
  ResourceLimits : ResourceLimits
  Rules : Rules
deriving DecidableEq, Repr

/-- The method `Rules.Allow`: the three loops, each returning false at its first hit. -/
def Rules.Allow (r : Rules) (exePath windowClass : String) : Bool :=
  let exeLower := toLower (filepathBase exePath)
  let pathLower := toLower exePath
  let classLower := toLower windowClass
  if r.ExcludeExeNames.any (fun n => exeLower = toLower n) then false
  else if r.ExcludePathSubstr.any
      (fun s => decide (s ≠ "") && stringsContains pathLower (toLower s)) then false
  else if r.ExcludeWindowClasses.any
      (fun c => decide (c ≠ "") && decide (classLower = toLower c)) then false
  else true

/-- The function `DefaultConfig`, for the directory `defaultStorageDir` finds.  The path entry
is written in the source as a raw string literal, between back quotes, in which a backslash
escapes nothing: its text holds two backslashes wherever the literal shows two. -/
def DefaultConfig (base : String) : Config :=
  { Retention := 24 * hour
    StorageDir := base
    ResourceLimits :=
      { MaxRAMBytes := 256 * 1024 * 1024
        MaxDiskBytes := 2 * 1024 * 1024 * 1024
        MaxSnapshotsPerApp := 500 }
    Rules :=
      { ExcludeExeNames := ["keepass.exe"]
        ExcludePathSubstr := ["\\\\AppData\\\\Local\\\\Temp\\\\"]
        ExcludeWindowClasses := [] } }

/-! ## Vocabulary of the theorems -/

/-- A map whose entries are filed under the handle of the window they hold. -/
def Keyed (m : GoMap Nat WindowState) : Prop := ∀ h w, GoMap.get? m h = some w → w.HWND = h

/-- The descriptor a state holds for a window handle: the entry of the map that `diffStates`
and `applyDelta` build from the window list (for a list with pairwise distinct handles, the
one window with that handle). -/
def windowOf (app : AppState) (h : Nat) : Option WindowState :=
  GoMap.get? (windowMap app.Windows) h

/-- The fields `windowEq` compares. -/
def comparedFields (w : WindowState) : Rect × String × Int × Bool × Bool × Bool × String :=
  (w.Rect, w.MonitorID, w.ZOrder, w.IsForeground, w.IsMinimized, w.IsMaximized, w.VirtualDesktop)

/-- The open-file paths of a state, lower-cased and trimmed. -/
def normPaths (app : AppState) : List String :=
  app.OpenFiles.map (fun f => stringsToLower f.Path)

/-- The handles of the windows of a state. -/
def handles (app : AppState) : List Nat :=
  app.Windows.map (fun w => w.HWND)

/-- The chain `resolveSnapshotLocked` collects for a snapshot id, newest first: one delta
is replayed for each of its links. -/
def resolveChain (snaps : List Snapshot) (snapshotID : String) : List Snapshot :=
  match findSnapshot snaps snapshotID with
  | none => []
  | some idx => collectChain snaps idx

/-- The snapshots an engine holds for an application (none when it has no timeline). -/
def snapshotsOf (e : Engine) (appID : String) : List Snapshot :=
  match e.apps.get? appID with
  | some tl => tl.snapshots
  | none => []

/-- The store: the engine together with the checkpoint files under its storage directory. -/
structure Store where
  engine : Engine
  disk : Disk
deriving DecidableEq, Repr

/-- One call of `Ingest`: the observation, and what the runtime answers during the call. -/
structure Step where
  env : IngestEnv
  app : AppState
deriving DecidableEq, Repr

/-- An engine just built by `NewEngine`, over a storage directory holding the files `disk`. -/
def Store.start (cfg : EngineConfig) (disk : Disk) : Store :=
  { engine := NewEngine cfg, disk := disk }

/-- The result of one `Ingest` call on a store. -/
def Store.ingest (s : Store) (st : Step) : IngestResult :=
  Ingest s.engine s.disk st.env st.app

/-- The store after one `Ingest` call. -/
def Store.step (s : Store) (st : Step) : Store :=
  { engine := (s.ingest st).engine, disk := (s.ingest st).disk }

/-- The store after successive `Ingest` calls. -/
def Store.run (s : Store) (steps : List Step) : Store :=
  steps.foldl Store.step s

/-- A property of every call of a run, each call judged on the store it finds. -/
def RunAll (P : Store → Step → Prop) : Store → List Step → Prop
  | _, [] => True
  | s, st :: rest => P s st ∧ RunAll P (s.step st) rest

/-- The call evicts no snapshot of the application: retention keeps every snapshot of its
timeline, and an append stays within the cap. -/
def NoEviction (s : Store) (st : Step) : Prop :=
  (∀ sn ∈ snapshotsOf s.engine st.app.AppID,
    s.engine.cfg.Retention ≤ 0 ∨ sn.Timestamp > st.env.now - s.engine.cfg.Retention) ∧
  ((snapshotsOf s.engine st.app.AppID).length : Int) < s.engine.cfg.MaxSnapshotsPerApp

/-- The identifier drawn by the call is not in use in the timeline of the application. -/
def FreshID (s : Store) (st : Step) : Prop :=
  st.env.uuid ∉ (snapshotsOf s.engine st.app.AppID).map (fun sn => sn.SnapshotID)

/-- The checkpoint write of the call goes through, its file is within the read guard of
`loadFullSnapshotLocked`, and its name is not that of a file with another content (the name
is a digest of the content). -/
def CheckpointOK (s : Store) (st : Step) : Prop :=
  match st.env.spill with
  | none => False
  | some o =>
    o.size ≤ readLimit ∧
    (s.disk.get? (joinRef st.app.AppID (o.digest ++ ".json.gz")) = none ∨
      s.disk.get? (joinRef st.app.AppID (o.digest ++ ".json.gz")) =
        some { fs := { App := st.app }, size := o.size })

/-- The checkpoint write of the call goes through. -/
def WriteOK (_s : Store) (st : Step) : Prop :=
  st.env.spill ≠ none

/-- A call during which no snapshot is evicted, the identifier is fresh and the checkpoint
write goes through. -/
def CalmStep (s : Store) (st : Step) : Prop :=
  NoEviction s st ∧ FreshID s st ∧ WriteOK s st

/-- A call during which no snapshot is evicted, the identifier is fresh, and the checkpoint
write goes through with a file that can be read back. -/
def GoodStep (s : Store) (st : Step) : Prop :=
  NoEviction s st ∧ FreshID s st ∧ CheckpointOK s st

/-- The call creates a snapshot. -/
def Creates (s : Store) (st : Step) : Prop :=
  (s.ingest st).meta ≠ none

instance (s : Store) (st : Step) : Decidable (NoEviction s st) := by
  unfold NoEviction
  infer_instance

instance (s : Store) (st : Step) : Decidable (FreshID s st) := by
  unfold FreshID
  infer_instance

instance (s : Store) (st : Step) : Decidable (CheckpointOK s st) := by
  unfold CheckpointOK
  cases st.env.spill <;> infer_instance

instance (s : Store) (st : Step) : Decidable (GoodStep s st) := by
  unfold GoodStep
  infer_instance

instance (s : Store) (st : Step) : Decidable (WriteOK s st) := by
  unfold WriteOK
  infer_instance

instance (s : Store) (st : Step) : Decidable (CalmStep s st) := by
  unfold CalmStep
  infer_instance

instance (s : Store) (st : Step) : Decidable (Creates s st) := by
  unfold Creates
  infer_instance

instance (P : Store → Step → Prop) [∀ s st, Decidable (P s st)] (s : Store) (steps : List Step) :
    Decidable (RunAll P s steps) := by
  induction steps generalizing s with
  | nil => exact isTrue trivial
  | cons st rest ih =>
    unfold RunAll
    exact @instDecidableAnd _ _ _ (ih _)

/-- The timeline of the application as `Ingest` sees it after lines 143-159: looked up or
created, refreshed, and filtered by retention. -/
def retained (s : Store) (st : Step) : appTimeline :=
  applyRetentionLocked s.engine.cfg st.env.now (touchTimeline s.engine st.app)

/-- The delta `Ingest` computes for the call (line 174). -/
def ingestDelta (s : Store) (st : Step) : StateDelta :=
  diffStates (diffBase s.disk (retained s st) st.app).App st.app

/-- The shape of a timeline from which nothing was evicted and whose checkpoint writes went
through: identifiers pairwise distinct, and a checkpoint exactly at every index that is a
multiple of 30. -/
def TimelineShape (snaps : List Snapshot) : Prop :=
  (snaps.map (fun sn => sn.SnapshotID)).Nodup ∧
  (∀ i sn, snaps[i]? = some sn → (isCheckpoint sn = true ↔ i % 30 = 0))

/-- Every timeline of the store has the shape `TimelineShape`. -/
def StoreShape (s : Store) : Prop :=
  ∀ a, TimelineShape (snapshotsOf s.engine a)

/-- A timeline as runs without eviction and with successful checkpoint writes leave it:
identifiers pairwise distinct, a checkpoint exactly at every index that is a multiple of 30,
and every checkpoint file on disk within the read guard. -/
def TimelineOK (disk : Disk) (snaps : List Snapshot) : Prop :=
  (snaps.map (fun sn => sn.SnapshotID)).Nodup ∧
  (∀ i sn, snaps[i]? = some sn → (isCheckpoint sn = true ↔ i % 30 = 0)) ∧
  (∀ sn ∈ snaps, isCheckpoint sn = true →
    ∃ f, disk.get? sn.DiskRef = some f ∧ f.size ≤ readLimit)

/-- Every timeline of the store is as `TimelineOK` describes. -/
def StoreOK (s : Store) : Prop :=
  ∀ a, TimelineOK s.disk (snapshotsOf s.engine a)

/-- Every file of the first disk is on the second, unchanged. -/
def DiskLe (d₁ d₂ : Disk) : Prop :=
  ∀ r f, d₁.get? r = some f → d₂.get? r = some f

/-- What a resolved full state shares with the observation it reconstructs: for every handle
the fields `windowEq` compares (or no window on either side), the set of lower-cased, trimmed
open-file paths, and the plugin map as serialised bytes; nothing is said of the plugin map
where the observation holds the empty (non-nil) map. -/
def Reconstructs (full obs : AppState) : Prop :=
  (∀ h, (windowOf full h).map comparedFields = (windowOf obs h).map comparedFields) ∧
  (∀ p, p ∈ normPaths full ↔ p ∈ normPaths obs) ∧
  (obs.PluginData ≠ some [] → jsonMarshal full.PluginData = jsonMarshal obs.PluginData)

/-- What `diffStates` reports when nothing is flagged: no changed category and no file
added or removed. -/
def Unchanged (d : StateDelta) : Prop :=
  d.WindowsChanged = false ∧ d.ClipboardChanged = false ∧ d.PluginChanged = false ∧
    d.FilesAdded = [] ∧ d.FilesRemoved = []

/-- The full state a snapshot id resolves to, when it resolves. -/
def resolvedState (s : Store) (appID snapshotID : String) : Option AppState :=
  match ResolveSnapshot s.engine s.disk appID snapshotID with
  | .ok r => some r.2.App
  | .error _ => none

/-- The three cases in which a resolution fails: the application has no timeline, the
identifier is not in its timeline, or the oldest link of the chain is a checkpoint whose file
does not load. -/
def ResolveFails (e : Engine) (disk : Disk) (appID snapshotID : String) : Prop :=
  e.apps.get? appID = none ∨
  snapshotID ∉ (snapshotsOf e appID).map (fun sn => sn.SnapshotID) ∨
  ∃ last err, (resolveChain (snapshotsOf e appID) snapshotID).getLast? = some last ∧
    isCheckpoint last = true ∧ loadFullSnapshotLocked disk last.DiskRef = .error err

/-- The handle an event raises to the top, if it is a `BringWindowToTop` call. -/
def raisedHandle : RestoreEvent → Option Nat
  | .bringWindowToTop h => some h
  | _ => none

/-- The handle an event shows, if it is a `ShowWindow` call. -/
def shownHandle : RestoreEvent → Option Nat
  | .showWindow h _ => some h
  | _ => none

/-- The stages an event list reports, with their percentages. -/
def stagesOf (evs : List RestoreEvent) : List (String × Int) :=
  evs.filterMap (fun ev =>
    match ev with
    | .progress stage percent _ => some (stage, percent)
    | _ => none)

/-- The six stages of a restore that relaunches the process. -/
def allStages : List (String × Int) :=
  [("resolve", 5), ("ensure_process", 15), ("wait_windows", 35), ("restore_windows", 60),
   ("restore_focus", 90), ("done", 100)]

/-- The five stages of a restore that finds the process alive. -/
def aliveStages : List (String × Int) :=
  [("resolve", 5), ("ensure_process", 15), ("restore_windows", 60), ("restore_focus", 90),
   ("done", 100)]

/-- The restore of a snapshot relaunches the process with success: the snapshot resolves,
the process of the resolved state (after the plugins have had their say) is not found, and
`relaunch` returns a process id. -/
def Relaunched (env : RestoreEnv) (e : Engine) (disk : Disk) (appID snapshotID : String) :
    Prop :=
  ∃ snap full npid, ResolveSnapshot e disk appID snapshotID = .ok (snap, full) ∧
    ((Registry.Restore env full.App).1.PID ≤ 0 ∨
      processExists env (Registry.Restore env full.App).1.PID = false) ∧
    (relaunch env (Registry.Restore env full.App).1.ExecutablePath
      (Registry.Restore env full.App).1.CommandLine
      (Registry.Restore env full.App).1.WorkingDir).2 = .ok npid

/-- How the checkpoint fields of a snapshot go together: it is marked spilled exactly when
its disk reference is not empty, and a spilled snapshot has no parent id. -/
def SpillShape (sn : Snapshot) : Prop :=
  (sn.Spilled = true ↔ sn.DiskRef ≠ "") ∧ (sn.Spilled = true → sn.BaseSnapshotID = none)

/-- The two observations differ in what `diffStates` reads off the windows or the open
files: some handle has a window in one state and none in the other, or windows that differ in
a field `windowEq` compares; or some lower-cased, trimmed path is among the open files of one
state and not of the other. -/
def Differs (a b : AppState) : Prop :=
  (∃ h ∈ handles a ++ handles b,
    (windowOf a h).map comparedFields ≠ (windowOf b h).map comparedFields) ∨
  (∃ p ∈ normPaths a ++ normPaths b, ¬ (p ∈ normPaths a ↔ p ∈ normPaths b))

set_option synthInstance.maxSize 1000 in
instance (a b : AppState) : Decidable (Differs a b) := by
  unfold Differs
  infer_instance

/-- The pairs of consecutive observations of a run: each one with the one before it. -/
def consecutive (steps : List Step) : List (AppState × AppState) :=
  (steps.zip steps.tail).map (fun p => (p.1.app, p.2.app))

/-! ## Concrete inputs -/

/-- A window with the given handle, left edge, z-order and title. -/
def sampleWindow (h : Nat) (left z : Int) (title : String) : WindowState :=
  { HWND := h, Rect := { Left := left, Top := 0, Right := left + 800, Bottom := 600 },
    MonitorID := "M1", ZOrder := z, IsForeground := true, IsMinimized := false,
    IsMaximized := false, VirtualDesktop := "", ClassName := "Notepad", Title := title }

/-- An observation of the application `app` (process 42). -/
def sampleState (ws : List WindowState) (files : List String) (clip : String)
    (plugin : PluginData) (ts : Int) : AppState :=
  { AppID := "app", PID := 42, ExecutablePath := "C:\\app.exe", CommandLine := "",
    WorkingDir := "", ForegroundWindowClass := "Notepad", Windows := ws,
    OpenFiles := files.map (fun p => { Path := p }), ClipboardHash := clip,
    PluginData := plugin, InputState := { InputLanguage := "" }, Timestamp := ts }

/-- A configuration with the defaults of `policy.DefaultConfig`: 500 snapshots per
application, retention of 24 hours. -/
def sampleConfig : EngineConfig :=
  { MaxSnapshotsPerApp := 500, MaxRAMBytes := 256 * 1024 * 1024,
    MaxDiskBytes := 2 * 1024 * 1024 * 1024, Retention := 24 * hour, StorageDir := "snapshots" }

/-- The answers of the runtime to a call: the clock, an identifier, and a checkpoint write
that goes through with a file of 1000 bytes named after the identifier. -/
def sampleEnv (now : Int) (id : String) : IngestEnv :=
  { now := now, uuid := id, spill := some { digest := id, size := 1000 } }

/-- The answers of the runtime to a call whose checkpoint write fails. -/
def failingEnv (now : Int) (id : String) : IngestEnv :=
  { now := now, uuid := id, spill := none }

/-- Observation S1 of the scenario of the specification: one window, no files. -/
def obsS1 : AppState := sampleState [sampleWindow 1 0 0 "Untitled"] [] "" none 1

/-- Observation S2 of the scenario: the window of S1, moved. -/
def obsS2 : AppState := sampleState [sampleWindow 1 100 0 "Untitled"] [] "" none 2

/-- The scenario: S1 is ingested, then S2. -/
def scenarioSteps : List Step :=
  [{ env := sampleEnv 3 "id-1", app := obsS1 }, { env := sampleEnv 4 "id-2", app := obsS2 }]

/-- Observation S1 as the capture path delivers it: `Registry.Capture` has replaced the nil
plugin map by an empty one. -/
def obsCaptured : AppState := sampleState [sampleWindow 1 0 0 "Untitled"] [] "" (some []) 1

/-- The `i`-th observation of a run in which every call sees a change: one window, moved
`i` units to the right. -/
def movingObs (i : Nat) : AppState :=
  sampleState [sampleWindow 1 i 0 "Untitled"] [] "" none i

/-- An identifier for the `i`-th call of a run: `i + 1` letters. -/
def idOf (i : Nat) : String := ⟨List.replicate (i + 1) 'x'⟩

/-- A run of `n` calls, each with a moved window, a fresh identifier and a checkpoint
write that goes through. -/
def movingSteps (n : Nat) : List Step :=
  (List.range n).map (fun i => { env := sampleEnv n (idOf i), app := movingObs i })

/-- A run of `n` calls, each with a moved window and a fresh identifier, in which every
checkpoint write fails. -/
def failingSteps (n : Nat) : List Step :=
  (List.range n).map (fun i => { env := failingEnv n (idOf i), app := movingObs i })

/-- An observation with clipboard fingerprint `h0`. -/
def obsClipA : AppState := sampleState [sampleWindow 1 0 0 "Untitled"] [] "h0" none 1

/-- The observation `obsClipA` after the clipboard changed: fingerprint `h1`. -/
def obsClipB : AppState := sampleState [sampleWindow 1 0 0 "Untitled"] [] "h1" none 2

/-- An observation whose capture timestamp lies four days before the clock of the call that
ingests it. -/
def obsStale : AppState := sampleState [sampleWindow 1 0 0 "Untitled"] [] "" none 0

/-- An observation with one titled window and one open file. -/
def obsTitled : AppState :=
  sampleState [sampleWindow 1 0 0 "old title"] ["C:\\Docs\\Report.TXT "] "h0" none 1

/-- The observation `obsTitled` with the window retitled and the same file reported with
another letter case and other surrounding blanks. -/
def obsRetitled : AppState :=
  sampleState [sampleWindow 1 0 0 "new title"] [" c:\\docs\\report.txt"] "h0" none 2

/-- An observation with two windows. -/
def obsTwo : AppState :=
  sampleState [sampleWindow 1 0 0 "a", sampleWindow 2 5 1 "b"] [] "" none 1

/-- The observation `obsTwo` with the first window moved and both retitled. -/
def obsTwoMoved : AppState :=
  sampleState [sampleWindow 1 10 0 "c", sampleWindow 2 5 1 "d"] [] "" none 2

/-- An observation with one window, one open file and a plugin entry. -/
def obsRich : AppState :=
  sampleState [sampleWindow 1 0 0 "Untitled"] ["c:\\docs\\report.txt"] "h0"
    (some [("chrome", "\"tab\"")]) 1

/-- A restore environment in which no process is alive and `CreateProcess` fails. -/
def deadEnv : RestoreEnv :=
  { openProcess := fun _ => false,
    createProcess := fun _ _ _ => .error "The system cannot find the file specified.",
    windowAppears := fun _ => false,
    enumWindows := fun _ => [],
    isWindow := fun _ => false,
    windowPID := fun _ => 0,
    className := fun _ => "",
    title := fun _ => "",
    vscodePaths := fun _ => none,
    officeDocs := fun _ => none }

/-- A resolved state without launch target: neither executable path nor command line. -/
def obsNoTarget : AppState :=
  { sampleState [sampleWindow 1 0 0 "Untitled"] [] "" none 1 with ExecutablePath := "" }

/-- A call that ingests `obsTwo`, captured at 5 ms. -/
def countStep1 : Step :=
  { env := sampleEnv 8000000 "id-1", app := { obsTwo with Timestamp := 5000000 } }

/-- A call that ingests `obsTwoMoved`, captured at 7 ms. -/
def countStep2 : Step :=
  { env := sampleEnv 9000000 "id-2", app := { obsTwoMoved with Timestamp := 7000000 } }

/-- A path under the temporary directory of a user, with single backslashes. -/
def tempExePath : String := "C:\\Users\\u\\AppData\\Local\\Temp\\setup.exe"

/-- Exclusion rules with one entry of each kind. -/
def sampleRules : Rules :=
  { ExcludeExeNames := ["KeePass.exe"], ExcludePathSubstr := ["", "\\Temp\\"],
    ExcludeWindowClasses := ["", "Shell_TrayWnd"] }

/-- A system in which process 42 has the two windows 10 and 11, both of class `Live`, and in
which no other handle is a window. -/
def twoLiveEnv : RestoreEnv :=
  { openProcess := fun p => p = 42,
    createProcess := fun _ _ _ => .error "The system cannot find the file specified.",
    windowAppears := fun _ => true,
    enumWindows := fun p => if p = 42 then [10, 11] else [],
    isWindow := fun h => h = 10 || h = 11,
    windowPID := fun h => if h = 10 || h = 11 then 42 else 0,
    className := fun _ => "Live",
    title := fun h => if h = 10 then "first" else "second",
    vscodePaths := fun _ => none,
    officeDocs := fun _ => none }

/-- A saved window whose handle, class and title are not those of a live window. -/
def savedA : WindowState := { sampleWindow 1 0 1 "a" with ClassName := "A" }

/-- Another such saved window, lower in the z-order. -/
def savedB : WindowState := { sampleWindow 2 50 0 "b" with ClassName := "B" }

/-- A system in which the saved process is gone, `CreateProcess` starts process 77, and no
window of it shows up before the wait times out. -/
def timeoutEnv : RestoreEnv :=
  { openProcess := fun _ => false,
    createProcess := fun _ _ _ => .ok 77,
    windowAppears := fun _ => false,
    enumWindows := fun _ => [],
    isWindow := fun _ => false,
    windowPID := fun _ => 0,
    className := fun _ => "",
    title := fun _ => "",
    vscodePaths := fun _ => none,
    officeDocs := fun _ => none }

/-- The store after S1 of the scenario has been ingested on a new engine. -/
def storeS1 : Store :=
  (Store.start sampleConfig []).step { env := sampleEnv 3 "id-1", app := obsS1 }

/-- The `i`-th observation of a run in which a plugin reports data: the moving window, with
a plugin entry. -/
def pluginObs (i : Nat) : AppState :=
  { movingObs i with PluginData := some [("vscode", "1")] }

/-- A run of 31 calls: 30 observations with a plugin entry, then one whose plugin map is
empty (and not nil), which falls on a checkpoint. -/
def pluginSteps : List Step :=
  (List.range 30).map (fun i => { env := sampleEnv 31 (idOf i), app := pluginObs i }) ++
    [{ env := sampleEnv 31 (idOf 30), app := { movingObs 30 with PluginData := some [] } }]

/-- An observation whose one window has a title of 11,000,000 characters: the JSON text of a
full snapshot of it is longer than the 10 MiB that `loadFullSnapshotLocked` reads. -/
def obsHuge : AppState :=
  sampleState [sampleWindow 1 0 0 ⟨List.replicate 11000000 'x'⟩] [] "" none 1

/-- The outcome of the checkpoint write of `obsHuge`: the write goes through, and the JSON
text is as long as the title and the 300 characters of the other fields. -/
def hugeOutcome : SpillOutcome := { digest := "huge", size := 11000300 }

/-- The store after S1 of the scenario, once the checkpoint file has been deleted from the
storage directory. -/
def storeLost : Store := { engine := storeS1.engine, disk := [] }

/-- A call that ingests `obsHuge`; its checkpoint write goes through, with `hugeOutcome`. -/
def hugeStep : Step :=
  { env := { now := 3, uuid := "id-1", spill := some hugeOutcome }, app := obsHuge }

/-- The `i`-th observation of a run in which only the title of the window and the capture
time change. -/
def retitledObs (i : Nat) : AppState :=
  sampleState [sampleWindow 1 0 0 (idOf i)] [] "" none i

/-- A run of `n` calls, each with the window retitled, a fresh identifier and a checkpoint
write that goes through. -/
def retitledSteps (n : Nat) : List Step :=
  (List.range n).map (fun i => { env := sampleEnv n (idOf i), app := retitledObs i })

/-! # Theorems -/

namespace GoMap
variable {K V : Type} [DecidableEq K]

theorem get?_set (m : GoMap K V) (k : K) (v : V) (k' : K) :
    get? (set m k v) k' = if k' = k then some v else get? m k' := by
  induction m with
  | nil => simp [set, get?]
  | cons e m ih =>
    obtain ⟨a, b⟩ := e
    simp only [set, get?]
    split_ifs with h1 h2 h3 h3 <;> simp_all [get?]

theorem get?_delete (m : GoMap K V) (k k' : K) :
    get? (delete m k) k' = if k' = k then none else get? m k' := by
  induction m with
  | nil => simp [delete, get?]
  | cons e m ih =>
    obtain ⟨a, b⟩ := e
    simp only [delete, get?]
    split_ifs with h1 h2 h3 h3 <;> simp_all [get?]
    intro h
    exact h1 h.symm

theorem mem_keys_iff (m : GoMap K V) (k : K) : k ∈ keys m ↔ (get? m k).isSome = true := by
  induction m with
  | nil => simp [keys, get?]
  | cons e m ih =>
    obtain ⟨a, b⟩ := e
    by_cases h : k = a
    · simp [keys, get?, h]
    · simp only [keys] at ih
      simp [keys, get?, h, ih]

theorem not_mem_keys_iff (m : GoMap K V) (k : K) : k ∉ keys m ↔ get? m k = none := by
  rw [mem_keys_iff]
  cases get? m k <;> simp

theorem mem_of_get? {m : GoMap K V} {k : K} {v : V} (h : get? m k = some v) : (k, v) ∈ m := by
  induction m with
  | nil => simp [get?] at h
  | cons e m ih =>
    obtain ⟨a, b⟩ := e
    by_cases h' : k = a
    · subst h'
      simp [get?] at h
      simp [h]
    · simp [get?, h'] at h
      exact List.mem_cons_of_mem _ (ih h)

theorem get?_of_mem {m : GoMap K V} (hn : (keys m).Nodup) {k : K} {v : V} (h : (k, v) ∈ m) :
    get? m k = some v := by
  induction m with
  | nil => simp at h
  | cons e m ih =>
    obtain ⟨a, b⟩ := e
    simp only [keys, List.map_cons, List.nodup_cons] at hn
    rcases List.mem_cons.1 h with h1 | h1
    · cases h1
      simp [get?]
    · have : k ≠ a := by
        rintro rfl
        exact hn.1 (List.mem_map.2 ⟨(k, v), h1, rfl⟩)
      simp [get?, this, ih hn.2 h1]

theorem mem_keys_set (m : GoMap K V) (k : K) (v : V) (k' : K) :
    k' ∈ keys (set m k v) ↔ k' = k ∨ k' ∈ keys m := by
  rw [mem_keys_iff, mem_keys_iff, get?_set]
  by_cases h : k' = k <;> simp [h]

theorem mem_keys_delete (m : GoMap K V) (k k' : K) :
    k' ∈ keys (delete m k) ↔ k' ≠ k ∧ k' ∈ keys m := by
  rw [mem_keys_iff, mem_keys_iff, get?_delete]
  by_cases h : k' = k <;> simp [h]

theorem nodup_keys_set {m : GoMap K V} (hn : (keys m).Nodup) (k : K) (v : V) :
    (keys (set m k v)).Nodup := by
  induction m with
  | nil => simp [set, keys]
  | cons e m ih =>
    obtain ⟨a, b⟩ := e
    simp only [keys, List.map_cons, List.nodup_cons] at hn
    by_cases h : k = a
    · subst h
      simpa [set, keys] using hn
    · have h1 : a ∉ keys (set m k v) := by
        rw [mem_keys_set]
        rintro (h' | h')
        · exact h h'.symm
        · exact hn.1 h'
      simp only [keys] at ih h1
      simp [set, keys, h, h1, ih hn.2]

theorem delete_sublist (m : GoMap K V) (k : K) : List.Sublist (delete m k) m := by
  induction m with
  | nil => simp [delete]
  | cons e m ih =>
    obtain ⟨a, b⟩ := e
    simp only [delete]
    split_ifs
    · exact List.Sublist.cons _ ih
    · exact List.Sublist.cons₂ _ ih

theorem nodup_keys_delete {m : GoMap K V} (hn : (keys m).Nodup) (k : K) :
    (keys (delete m k)).Nodup :=
  hn.sublist (List.Sublist.map _ (delete_sublist m k))

theorem mem_values_iff {m : GoMap K V} (hn : (keys m).Nodup) (v : V) :
    v ∈ values m ↔ ∃ k, get? m k = some v := by
  constructor
  · intro h
    obtain ⟨⟨k, v'⟩, hm, rfl⟩ := List.mem_map.1 h
    exact ⟨k, get?_of_mem hn hm⟩
  · rintro ⟨k, h⟩
    exact List.mem_map.2 ⟨(k, v), mem_of_get? h, rfl⟩

end GoMap

theorem toLower_upper (c : Char) (h : 65 ≤ c.toNat ∧ c.toNat ≤ 90) :
    ∃ n, 65 ≤ n ∧ n ≤ 90 ∧ c = Char.ofNat n ∧ c.toLower = Char.ofNat (n + 32) := by
  refine ⟨c.toNat, h.1, h.2, (Char.ofNat_toNat c).symm, ?_⟩
  show (if c.toNat ≥ 65 ∧ c.toNat ≤ 90 then Char.ofNat (c.toNat + 32) else c) = _
  rw [if_pos h]

theorem toLower_other (c : Char) (h : ¬ (65 ≤ c.toNat ∧ c.toNat ≤ 90)) : c.toLower = c := by
  show (if c.toNat ≥ 65 ∧ c.toNat ≤ 90 then Char.ofNat (c.toNat + 32) else c) = _
  rw [if_neg h]

theorem isSpace_toLower (c : Char) : isSpace c.toLower = isSpace c := by
  by_cases h : 65 ≤ c.toNat ∧ c.toNat ≤ 90
  · obtain ⟨n, h1, h2, rfl, h4⟩ := toLower_upper c h
    rw [h4]
    interval_cases n <;> rfl
  · rw [toLower_other c h]

theorem toLower_toLower (c : Char) : c.toLower.toLower = c.toLower := by
  by_cases h : 65 ≤ c.toNat ∧ c.toNat ≤ 90
  · obtain ⟨n, h1, h2, rfl, h4⟩ := toLower_upper c h
    rw [h4]
    interval_cases n <;> rfl
  · rw [toLower_other c h, toLower_other c h]

theorem dropWhile_isSpace_map (l : List Char) :
    (l.map Char.toLower).dropWhile isSpace = (l.dropWhile isSpace).map Char.toLower := by
  induction l with
  | nil => rfl
  | cons c l ih =>
    simp only [List.map_cons, List.dropWhile_cons, isSpace_toLower]
    split_ifs
    · exact ih
    · simp

theorem rdropWhile_isSpace_map (l : List Char) :
    (l.map Char.toLower).rdropWhile isSpace = (l.rdropWhile isSpace).map Char.toLower := by
  unfold List.rdropWhile
  rw [← List.map_reverse, dropWhile_isSpace_map, List.map_reverse]

/-- Trimming a list of characters, as `trimSpace` does on the characters of a string. -/
theorem trimSpace_data (s : String) :
    (trimSpace s).data = (s.data.dropWhile isSpace).rdropWhile isSpace := rfl

theorem dropWhile_rdropWhile (p : Char → Bool) (l : List Char) :
    ((l.dropWhile p).rdropWhile p).dropWhile p = (l.dropWhile p).rdropWhile p := by
  rw [List.dropWhile_eq_self_iff]
  intro hl
  have hpre : ((l.dropWhile p).rdropWhile p) <+: l.dropWhile p := List.rdropWhile_prefix _ _
  have hl' : 0 < (l.dropWhile p).length := lt_of_lt_of_le hl hpre.length_le
  have h0 : (l.dropWhile p).dropWhile p = l.dropWhile p := List.dropWhile_idempotent p l
  rw [List.dropWhile_eq_self_iff] at h0
  have := h0 hl'
  have e : ((l.dropWhile p).rdropWhile p).get ⟨0, hl⟩ = (l.dropWhile p).get ⟨0, hl'⟩ := by
    simp only [List.get_eq_getElem]
    exact hpre.getElem hl
  rw [e]
  exact this

theorem stringsToLower_idem (s : String) : stringsToLower (stringsToLower s) = stringsToLower s := by
  apply String.ext
  show (List.map Char.toLower (trimSpace ⟨List.map Char.toLower (trimSpace s).data⟩).data) = _
  rw [trimSpace_data, trimSpace_data]
  show List.map Char.toLower
    (((List.map Char.toLower ((s.data.dropWhile isSpace).rdropWhile isSpace)).dropWhile isSpace).rdropWhile isSpace) = 
    List.map Char.toLower ((s.data.dropWhile isSpace).rdropWhile isSpace)
  rw [dropWhile_isSpace_map, rdropWhile_isSpace_map, dropWhile_rdropWhile, List.rdropWhile_idempotent,
    List.map_map]
  apply List.map_congr_left
  intro c _
  exact toLower_toLower c
namespace GoMap
variable {K V α : Type} [DecidableEq K]

theorem get?_foldl_set_of_not_mem (key : α → K) (val : α → V) (l : List α) (m : GoMap K V)
    (k : K) (h : k ∉ l.map key) :
    get? (l.foldl (fun m x => m.set (key x) (val x)) m) k = get? m k := by
  induction l generalizing m with
  | nil => rfl
  | cons x l ih =>
    simp only [List.map_cons, List.mem_cons, not_or] at h
    rw [List.foldl_cons, ih _ h.2, get?_set, if_neg h.1]

theorem get?_foldl_set_some (key : α → K) (val : α → V) (l : List α) (m : GoMap K V)
    (k : K) (v : V) (h : get? (l.foldl (fun m x => m.set (key x) (val x)) m) k = some v) :
    get? m k = some v ∨ ∃ x ∈ l, key x = k ∧ val x = v := by
  induction l generalizing m with
  | nil => exact Or.inl h
  | cons x l ih =>
    rw [List.foldl_cons] at h
    rcases ih _ h with h1 | ⟨y, hy, h2⟩
    · rw [get?_set] at h1
      split_ifs at h1 with hk
      · right
        exact ⟨x, List.mem_cons_self _ _, hk.symm, by simpa using h1⟩
      · exact Or.inl h1
    · exact Or.inr ⟨y, List.mem_cons_of_mem _ hy, h2⟩

theorem mem_keys_foldl_set (key : α → K) (val : α → V) (l : List α) (m : GoMap K V) (k : K) :
    k ∈ keys (l.foldl (fun m x => m.set (key x) (val x)) m) ↔ k ∈ keys m ∨ k ∈ l.map key := by
  induction l generalizing m with
  | nil => simp
  | cons x l ih =>
    rw [List.foldl_cons, ih, mem_keys_set]
    simp only [List.map_cons, List.mem_cons]
    tauto

theorem nodup_keys_foldl_set (key : α → K) (val : α → V) (l : List α) {m : GoMap K V}
    (hn : (keys m).Nodup) : (keys (l.foldl (fun m x => m.set (key x) (val x)) m)).Nodup := by
  induction l generalizing m with
  | nil => exact hn
  | cons x l ih => exact ih (nodup_keys_set hn _ _)

theorem get?_foldl_set_of_nodup (key : α → K) (val : α → V) (l : List α) (m : GoMap K V)
    (hn : (l.map key).Nodup) {x : α} (hx : x ∈ l) :
    get? (l.foldl (fun m x => m.set (key x) (val x)) m) (key x) = some (val x) := by
  induction l generalizing m with
  | nil => simp at hx
  | cons y l ih =>
    simp only [List.map_cons, List.nodup_cons] at hn
    rw [List.foldl_cons]
    rcases List.mem_cons.1 hx with rfl | hx'
    · rw [get?_foldl_set_of_not_mem _ _ _ _ _ hn.1, get?_set, if_pos rfl]
    · exact ih _ hn.2 hx'

theorem get?_foldl_delete (key : α → K) (l : List α) (m : GoMap K V) (k : K) :
    get? (l.foldl (fun m x => m.delete (key x)) m) k =
      if k ∈ l.map key then none else get? m k := by
  induction l generalizing m with
  | nil => simp
  | cons x l ih =>
    rw [List.foldl_cons, ih, get?_delete]
    simp only [List.map_cons, List.mem_cons]
    by_cases h1 : k ∈ l.map key
    · simp [h1]
    · by_cases h2 : k = key x
      · simp [h1, h2]
      · simp [h1, h2]

theorem nodup_keys_foldl_delete (key : α → K) (l : List α) {m : GoMap K V}
    (hn : (keys m).Nodup) : (keys (l.foldl (fun m x => m.delete (key x)) m)).Nodup := by
  induction l generalizing m with
  | nil => exact hn
  | cons x l ih => exact ih (nodup_keys_delete hn _)

theorem option_ext {a b : Option V} (h : ∀ v, a = some v ↔ b = some v) : a = b := by
  cases a with
  | none =>
    cases b with
    | none => rfl
    | some y => exact absurd ((h y).2 rfl) (by simp)
  | some x => exact ((h x).1 rfl).symm

end GoMap

/-! ## Window maps -/

theorem nodup_keys_windowMap (ws : List WindowState) : (GoMap.keys (windowMap ws)).Nodup :=
  GoMap.nodup_keys_foldl_set _ _ ws (by simp [GoMap.keys])

theorem windowMap_some {ws : List WindowState} {h : Nat} {w : WindowState}
    (hw : GoMap.get? (windowMap ws) h = some w) : w ∈ ws ∧ w.HWND = h := by
  rcases GoMap.get?_foldl_set_some (fun w : WindowState => w.HWND) (fun w => w) ws [] h w hw with
    h1 | ⟨x, hx, h2, h3⟩
  · simp [GoMap.get?] at h1
  · subst h3
    exact ⟨hx, h2⟩

theorem windowMap_of_nodup {ws : List WindowState} (hn : (ws.map (fun w => w.HWND)).Nodup)
    (h : Nat) (w : WindowState) :
    GoMap.get? (windowMap ws) h = some w ↔ w ∈ ws ∧ w.HWND = h := by
  constructor
  · exact windowMap_some
  · rintro ⟨hw, rfl⟩
    exact GoMap.get?_foldl_set_of_nodup (fun w : WindowState => w.HWND) (fun w => w) ws [] hn hw

theorem mem_keys_windowMap (ws : List WindowState) (h : Nat) :
    h ∈ GoMap.keys (windowMap ws) ↔ h ∈ ws.map (fun w => w.HWND) := by
  unfold windowMap
  rw [GoMap.mem_keys_foldl_set (fun w : WindowState => w.HWND) (fun w => w)]
  simp [GoMap.keys]

theorem keyed_windowMap (ws : List WindowState) : Keyed (windowMap ws) :=
  fun _ _ hw => (windowMap_some hw).2

/-- Rebuilding the map from any arrangement of the values of a keyed map gives the same
lookups. -/
theorem windowMap_values {m : GoMap Nat WindowState} (hn : (GoMap.keys m).Nodup) (hk : Keyed m)
    {ws : List WindowState} (hp : ws.Perm (GoMap.values m)) (h : Nat) :
    GoMap.get? (windowMap ws) h = GoMap.get? m h := by
  have hv : (GoMap.values m).map (fun w => w.HWND) = GoMap.keys m := by
    unfold GoMap.values GoMap.keys
    rw [List.map_map]
    apply List.map_congr_left
    rintro ⟨k, w⟩ hm
    exact hk k w (GoMap.get?_of_mem hn hm)
  have hnd : (ws.map (fun w => w.HWND)).Nodup := by
    have := (hp.map (fun w : WindowState => w.HWND)).nodup_iff.2 (by rw [hv]; exact hn)
    exact this
  apply GoMap.option_ext
  intro w
  rw [windowMap_of_nodup hnd, hp.mem_iff, GoMap.mem_values_iff hn]
  constructor
  · rintro ⟨⟨k, hk'⟩, rfl⟩
    rw [hk k w hk']
    exact hk'
  · intro hw
    exact ⟨⟨h, hw⟩, hk h w hw⟩


/-! ## Window diffs and their replay -/

theorem get?_applyWindowDiffs_of_none (m : GoMap Nat WindowState) (ds : List WindowDiff) (h : Nat)
    (hno : ∀ d ∈ ds, d.HWND ≠ h) :
    GoMap.get? (applyWindowDiffs m ds) h = GoMap.get? m h := by
  induction ds generalizing m with
  | nil => rfl
  | cons d ds ih =>
    have hd : h ≠ d.HWND := fun e => hno d (List.mem_cons_self _ _) e.symm
    have ih' := fun m' => ih m' (fun d' hd' => hno d' (List.mem_cons_of_mem _ hd'))
    unfold applyWindowDiffs at ih' ⊢
    rw [List.foldl_cons, ih']
    cases d.After with
    | none => simp [GoMap.get?_delete, hd]
    | some w => simp [GoMap.get?_set, hd]

theorem get?_applyWindowDiffs_of_all (m : GoMap Nat WindowState) (ds : List WindowDiff) (h : Nat)
    (x : Option WindowState) (hall : ∀ d ∈ ds, d.HWND = h → d.After = x)
    (hex : ∃ d ∈ ds, d.HWND = h) :
    GoMap.get? (applyWindowDiffs m ds) h = x := by
  induction ds generalizing m with
  | nil => simp at hex
  | cons d ds ih =>
    by_cases hrest : ∃ d' ∈ ds, d'.HWND = h
    · have := ih (match d.After with
        | none => m.delete d.HWND
        | some w => m.set d.HWND w) (fun d' hd' => hall d' (List.mem_cons_of_mem _ hd')) hrest
      unfold applyWindowDiffs at this ⊢
      rw [List.foldl_cons]
      exact this
    · have hno : ∀ d' ∈ ds, d'.HWND ≠ h := fun d' hd' e => hrest ⟨d', hd', e⟩
      have hd : d.HWND = h := by
        obtain ⟨d', hd', e⟩ := hex
        rcases List.mem_cons.1 hd' with rfl | hd''
        · exact e
        · exact absurd e (hno d' hd'')
      have hx := hall d (List.mem_cons_self _ _) hd
      have := get?_applyWindowDiffs_of_none (match d.After with
        | none => m.delete d.HWND
        | some w => m.set d.HWND w) ds h hno
      unfold applyWindowDiffs at this ⊢
      rw [List.foldl_cons, this, hx]
      cases x with
      | none => simp [GoMap.get?_delete, hd]
      | some w => simp [GoMap.get?_set, hd]

theorem applyWindowDiffs_inv (m : GoMap Nat WindowState) (ds : List WindowDiff)
    (hn : (GoMap.keys m).Nodup) (hk : Keyed m)
    (hds : ∀ d ∈ ds, ∀ w, d.After = some w → w.HWND = d.HWND) :
    (GoMap.keys (applyWindowDiffs m ds)).Nodup ∧ Keyed (applyWindowDiffs m ds) := by
  induction ds generalizing m with
  | nil => exact ⟨hn, hk⟩
  | cons d ds ih =>
    unfold applyWindowDiffs at ih ⊢
    rw [List.foldl_cons]
    apply ih _ _ _ (fun d' hd' => hds d' (List.mem_cons_of_mem _ hd'))
    · cases d.After with
      | none => exact GoMap.nodup_keys_delete hn _
      | some w => exact GoMap.nodup_keys_set hn _ _
    · have hd := hds d (List.mem_cons_self _ _)
      cases hA : d.After with
      | none =>
        intro h w hw
        simp only [GoMap.get?_delete] at hw
        split_ifs at hw
        exact hk h w hw
      | some w' =>
        intro h w hw
        simp only [GoMap.get?_set] at hw
        split_ifs at hw with e
        · cases hw
          rw [e]
          exact hd _ hA
        · exact hk h w hw

/-- Every entry of `windowDiffs` carries, as `After`, what the next map holds for its
handle, and it is there because the two maps differ at that handle. -/
theorem mem_windowDiffs {P N : GoMap Nat WindowState} (hP : (GoMap.keys P).Nodup)
    (hN : (GoMap.keys N).Nodup) {d : WindowDiff} (hd : d ∈ windowDiffs P N) :
    d.After = GoMap.get? N d.HWND ∧ d.Before = GoMap.get? P d.HWND ∧
      (d.After = none → d.Before ≠ none) ∧
      ∀ pw nw, d.Before = some pw → d.After = some nw → windowEq pw nw = false := by
  unfold windowDiffs at hd
  rcases List.mem_append.1 hd with hd | hd
  · obtain ⟨⟨h, nw⟩, he, hf⟩ := List.mem_filterMap.1 hd
    have hNh := GoMap.get?_of_mem hN he
    cases hp : GoMap.get? P h with
    | none =>
      simp only [hp] at hf
      cases hf
      simp [hNh, hp]
    | some pw =>
      simp only [hp] at hf
      split_ifs at hf with hw
      cases hf
      simp only [hNh, hp, true_and]
      refine ⟨by simp, ?_⟩
      intro pw' nw' h1 h2
      cases h1
      cases h2
      simpa using hw
  · obtain ⟨⟨h, pw⟩, he, hf⟩ := List.mem_filterMap.1 hd
    have hPh := GoMap.get?_of_mem hP he
    cases hn : GoMap.get? N h with
    | none =>
      simp only [hn] at hf
      cases hf
      simp [hPh, hn]
    | some nw =>
      simp [hn] at hf

/-- A handle has an entry in `windowDiffs` exactly when the two maps differ at it. -/
theorem exists_windowDiff_iff {P N : GoMap Nat WindowState} (hP : (GoMap.keys P).Nodup)
    (hN : (GoMap.keys N).Nodup) (h : Nat) :
    (∃ d ∈ windowDiffs P N, d.HWND = h) ↔
      match GoMap.get? P h, GoMap.get? N h with
      | none, none => False
      | some pw, some nw => windowEq pw nw = false
      | _, _ => True := by
  constructor
  · rintro ⟨d, hd, rfl⟩
    obtain ⟨h1, h2, h3, h4⟩ := mem_windowDiffs hP hN hd
    rw [← h1, ← h2]
    cases hb : d.Before with
    | none =>
      cases ha : d.After with
      | none => exact absurd hb (h3 ha)
      | some nw => trivial
    | some pw =>
      cases ha : d.After with
      | none => trivial
      | some nw => exact h4 pw nw hb ha
  · intro hm
    cases hn : GoMap.get? N h with
    | none =>
      cases hp : GoMap.get? P h with
      | none => simp [hn, hp] at hm
      | some pw =>
        refine ⟨{ HWND := h, Before := some pw, After := none }, ?_, rfl⟩
        unfold windowDiffs
        apply List.mem_append_right
        apply List.mem_filterMap.2
        exact ⟨(h, pw), GoMap.mem_of_get? hp, by simp [hn]⟩
    | some nw =>
      cases hp : GoMap.get? P h with
      | none =>
        refine ⟨{ HWND := h, Before := none, After := some nw }, ?_, rfl⟩
        unfold windowDiffs
        apply List.mem_append_left
        apply List.mem_filterMap.2
        exact ⟨(h, nw), GoMap.mem_of_get? hn, by simp [hp]⟩
      | some pw =>
        simp only [hn, hp] at hm
        refine ⟨{ HWND := h, Before := some pw, After := some nw }, ?_, rfl⟩
        unfold windowDiffs
        apply List.mem_append_left
        apply List.mem_filterMap.2
        exact ⟨(h, nw), GoMap.mem_of_get? hn, by simp [hp, hm]⟩

/-- Replaying `windowDiffs P N` on any map `m`: the handles at which `P` and `N` differ
take what `N` holds, the others keep what `m` holds. -/
theorem get?_apply_windowDiffs {P N : GoMap Nat WindowState} (hP : (GoMap.keys P).Nodup)
    (hN : (GoMap.keys N).Nodup) (m : GoMap Nat WindowState) (h : Nat) :
    GoMap.get? (applyWindowDiffs m (windowDiffs P N)) h =
      if (∃ d ∈ windowDiffs P N, d.HWND = h) then GoMap.get? N h else GoMap.get? m h := by
  split_ifs with hex
  · apply get?_applyWindowDiffs_of_all _ _ _ _ _ hex
    intro d hd e
    rw [← e]
    exact (mem_windowDiffs hP hN hd).1
  · apply get?_applyWindowDiffs_of_none
    intro d hd e
    exact hex ⟨d, hd, e⟩


/-! ## `applyDelta`, field by field -/

theorem applyDelta_Windows (app : AppState) (d : StateDelta) :
    (applyDelta app d).Windows =
      if d.WindowsChanged then
        (GoMap.values (applyWindowDiffs (windowMap app.Windows) d.WindowDiffs)).insertionSort
          (fun a b => a.ZOrder ≤ b.ZOrder)
      else app.Windows := by
  unfold applyDelta
  split_ifs <;> rfl

theorem applyDelta_OpenFiles (app : AppState) (d : StateDelta) :
    (applyDelta app d).OpenFiles =
      if d.FilesAdded.length > 0 || d.FilesRemoved.length > 0 then
        (GoMap.values (applyFileDiffs (fileMap app.OpenFiles) d.FilesRemoved
          d.FilesAdded)).insertionSort (fun a b => a.Path ≤ b.Path)
      else app.OpenFiles := by
  unfold applyDelta
  split_ifs <;> rfl

theorem applyDelta_PluginData (app : AppState) (d : StateDelta) :
    (applyDelta app d).PluginData = if d.PluginChanged then d.PluginData else app.PluginData := by
  unfold applyDelta
  split_ifs <;> rfl

theorem applyDelta_ClipboardHash (app : AppState) (d : StateDelta) :
    (applyDelta app d).ClipboardHash = app.ClipboardHash := by
  unfold applyDelta
  split_ifs <;> rfl

theorem windowEq_iff (a b : WindowState) :
    windowEq a b = true ↔ comparedFields a = comparedFields b := by
  unfold windowEq comparedFields
  simp only [Bool.and_eq_true, decide_eq_true_eq, Prod.mk.injEq]
  tauto

theorem windowDiffs_keyed {P N : GoMap Nat WindowState} (hP : (GoMap.keys P).Nodup)
    (hN : (GoMap.keys N).Nodup) (hk : Keyed N) :
    ∀ d ∈ windowDiffs P N, ∀ w, d.After = some w → w.HWND = d.HWND := by
  intro d hd w hw
  rw [(mem_windowDiffs hP hN hd).1] at hw
  exact hk _ _ hw

/-- The windows after replaying `diffStates X B` on a state `L`, handle by handle. -/
theorem windowOf_applyDelta_diff (L X B : AppState) (h : Nat) :
    windowOf (applyDelta L (diffStates X B)) h =
      if (∃ d ∈ windowDiffs (windowMap X.Windows) (windowMap B.Windows), d.HWND = h) then
        windowOf B h
      else windowOf L h := by
  have hP := nodup_keys_windowMap X.Windows
  have hN := nodup_keys_windowMap B.Windows
  unfold windowOf
  rw [applyDelta_Windows]
  by_cases hc : (diffStates X B).WindowsChanged = true
  · rw [if_pos hc]
    obtain ⟨h1, h2⟩ := applyWindowDiffs_inv (windowMap L.Windows)
      (windowDiffs (windowMap X.Windows) (windowMap B.Windows))
      (nodup_keys_windowMap _) (keyed_windowMap _)
      (windowDiffs_keyed hP hN (keyed_windowMap _))
    have hd : (diffStates X B).WindowDiffs =
      windowDiffs (windowMap X.Windows) (windowMap B.Windows) := rfl
    rw [hd, windowMap_values h1 h2 (List.perm_insertionSort _ _), get?_apply_windowDiffs hP hN]
  · rw [if_neg hc]
    have hd : windowDiffs (windowMap X.Windows) (windowMap B.Windows) = [] := by
      have : (diffStates X B).WindowsChanged =
        decide ((windowDiffs (windowMap X.Windows) (windowMap B.Windows)).length > 0) := rfl
      rw [this] at hc
      simpa using hc
    rw [hd]
    simp

/-- Replaying `diffStates A B` on `A` itself: every handle of `B` is present with the fields
`windowEq` compares as in `B` (the descriptor is `B`'s when the handle is new or differs in
a compared field, and `A`'s otherwise), and no other handle is. -/
theorem windowOf_roundtrip (A B : AppState) (h : Nat) :
    windowOf (applyDelta A (diffStates A B)) h =
      match windowOf B h with
      | none => none
      | some nw =>
        match windowOf A h with
        | none => some nw
        | some pw => if windowEq pw nw then some pw else some nw := by
  rw [windowOf_applyDelta_diff]
  have hiff := exists_windowDiff_iff (nodup_keys_windowMap A.Windows)
    (nodup_keys_windowMap B.Windows) h
  unfold windowOf
  cases hp : GoMap.get? (windowMap A.Windows) h with
  | none =>
    cases hn : GoMap.get? (windowMap B.Windows) h with
    | none =>
      simp only [hp, hn] at hiff
      rw [if_neg (fun hex => hiff.1 hex)]
    | some nw =>
      simp only [hp, hn] at hiff
      rw [if_pos (hiff.2 trivial)]
  | some pw =>
    cases hn : GoMap.get? (windowMap B.Windows) h with
    | none =>
      simp only [hp, hn] at hiff
      rw [if_pos (hiff.2 trivial)]
    | some nw =>
      simp only [hp, hn] at hiff
      by_cases hw : windowEq pw nw = true
      · rw [if_neg (fun hex => by simpa [hw] using hiff.1 hex)]
        simp [hw]
      · rw [if_pos (hiff.2 (by simpa using hw))]
        simp [hw]

theorem windowOf_roundtrip_fields (A B : AppState) (h : Nat) :
    (windowOf (applyDelta A (diffStates A B)) h).map comparedFields =
      (windowOf B h).map comparedFields := by
  rw [windowOf_roundtrip]
  cases hn : windowOf B h with
  | none => rfl
  | some nw =>
    cases hp : windowOf A h with
    | none => rfl
    | some pw =>
      by_cases hw : windowEq pw nw = true
      · simp [hw, (windowEq_iff pw nw).1 hw]
      · simp [hw]

/-- Replaying `diffStates X B` on a state that already has the windows of `B` changes no
descriptor. -/
theorem windowOf_replay_on_target (L X B : AppState) (hL : L.Windows = B.Windows) (h : Nat) :
    windowOf (applyDelta L (diffStates X B)) h = windowOf B h := by
  rw [windowOf_applyDelta_diff]
  split_ifs
  · rfl
  · unfold windowOf
    rw [hL]


/-! ## File sets and their replay -/

theorem mem_keys_pathSet (fs : List FileRef) (k : String) :
    k ∈ GoMap.keys (pathSet fs) ↔ k ∈ fs.map (fun f => stringsToLower f.Path) := by
  unfold pathSet
  rw [GoMap.mem_keys_foldl_set (fun f : FileRef => stringsToLower f.Path) (fun _ => ())]
  simp [GoMap.keys]

theorem mem_pathsMissing (a b : GoMap String Unit) (f : FileRef) :
    f ∈ pathsMissing a b ↔ f.Path ∈ GoMap.keys a ∧ f.Path ∉ GoMap.keys b := by
  unfold pathsMissing
  rw [List.mem_filterMap]
  constructor
  · rintro ⟨⟨k, u⟩, he, hf⟩
    cases hb : GoMap.get? b k with
    | none =>
      simp only [hb] at hf
      cases hf
      exact ⟨List.mem_map.2 ⟨(k, u), he, rfl⟩, (GoMap.not_mem_keys_iff _ _).2 hb⟩
    | some v => simp [hb] at hf
  · rintro ⟨h1, h2⟩
    obtain ⟨⟨k, u⟩, he, hk⟩ := List.mem_map.1 h1
    have hk' : k = f.Path := hk
    refine ⟨(k, u), he, ?_⟩
    rw [← hk'] at h2
    simp only [(GoMap.not_mem_keys_iff _ _).1 h2]
    rw [hk']

theorem mem_keys_fileMap (fs : List FileRef) (k : String) :
    k ∈ GoMap.keys (fileMap fs) ↔ k ∈ fs.map (fun f => stringsToLower f.Path) := by
  unfold fileMap
  rw [GoMap.mem_keys_foldl_set (fun f : FileRef => stringsToLower f.Path) (fun f => f)]
  simp [GoMap.keys]

theorem fileMap_keyed (fs : List FileRef) (k : String) (f : FileRef)
    (h : GoMap.get? (fileMap fs) k = some f) : stringsToLower f.Path = k := by
  rcases GoMap.get?_foldl_set_some (fun f : FileRef => stringsToLower f.Path) (fun f => f) fs []
    k f h with h1 | ⟨x, _, h2, h3⟩
  · simp [GoMap.get?] at h1
  · subst h3
    exact h2

theorem applyFileDiffs_get? (m : GoMap String FileRef) (removed added : List FileRef)
    (k : String) (f : FileRef) (h : GoMap.get? (applyFileDiffs m removed added) k = some f) :
    (GoMap.get? m k = some f ∧ k ∉ removed.map (fun f => stringsToLower f.Path)) ∨
      (f ∈ added ∧ stringsToLower f.Path = k) := by
  unfold applyFileDiffs at h
  rcases GoMap.get?_foldl_set_some (fun f : FileRef => stringsToLower f.Path) (fun f => f) added _
    k f h with h1 | ⟨x, hx, h2, h3⟩
  · left
    rw [GoMap.get?_foldl_delete (fun f : FileRef => stringsToLower f.Path)] at h1
    split_ifs at h1 with hr
    exact ⟨h1, hr⟩
  · subst h3
    exact Or.inr ⟨hx, h2⟩

theorem mem_keys_applyFileDiffs (m : GoMap String FileRef) (removed added : List FileRef)
    (k : String) :
    k ∈ GoMap.keys (applyFileDiffs m removed added) ↔
      (k ∈ GoMap.keys m ∧ k ∉ removed.map (fun f => stringsToLower f.Path)) ∨
        k ∈ added.map (fun f => stringsToLower f.Path) := by
  unfold applyFileDiffs
  rw [GoMap.mem_keys_foldl_set (fun f : FileRef => stringsToLower f.Path) (fun f => f),
    GoMap.mem_keys_iff, GoMap.get?_foldl_delete (fun f : FileRef => stringsToLower f.Path),
    GoMap.mem_keys_iff]
  by_cases hr : k ∈ removed.map (fun f => stringsToLower f.Path)
  · simp [hr]
  · simp [hr]

theorem nodup_keys_applyFileDiffs (m : GoMap String FileRef) (removed added : List FileRef)
    (hn : (GoMap.keys m).Nodup) : (GoMap.keys (applyFileDiffs m removed added)).Nodup :=
  GoMap.nodup_keys_foldl_set _ _ _ (GoMap.nodup_keys_foldl_delete _ _ hn)

theorem nodup_keys_fileMap (fs : List FileRef) : (GoMap.keys (fileMap fs)).Nodup :=
  GoMap.nodup_keys_foldl_set _ _ fs (by simp [GoMap.keys])

/-- The paths of `pathsMissing` are keys of a path set, hence already lower-cased and
trimmed. -/
theorem pathsMissing_normal (fs : List FileRef) (b : GoMap String Unit) :
    (pathsMissing (pathSet fs) b).map (fun f => stringsToLower f.Path) =
      (pathsMissing (pathSet fs) b).map (fun f => f.Path) := by
  apply List.map_congr_left
  intro f hf
  obtain ⟨g, _, hg⟩ := List.mem_map.1 ((mem_keys_pathSet fs f.Path).1 ((mem_pathsMissing _ _ f).1 hf).1)
  have hg' : stringsToLower g.Path = f.Path := hg
  rw [← hg', stringsToLower_idem]

theorem mem_map_path_pathsMissing (a b : GoMap String Unit) (k : String) :
    k ∈ (pathsMissing a b).map (fun f => f.Path) ↔ k ∈ GoMap.keys a ∧ k ∉ GoMap.keys b := by
  rw [List.mem_map]
  constructor
  · rintro ⟨f, hf, rfl⟩
    exact (mem_pathsMissing a b f).1 hf
  · intro h
    exact ⟨{ Path := k }, (mem_pathsMissing a b _).2 h, rfl⟩

/-- The open files after replaying `diffStates X B` on a state `L`, as a set of lower-cased,
trimmed paths: those of `L` that are not (in `X` and missing from `B`), and those of `B`
missing from `X`. -/
theorem mem_normPaths_applyDelta_diff (L X B : AppState) (p : String) :
    p ∈ normPaths (applyDelta L (diffStates X B)) ↔
      (p ∈ normPaths L ∧ ¬ (p ∈ normPaths X ∧ p ∉ normPaths B)) ∨
        (p ∈ normPaths B ∧ p ∉ normPaths X) := by
  have hadd : (diffStates X B).FilesAdded =
    pathsMissing (pathSet B.OpenFiles) (pathSet X.OpenFiles) := rfl
  have hrem : (diffStates X B).FilesRemoved =
    pathsMissing (pathSet X.OpenFiles) (pathSet B.OpenFiles) := rfl
  have hA : ∀ k, k ∈ (pathsMissing (pathSet B.OpenFiles) (pathSet X.OpenFiles)).map
      (fun f => stringsToLower f.Path) ↔ k ∈ normPaths B ∧ k ∉ normPaths X := by
    intro k
    rw [pathsMissing_normal, mem_map_path_pathsMissing, mem_keys_pathSet, mem_keys_pathSet]
    rfl
  have hR : ∀ k, k ∈ (pathsMissing (pathSet X.OpenFiles) (pathSet B.OpenFiles)).map
      (fun f => stringsToLower f.Path) ↔ k ∈ normPaths X ∧ k ∉ normPaths B := by
    intro k
    rw [pathsMissing_normal, mem_map_path_pathsMissing, mem_keys_pathSet, mem_keys_pathSet]
    rfl
  unfold normPaths at hA hR ⊢
  rw [applyDelta_OpenFiles, hadd, hrem]
  split_ifs with hc
  · set M := applyFileDiffs (fileMap L.OpenFiles)
      (pathsMissing (pathSet X.OpenFiles) (pathSet B.OpenFiles))
      (pathsMissing (pathSet B.OpenFiles) (pathSet X.OpenFiles)) with hM
    have hn : (GoMap.keys M).Nodup := nodup_keys_applyFileDiffs _ _ _ (nodup_keys_fileMap _)
    have hkeyed : ∀ k f, GoMap.get? M k = some f → stringsToLower f.Path = k := by
      intro k f hf
      rcases applyFileDiffs_get? _ _ _ k f hf with ⟨h1, _⟩ | ⟨_, h2⟩
      · exact fileMap_keyed _ _ _ h1
      · exact h2
    have hset : p ∈ ((GoMap.values M).insertionSort (fun a b => a.Path ≤ b.Path)).map
        (fun f => stringsToLower f.Path) ↔ p ∈ GoMap.keys M := by
      rw [List.mem_map]
      constructor
      · rintro ⟨f, hf, rfl⟩
        rw [(List.perm_insertionSort _ _).mem_iff, GoMap.mem_values_iff hn] at hf
        obtain ⟨k, hk⟩ := hf
        rw [hkeyed k f hk, GoMap.mem_keys_iff, hk]
        rfl
      · intro hp
        rw [GoMap.mem_keys_iff] at hp
        obtain ⟨f, hf⟩ := Option.isSome_iff_exists.1 hp
        refine ⟨f, ?_, hkeyed p f hf⟩
        rw [(List.perm_insertionSort _ _).mem_iff, GoMap.mem_values_iff hn]
        exact ⟨p, hf⟩
    rw [hset, hM, mem_keys_applyFileDiffs, hR, hA, mem_keys_fileMap]
  · have h1 : pathsMissing (pathSet B.OpenFiles) (pathSet X.OpenFiles) = [] := by
      by_contra hne
      exact hc (by simp [List.length_pos.2 hne])
    have h2 : pathsMissing (pathSet X.OpenFiles) (pathSet B.OpenFiles) = [] := by
      by_contra hne
      exact hc (by simp [List.length_pos.2 hne])
    have hA' := hA p
    have hR' := hR p
    rw [h1] at hA'
    rw [h2] at hR'
    simp only [List.map_nil, List.not_mem_nil, false_iff] at hA' hR'
    tauto

theorem mem_normPaths_roundtrip (A B : AppState) (p : String) :
    p ∈ normPaths (applyDelta A (diffStates A B)) ↔ p ∈ normPaths B := by
  rw [mem_normPaths_applyDelta_diff]
  tauto

theorem mem_normPaths_replay_on_target (L X B : AppState) (hL : L.OpenFiles = B.OpenFiles)
    (p : String) : p ∈ normPaths (applyDelta L (diffStates X B)) ↔ p ∈ normPaths B := by
  rw [mem_normPaths_applyDelta_diff]
  have : normPaths L = normPaths B := by
    unfold normPaths
    rw [hL]
  rw [this]
  tauto

/-! ## Plugin data -/

theorem jsonMarshal_roundtrip (A B : AppState) :
    jsonMarshal (applyDelta A (diffStates A B)).PluginData = jsonMarshal B.PluginData := by
  rw [applyDelta_PluginData]
  have hp : (diffStates A B).PluginChanged = !jsonEq A.PluginData B.PluginData := rfl
  have hd : (diffStates A B).PluginData = B.PluginData := rfl
  rw [hp, hd]
  by_cases h : jsonEq A.PluginData B.PluginData = true
  · simp only [h, Bool.not_true, Bool.false_eq_true, if_false]
    simpa [jsonEq] using h
  · simp [h]

/-! ## Claims on `diffStates` and `applyDelta` -/

theorem mem_handles_iff (A : AppState) (h : Nat) :
    h ∈ handles A ↔ (windowOf A h).isSome = true := by
  unfold handles windowOf
  rw [← mem_keys_windowMap, GoMap.mem_keys_iff]

theorem windowOf_of_mem {A : AppState} (hA : (handles A).Nodup) {w : WindowState}
    (hw : w ∈ A.Windows) : windowOf A w.HWND = some w :=
  (windowMap_of_nodup hA _ _).2 ⟨hw, rfl⟩

theorem nodup_handles_applyDelta_diff (L X B : AppState) (hL : (handles L).Nodup) :
    (handles (applyDelta L (diffStates X B))).Nodup := by
  unfold handles
  rw [applyDelta_Windows]
  split_ifs with hc
  · obtain ⟨h1, h2⟩ := applyWindowDiffs_inv (windowMap L.Windows)
      (windowDiffs (windowMap X.Windows) (windowMap B.Windows))
      (nodup_keys_windowMap _) (keyed_windowMap _)
      (windowDiffs_keyed (nodup_keys_windowMap _) (nodup_keys_windowMap _) (keyed_windowMap _))
    have hd : (diffStates X B).WindowDiffs =
      windowDiffs (windowMap X.Windows) (windowMap B.Windows) := rfl
    rw [hd]
    set M := applyWindowDiffs (windowMap L.Windows)
      (windowDiffs (windowMap X.Windows) (windowMap B.Windows))
    have hv : (GoMap.values M).map (fun w => w.HWND) = GoMap.keys M := by
      unfold GoMap.values GoMap.keys
      rw [List.map_map]
      apply List.map_congr_left
      rintro ⟨k, w⟩ hm
      exact h2 k w (GoMap.get?_of_mem h1 hm)
    exact ((List.perm_insertionSort _ _).map (fun w : WindowState => w.HWND)).nodup_iff.2
      (by rw [hv]; exact h1)
  · exact hL

/-- C2 (amended): for states `A` and `B` with pairwise distinct window handles, replaying
`diffStates A B` on `A` yields a window list with pairwise distinct handles, exactly the
handles of `B`, and for every window of `B` a window with the same handle that agrees with it
on the fields `windowEq` compares (rectangle, monitor id, z-order, the three flags, virtual
desktop).  That window is `B`'s descriptor when `A` has no window with the handle or one that
differs in a compared field; otherwise it is `A`'s descriptor, class name and title
included. -/
theorem C2_replay_windows (A B : AppState) (hA : (handles A).Nodup) (hB : (handles B).Nodup) :
    (handles (applyDelta A (diffStates A B))).Nodup ∧
    (∀ h, h ∈ handles (applyDelta A (diffStates A B)) ↔ h ∈ handles B) ∧
    ∀ wb ∈ B.Windows, ∃ wr ∈ (applyDelta A (diffStates A B)).Windows,
      wr.HWND = wb.HWND ∧ comparedFields wr = comparedFields wb ∧
      ((∀ wa ∈ A.Windows, wa.HWND = wb.HWND → comparedFields wa ≠ comparedFields wb) →
        wr = wb) ∧
      (∀ wa ∈ A.Windows, wa.HWND = wb.HWND → comparedFields wa = comparedFields wb →
        wr = wa) := by
  refine ⟨nodup_handles_applyDelta_diff A A B hA, ?_, ?_⟩
  · intro h
    rw [mem_handles_iff, mem_handles_iff]
    have := windowOf_roundtrip_fields A B h
    cases h1 : windowOf (applyDelta A (diffStates A B)) h <;> cases h2 : windowOf B h <;>
      simp [h1, h2] at this ⊢
  · intro wb hwb
    have hB' := windowOf_of_mem hB hwb
    have hR := windowOf_roundtrip A B wb.HWND
    rw [hB'] at hR
    cases hp : windowOf A wb.HWND with
    | none =>
      rw [hp] at hR
      refine ⟨wb, (windowMap_some hR).1, rfl, rfl, fun _ => rfl, ?_⟩
      intro wa hwa hh _
      have := windowOf_of_mem hA hwa
      rw [hh, hp] at this
      cases this
    | some pw =>
      rw [hp] at hR
      have hpw : ∀ wa ∈ A.Windows, wa.HWND = wb.HWND → wa = pw := by
        intro wa hwa hh
        have := windowOf_of_mem hA hwa
        rw [hh, hp] at this
        exact (Option.some.inj this).symm
      by_cases hw : windowEq pw wb = true
      · simp only [hw, if_true] at hR
        refine ⟨pw, (windowMap_some hR).1, (windowMap_some hp).2, (windowEq_iff _ _).1 hw,
          ?_, ?_⟩
        · intro hne
          exact absurd ((windowEq_iff _ _).1 hw)
            (hne pw (windowMap_some hp).1 (windowMap_some hp).2)
        · intro wa hwa hh _
          exact (hpw wa hwa hh).symm
      · simp only [hw] at hR
        refine ⟨wb, (windowMap_some hR).1, rfl, rfl, fun _ => rfl, ?_⟩
        intro wa hwa hh he
        rw [hpw wa hwa hh] at he
        exact absurd ((windowEq_iff _ _).2 he) hw

/-- C2, witness: of two windows, one is moved and both are retitled. -/
theorem C2_replay_windows_witness :
    (handles obsTwo).Nodup ∧ (handles obsTwoMoved).Nodup ∧
    ((handles (applyDelta obsTwo (diffStates obsTwo obsTwoMoved))).Nodup ∧
    (∀ h, h ∈ handles (applyDelta obsTwo (diffStates obsTwo obsTwoMoved)) ↔
      h ∈ handles obsTwoMoved) ∧
    ∀ wb ∈ obsTwoMoved.Windows,
      ∃ wr ∈ (applyDelta obsTwo (diffStates obsTwo obsTwoMoved)).Windows,
        wr.HWND = wb.HWND ∧ comparedFields wr = comparedFields wb ∧
        ((∀ wa ∈ obsTwo.Windows, wa.HWND = wb.HWND → comparedFields wa ≠ comparedFields wb) →
          wr = wb) ∧
        (∀ wa ∈ obsTwo.Windows, wa.HWND = wb.HWND → comparedFields wa = comparedFields wb →
          wr = wa)) :=
  ⟨by decide, by decide, C2_replay_windows obsTwo obsTwoMoved (by decide) (by decide)⟩

/-- C2, counterexample: two states hold one window each, with the same handle and the same
compared fields but different titles.  `diffStates` has no entry for it, `applyDelta` leaves
the window list of the first state in place, and the title after the replay is the old one,
not that of the second state. -/
theorem C2_counterexample_title :
    (handles obsTitled).Nodup ∧ (handles obsRetitled).Nodup ∧
    (diffStates obsTitled obsRetitled).WindowDiffs = [] ∧
    (applyDelta obsTitled (diffStates obsTitled obsRetitled)).Windows =
      [sampleWindow 1 0 0 "old title"] ∧
    obsRetitled.Windows = [sampleWindow 1 0 0 "new title"] ∧
    (sampleWindow 1 0 0 "old title").Title ≠ (sampleWindow 1 0 0 "new title").Title := by
  decide

/-- C3: after `applyDelta` is applied to `A` with `diffStates A B`, the open-file paths of the
result, lower-cased and trimmed, are as a set those of `B`, and the plugin map of the result
serialises to the same bytes as that of `B`. -/
theorem C3_replay_files_plugin (A B : AppState) :
    (∀ p, p ∈ normPaths (applyDelta A (diffStates A B)) ↔ p ∈ normPaths B) ∧
    jsonMarshal (applyDelta A (diffStates A B)).PluginData = jsonMarshal B.PluginData :=
  ⟨mem_normPaths_roundtrip A B, jsonMarshal_roundtrip A B⟩

theorem unchanged_of_agree (A B : AppState)
    (hw : ∀ h, (windowOf A h).map comparedFields = (windowOf B h).map comparedFields)
    (hf : ∀ p, p ∈ normPaths A ↔ p ∈ normPaths B)
    (hc : A.ClipboardHash = "" ∨ B.ClipboardHash = "" ∨ A.ClipboardHash = B.ClipboardHash)
    (hp : jsonMarshal A.PluginData = jsonMarshal B.PluginData) :
    Unchanged (diffStates A B) ∧ (diffStates A B).WindowDiffs = [] := by
  have hdiffs : windowDiffs (windowMap A.Windows) (windowMap B.Windows) = [] := by
    apply List.eq_nil_iff_forall_not_mem.2
    intro d hd
    have h1 := (exists_windowDiff_iff (nodup_keys_windowMap A.Windows)
      (nodup_keys_windowMap B.Windows) d.HWND).1 ⟨d, hd, rfl⟩
    have h2 := hw d.HWND
    unfold windowOf at h2
    cases hp' : GoMap.get? (windowMap A.Windows) d.HWND with
    | none =>
      cases hn : GoMap.get? (windowMap B.Windows) d.HWND with
      | none => simp [hp', hn] at h1
      | some nw => simp [hp', hn] at h2
    | some pw =>
      cases hn : GoMap.get? (windowMap B.Windows) d.HWND with
      | none => simp [hp', hn] at h2
      | some nw =>
        simp only [hp', hn] at h1
        rw [hp', hn] at h2
        have := (windowEq_iff pw nw).2 (by simpa using h2)
        rw [this] at h1
        exact absurd h1 (by simp)
  have hadd : pathsMissing (pathSet B.OpenFiles) (pathSet A.OpenFiles) = [] := by
    apply List.eq_nil_iff_forall_not_mem.2
    intro f hf'
    obtain ⟨h1, h2⟩ := (mem_pathsMissing _ _ f).1 hf'
    rw [mem_keys_pathSet] at h1 h2
    exact h2 ((hf _).2 h1)
  have hrem : pathsMissing (pathSet A.OpenFiles) (pathSet B.OpenFiles) = [] := by
    apply List.eq_nil_iff_forall_not_mem.2
    intro f hf'
    obtain ⟨h1, h2⟩ := (mem_pathsMissing _ _ f).1 hf'
    rw [mem_keys_pathSet] at h1 h2
    exact h2 ((hf _).1 h1)
  refine ⟨⟨?_, ?_, ?_, hadd, hrem⟩, hdiffs⟩
  · show decide ((windowDiffs (windowMap A.Windows) (windowMap B.Windows)).length > 0) = false
    rw [hdiffs]
    rfl
  · show (decide (A.ClipboardHash ≠ "") && decide (B.ClipboardHash ≠ "") &&
      decide (A.ClipboardHash ≠ B.ClipboardHash)) = false
    rcases hc with hc | hc | hc <;> simp [hc]
  · show (!jsonEq A.PluginData B.PluginData) = false
    simp [jsonEq, hp]

/-- C4: `diffStates A A` flags no category and lists no file; and so does `diffStates A B`
whenever the two states hold, for every handle, descriptors that agree on the compared fields
(or both none), have the same set of lower-cased, trimmed open-file paths, equal clipboard
fingerprints, and plugin maps that serialise to the same bytes. -/
theorem C4_no_difference_no_flag (A B : AppState) :
    (Unchanged (diffStates A A) ∧ (diffStates A A).WindowDiffs = []) ∧
    ((∀ h, (windowOf A h).map comparedFields = (windowOf B h).map comparedFields) →
      (∀ p, p ∈ normPaths A ↔ p ∈ normPaths B) →
      A.ClipboardHash = B.ClipboardHash →
      jsonMarshal A.PluginData = jsonMarshal B.PluginData →
      Unchanged (diffStates A B) ∧ (diffStates A B).WindowDiffs = []) :=
  ⟨unchanged_of_agree A A (fun _ => rfl) (fun _ => Iff.rfl) (Or.inr (Or.inr rfl)) rfl,
    fun hw hf hc hp => unchanged_of_agree A B hw hf (Or.inr (Or.inr hc)) hp⟩

/-- C4, witness: two states that differ in the title of their window, in the letter case
and the surrounding blanks of their open file, and in their timestamps. -/
theorem C4_no_difference_no_flag_witness :
    (∀ h, (windowOf obsTitled h).map comparedFields =
      (windowOf obsRetitled h).map comparedFields) ∧
    (∀ p, p ∈ normPaths obsTitled ↔ p ∈ normPaths obsRetitled) ∧
    obsTitled.ClipboardHash = obsRetitled.ClipboardHash ∧
    jsonMarshal obsTitled.PluginData = jsonMarshal obsRetitled.PluginData ∧
    obsTitled ≠ obsRetitled ∧
    Unchanged (diffStates obsTitled obsRetitled) ∧
    (diffStates obsTitled obsRetitled).WindowDiffs = [] :=
  have hw : ∀ h, (windowOf obsTitled h).map comparedFields =
      (windowOf obsRetitled h).map comparedFields := by
    intro h
    have h1 : windowOf obsTitled h =
        if h = 1 then some (sampleWindow 1 0 0 "old title") else none := rfl
    have h2 : windowOf obsRetitled h =
        if h = 1 then some (sampleWindow 1 0 0 "new title") else none := rfl
    rw [h1, h2]
    split_ifs <;> rfl
  have hf : ∀ p, p ∈ normPaths obsTitled ↔ p ∈ normPaths obsRetitled := by
    have : normPaths obsTitled = normPaths obsRetitled := by decide
    intro p
    rw [this]
  ⟨hw, hf, by decide, by decide, by decide,
    (C4_no_difference_no_flag obsTitled obsRetitled).2 hw hf (by decide) (by decide)⟩

/-! ## Chain resolution -/

theorem findSnapshot_some {snaps : List Snapshot} {id : String} {i : Nat}
    (h : findSnapshot snaps id = some i) :
    ∃ sn, snaps[i]? = some sn ∧ sn.SnapshotID = id := by
  induction snaps generalizing i with
  | nil => simp [findSnapshot] at h
  | cons s rest ih =>
    unfold findSnapshot at h
    split_ifs at h with hs
    · cases h
      exact ⟨s, by simp, hs⟩
    · cases hr : findSnapshot rest id with
      | none => simp [hr] at h
      | some j =>
        simp only [hr, Option.map_some', Option.some.injEq] at h
        subst h
        obtain ⟨sn, h1, h2⟩ := ih hr
        exact ⟨sn, by simpa using h1, h2⟩

theorem findSnapshot_isSome_of_mem {snaps : List Snapshot} {id : String}
    (h : id ∈ snaps.map (fun sn => sn.SnapshotID)) : ∃ i, findSnapshot snaps id = some i := by
  induction snaps with
  | nil => simp at h
  | cons s rest ih =>
    unfold findSnapshot
    split_ifs with hs
    · exact ⟨0, rfl⟩
    · simp only [List.map_cons, List.mem_cons] at h
      rcases h with h | h
      · exact absurd h.symm hs
      · obtain ⟨i, hi⟩ := ih h
        exact ⟨i + 1, by simp [hi]⟩

theorem findSnapshot_none_of_not_mem {snaps : List Snapshot} {id : String}
    (h : id ∉ snaps.map (fun sn => sn.SnapshotID)) : findSnapshot snaps id = none := by
  induction snaps with
  | nil => rfl
  | cons s rest ih =>
    simp only [List.map_cons, List.mem_cons, not_or] at h
    unfold findSnapshot
    rw [if_neg (fun e => h.1 e.symm), ih h.2]
    rfl

theorem findSnapshot_append_left {snaps : List Snapshot} {id : String} {i : Nat}
    (h : findSnapshot snaps id = some i) (ext : List Snapshot) :
    findSnapshot (snaps ++ ext) id = some i := by
  induction snaps generalizing i with
  | nil => simp [findSnapshot] at h
  | cons s rest ih =>
    unfold findSnapshot at h
    rw [List.cons_append]
    unfold findSnapshot
    split_ifs at h ⊢ with hs
    · exact h
    · cases hr : findSnapshot rest id with
      | none => simp [hr] at h
      | some j =>
        simp only [hr, Option.map_some', Option.some.injEq] at h
        subst h
        simp [ih hr]

theorem findSnapshot_append_new {snaps : List Snapshot} {sn : Snapshot}
    (h : sn.SnapshotID ∉ snaps.map (fun s => s.SnapshotID)) :
    findSnapshot (snaps ++ [sn]) sn.SnapshotID = some snaps.length := by
  induction snaps with
  | nil => simp [findSnapshot]
  | cons s rest ih =>
    simp only [List.map_cons, List.mem_cons, not_or] at h
    rw [List.cons_append]
    unfold findSnapshot
    rw [if_neg (fun e => h.1 e.symm), ih h.2]
    rfl

theorem collectChain_zero (snaps : List Snapshot) :
    collectChain snaps 0 = match snaps[0]? with
      | none => []
      | some s => [s] := rfl

theorem collectChain_succ (snaps : List Snapshot) (i : Nat) :
    collectChain snaps (i + 1) = match snaps[i + 1]? with
      | none => []
      | some s => if isCheckpoint s then [s] else s :: collectChain snaps i := rfl

theorem collectChain_append {snaps : List Snapshot} {i : Nat} (h : i < snaps.length)
    (ext : List Snapshot) : collectChain (snaps ++ ext) i = collectChain snaps i := by
  induction i with
  | zero =>
    rw [collectChain_zero, collectChain_zero, List.getElem?_append_left h]
  | succ j ih =>
    rw [collectChain_succ, collectChain_succ, List.getElem?_append_left h,
      ih (Nat.lt_of_succ_lt h)]

theorem collectChain_new_checkpoint (snaps : List Snapshot) (sn : Snapshot)
    (h : isCheckpoint sn = true ∨ snaps = []) :
    collectChain (snaps ++ [sn]) snaps.length = [sn] := by
  cases hl : snaps.length with
  | zero =>
    have : snaps = [] := List.length_eq_zero.1 hl
    subst this
    rfl
  | succ j =>
    rw [collectChain_succ]
    have hg : (snaps ++ [sn])[j + 1]? = some sn := by
      rw [← hl]
      simp
    rw [hg]
    rcases h with h | h
    · simp [h]
    · rw [h] at hl
      simp at hl

theorem collectChain_new_link (snaps : List Snapshot) (sn : Snapshot) (j : Nat)
    (hl : snaps.length = j + 1) (h : isCheckpoint sn = false) :
    collectChain (snaps ++ [sn]) snaps.length = sn :: collectChain snaps j := by
  rw [hl, collectChain_succ]
  have hg : (snaps ++ [sn])[j + 1]? = some sn := by
    rw [← hl]
    simp
  rw [hg]
  simp only [h, Bool.false_eq_true, if_false]
  rw [collectChain_append (by omega)]

/-- With a checkpoint exactly at the multiples of 30, the chain walked from an index holds
one link for the index and for each index before it down to the last multiple of 30. -/
theorem collectChain_length {snaps : List Snapshot}
    (hc : ∀ i sn, snaps[i]? = some sn → (isCheckpoint sn = true ↔ i % 30 = 0))
    {i : Nat} (h : i < snaps.length) : (collectChain snaps i).length = i % 30 + 1 := by
  induction i with
  | zero =>
    rw [collectChain_zero, List.getElem?_eq_getElem h]
    rfl
  | succ j ih =>
    rw [collectChain_succ, List.getElem?_eq_getElem h]
    have := hc (j + 1) _ (List.getElem?_eq_getElem h)
    by_cases hk : isCheckpoint snaps[j + 1] = true
    · simp only [hk, if_true, List.length_singleton]
      have := this.1 hk
      omega
    · simp only [hk, Bool.false_eq_true, if_false, List.length_cons,
        ih (Nat.lt_of_succ_lt h)]
      have : (j + 1) % 30 ≠ 0 := fun e => hk (this.2 e)
      omega

/-- With a checkpoint at index 0, every chain ends in a checkpoint of the timeline. -/
theorem collectChain_getLast {snaps : List Snapshot}
    (h0 : ∀ sn, snaps[0]? = some sn → isCheckpoint sn = true)
    {i : Nat} (h : i < snaps.length) :
    ∃ last, (collectChain snaps i).getLast? = some last ∧ isCheckpoint last = true ∧
      last ∈ snaps := by
  induction i with
  | zero =>
    rw [collectChain_zero, List.getElem?_eq_getElem h]
    exact ⟨snaps[0], rfl, h0 _ (List.getElem?_eq_getElem h), List.getElem_mem _⟩
  | succ j ih =>
    rw [collectChain_succ, List.getElem?_eq_getElem h]
    by_cases hk : isCheckpoint snaps[j + 1] = true
    · simp only [hk, if_true]
      exact ⟨snaps[j + 1], rfl, hk, List.getElem_mem _⟩
    · simp only [hk, Bool.false_eq_true, if_false]
      obtain ⟨last, h1, h2, h3⟩ := ih (Nat.lt_of_succ_lt h)
      refine ⟨last, ?_, h2, h3⟩
      rw [List.getLast?_cons]
      rw [h1]
      rfl

theorem chainSeed_checkpoint (disk : Disk) (tl : appTimeline) {last : Snapshot}
    (h : isCheckpoint last = true) :
    chainSeed disk tl last = loadFullSnapshotLocked disk last.DiskRef := by
  unfold chainSeed
  rw [if_pos h]

/-- The result of `resolveSnapshotLocked`, once the index, the chain's oldest link (a
checkpoint) and its file are known. -/
theorem resolve_of_chain (disk : Disk) (tl : appTimeline) (id : String) {i : Nat}
    {sel last : Snapshot} {f : StoredFile}
    (hi : findSnapshot tl.snapshots id = some i) (hsel : tl.snapshots[i]? = some sel)
    (hlast : (collectChain tl.snapshots i).getLast? = some last)
    (hck : isCheckpoint last = true) (hf : disk.get? last.DiskRef = some f)
    (hsz : f.size ≤ readLimit) :
    resolveSnapshotLocked disk tl id =
      .ok (sel, replayChain (jsonReload f.fs) (collectChain tl.snapshots i)) := by
  unfold resolveSnapshotLocked
  simp only [hi, hlast, hsel, chainSeed_checkpoint disk tl hck]
  unfold loadFullSnapshotLocked
  simp only [hf]
  rw [if_neg (by omega)]

theorem load_of_diskLe {d₁ d₂ : Disk} (hle : DiskLe d₁ d₂) {ref : String} {fs : FullSnapshot}
    (h : loadFullSnapshotLocked d₁ ref = .ok fs) : loadFullSnapshotLocked d₂ ref = .ok fs := by
  unfold loadFullSnapshotLocked at h ⊢
  cases hg : GoMap.get? d₁ ref with
  | none => simp [hg] at h
  | some f =>
    rw [hle _ _ hg]
    simpa [hg] using h


/-! ## One `Ingest` call -/

theorem touchTimeline_snapshots (e : Engine) (app : AppState) :
    (touchTimeline e app).snapshots = snapshotsOf e app.AppID := by
  unfold touchTimeline snapshotsOf
  cases GoMap.get? e.apps app.AppID <;> split_ifs <;> rfl

theorem retained_snapshots (s : Store) (st : Step) :
    (retained s st).snapshots =
      if s.engine.cfg.Retention ≤ 0 then snapshotsOf s.engine st.app.AppID
      else (snapshotsOf s.engine st.app.AppID).filter
        (fun sn => decide (sn.Timestamp > st.env.now - s.engine.cfg.Retention)) := by
  unfold retained applyRetentionLocked
  split_ifs
  · exact touchTimeline_snapshots _ _
  · simp only [touchTimeline_snapshots]

theorem retained_snapshots_of_noEviction {s : Store} {st : Step} (h : NoEviction s st) :
    (retained s st).snapshots = snapshotsOf s.engine st.app.AppID := by
  rw [retained_snapshots]
  split_ifs with hr
  · rfl
  · apply List.filter_eq_self.2
    intro sn hsn
    rcases h.1 sn hsn with h1 | h1
    · exact absurd h1 hr
    · simpa using h1

/-- The quiet return of `Ingest` (line 180). -/
theorem ingest_unchanged (s : Store) (st : Step)
    (h : (decide ((retained s st).snapshots.length > 0) && noChange (ingestDelta s st)) = true) :
    s.ingest st =
      { engine := { s.engine with apps := s.engine.apps.set st.app.AppID (retained s st) },
        disk := s.disk, meta := none, err := none } := by
  unfold Store.ingest Ingest
  unfold retained ingestDelta at h
  simp only [retained] at h ⊢
  rw [if_pos h]

/-- The return of `Ingest` with a new snapshot (lines 183-221). -/
theorem ingest_created (s : Store) (st : Step)
    (h : ¬ (decide ((retained s st).snapshots.length > 0) && noChange (ingestDelta s st)) = true) :
    s.ingest st =
      { engine := { s.engine with apps := (s.engine.apps.set st.app.AppID
          ({ (retained s st) with snapshots :=
              (appendCapped s.engine.cfg.MaxSnapshotsPerApp (retained s st).snapshots
                (newSnapshot s.disk st.env (retained s st) st.app (ingestDelta s st)).2) })) },
        disk := (newSnapshot s.disk st.env (retained s st) st.app (ingestDelta s st)).1,
        meta := some
          { SnapshotID := st.env.uuid, AppID := st.app.AppID,
            Timestamp := st.app.Timestamp / 1000000,
            WindowsCount := st.app.Windows.length,
            FilesAdded := (ingestDelta s st).FilesAdded.length,
            FilesRemoved := (ingestDelta s st).FilesRemoved.length },
        err := none } := by
  unfold Store.ingest Ingest
  unfold retained ingestDelta at h
  simp only [retained] at h ⊢
  rw [if_neg h]
  rfl

theorem creates_iff (s : Store) (st : Step) :
    Creates s st ↔
      ¬ (decide ((retained s st).snapshots.length > 0) && noChange (ingestDelta s st)) = true := by
  unfold Creates
  constructor
  · intro h hc
    rw [ingest_unchanged s st hc] at h
    exact h rfl
  · intro h
    rw [ingest_created s st h]
    simp

theorem step_cfg (s : Store) (st : Step) : (s.step st).engine.cfg = s.engine.cfg := by
  unfold Store.step
  by_cases h : (decide ((retained s st).snapshots.length > 0) && noChange (ingestDelta s st)) = true
  · rw [ingest_unchanged s st h]
  · rw [ingest_created s st h]

theorem run_cfg (s : Store) (steps : List Step) : (s.run steps).engine.cfg = s.engine.cfg := by
  induction steps generalizing s with
  | nil => rfl
  | cons st rest ih =>
    unfold Store.run at ih ⊢
    rw [List.foldl_cons, ih, step_cfg]

theorem snapshotsOf_set (e : Engine) (a b : String) (tl : appTimeline) :
    snapshotsOf { e with apps := e.apps.set a tl } b =
      if b = a then tl.snapshots else snapshotsOf e b := by
  unfold snapshotsOf
  simp only [GoMap.get?_set]
  split_ifs <;> rfl

/-- The timelines after one call: only the one of the observed application changes; it is
the retained timeline, with the new snapshot appended (and the cap applied) if one was
created. -/
theorem snapshotsOf_step (s : Store) (st : Step) (a : String) :
    snapshotsOf (s.step st).engine a =
      if a = st.app.AppID then
        if (decide ((retained s st).snapshots.length > 0) && noChange (ingestDelta s st)) = true
        then (retained s st).snapshots
        else appendCapped s.engine.cfg.MaxSnapshotsPerApp (retained s st).snapshots
          (newSnapshot s.disk st.env (retained s st) st.app (ingestDelta s st)).2
      else snapshotsOf s.engine a := by
  unfold Store.step
  by_cases h : (decide ((retained s st).snapshots.length > 0) && noChange (ingestDelta s st)) = true
  · rw [ingest_unchanged s st h, if_pos h]
    exact snapshotsOf_set _ _ _ _
  · rw [ingest_created s st h, if_neg h]
    exact snapshotsOf_set _ _ _ _

theorem disk_step (s : Store) (st : Step) :
    (s.step st).disk =
      if (decide ((retained s st).snapshots.length > 0) && noChange (ingestDelta s st)) = true
      then s.disk
      else (newSnapshot s.disk st.env (retained s st) st.app (ingestDelta s st)).1 := by
  unfold Store.step
  by_cases h : (decide ((retained s st).snapshots.length > 0) && noChange (ingestDelta s st)) = true
  · rw [ingest_unchanged s st h, if_pos h]
  · rw [ingest_created s st h, if_neg h]

theorem appendCapped_of_lt {cap : Int} {snaps : List Snapshot} (h : (snaps.length : Int) < cap)
    (sn : Snapshot) : appendCapped cap snaps sn = snaps ++ [sn] := by
  unfold appendCapped
  rw [if_neg]
  simp only [List.length_append, List.length_singleton, Nat.cast_add, Nat.cast_one]
  omega


/-! ## The new snapshot -/

theorem joinRef_ne_empty (appID digest : String) : joinRef appID (digest ++ ".json.gz") ≠ "" := by
  unfold joinRef
  split_ifs
  · intro h
    have := congrArg String.length h
    simp only [String.length_append] at this
    have h8 : ".json.gz".length = 8 := by decide
    have h0 : "".length = 0 := by decide
    omega
  · intro h
    have := congrArg String.length h
    simp only [String.length_append] at this
    have h8 : ".json.gz".length = 8 := by decide
    have h0 : "".length = 0 := by decide
    omega

theorem newSnapshot_fields (disk : Disk) (env : IngestEnv) (tl : appTimeline) (app : AppState)
    (delta : StateDelta) :
    (newSnapshot disk env tl app delta).2.SnapshotID = env.uuid ∧
    (newSnapshot disk env tl app delta).2.Delta = delta ∧
    (newSnapshot disk env tl app delta).2.Timestamp = app.Timestamp ∧
    (newSnapshot disk env tl app delta).2.AppID = app.AppID := by
  unfold newSnapshot spillFullSnapshotLocked
  split_ifs
  · cases env.spill <;> exact ⟨rfl, rfl, rfl, rfl⟩
  · exact ⟨rfl, rfl, rfl, rfl⟩

theorem newSnapshot_link (disk : Disk) (env : IngestEnv) (tl : appTimeline) (app : AppState)
    (delta : StateDelta) (h : tl.snapshots.length % 30 ≠ 0) :
    newSnapshot disk env tl app delta =
      (disk, { SnapshotID := env.uuid, AppID := app.AppID,
               BaseSnapshotID := tl.snapshots.getLast?.map (fun s => s.SnapshotID),
               Delta := delta, Timestamp := app.Timestamp, Spilled := false, DiskRef := "" }) := by
  unfold newSnapshot
  rw [if_neg h]

theorem newSnapshot_checkpoint (disk : Disk) (env : IngestEnv) (tl : appTimeline)
    (app : AppState) (delta : StateDelta) (o : SpillOutcome) (ho : env.spill = some o)
    (h : tl.snapshots.length % 30 = 0) :
    newSnapshot disk env tl app delta =
      (disk.set (joinRef app.AppID (o.digest ++ ".json.gz")) { fs := { App := app }, size := o.size },
       { SnapshotID := env.uuid, AppID := app.AppID, BaseSnapshotID := none,
         Delta := delta, Timestamp := app.Timestamp, Spilled := true,
         DiskRef := joinRef app.AppID (o.digest ++ ".json.gz") }) := by
  unfold newSnapshot spillFullSnapshotLocked
  rw [if_pos h, ho]

theorem newSnapshot_failed (disk : Disk) (env : IngestEnv) (tl : appTimeline)
    (app : AppState) (delta : StateDelta) (ho : env.spill = none) :
    newSnapshot disk env tl app delta =
      (disk, { SnapshotID := env.uuid, AppID := app.AppID,
               BaseSnapshotID := tl.snapshots.getLast?.map (fun s => s.SnapshotID),
               Delta := delta, Timestamp := app.Timestamp, Spilled := false, DiskRef := "" }) := by
  unfold newSnapshot spillFullSnapshotLocked
  rw [ho]
  split_ifs <;> rfl

theorem isCheckpoint_newSnapshot (disk : Disk) (env : IngestEnv) (tl : appTimeline)
    (app : AppState) (delta : StateDelta) (o : SpillOutcome) (ho : env.spill = some o) :
    isCheckpoint (newSnapshot disk env tl app delta).2 = true ↔ tl.snapshots.length % 30 = 0 := by
  by_cases h : tl.snapshots.length % 30 = 0
  · rw [newSnapshot_checkpoint disk env tl app delta o ho h]
    simp [isCheckpoint, joinRef_ne_empty, h]
  · rw [newSnapshot_link disk env tl app delta h]
    simp [isCheckpoint, h]

theorem diskLe_refl (d : Disk) : DiskLe d d := fun _ _ h => h

theorem diskLe_trans {d₁ d₂ d₃ : Disk} (h₁ : DiskLe d₁ d₂) (h₂ : DiskLe d₂ d₃) : DiskLe d₁ d₃ :=
  fun r f h => h₂ r f (h₁ r f h)

theorem diskLe_set {d : Disk} {ref : String} {f : StoredFile}
    (h : d.get? ref = none ∨ d.get? ref = some f) : DiskLe d (d.set ref f) := by
  intro r g hg
  rw [GoMap.get?_set]
  split_ifs with e
  · subst e
    rcases h with h | h
    · rw [h] at hg
      cases hg
    · rw [h] at hg
      exact hg
  · exact hg

theorem diskLe_newSnapshot {s : Store} {st : Step} (h : CheckpointOK s st) (tl : appTimeline)
    (delta : StateDelta) : DiskLe s.disk (newSnapshot s.disk st.env tl st.app delta).1 := by
  unfold CheckpointOK at h
  cases ho : st.env.spill with
  | none => simp [ho] at h
  | some o =>
    simp only [ho] at h
    by_cases hl : tl.snapshots.length % 30 = 0
    · rw [newSnapshot_checkpoint _ _ _ _ _ o ho hl]
      exact diskLe_set h.2
    · rw [newSnapshot_link _ _ _ _ _ hl]
      exact diskLe_refl _

theorem diskLe_step {s : Store} {st : Step} (h : CheckpointOK s st) :
    DiskLe s.disk (s.step st).disk := by
  rw [disk_step]
  split_ifs
  · exact diskLe_refl _
  · exact diskLe_newSnapshot h _ _

/-! ## The invariant of runs without eviction -/

theorem timelineOK_mono {d₁ d₂ : Disk} (hle : DiskLe d₁ d₂) {snaps : List Snapshot}
    (h : TimelineOK d₁ snaps) : TimelineOK d₂ snaps := by
  refine ⟨h.1, h.2.1, ?_⟩
  intro sn hsn hck
  obtain ⟨f, hf, hsz⟩ := h.2.2 sn hsn hck
  exact ⟨f, hle _ _ hf, hsz⟩

theorem timelineOK_append {s : Store} {st : Step} (hg : GoodStep s st)
    (hok : TimelineOK s.disk (snapshotsOf s.engine st.app.AppID)) :
    TimelineOK (newSnapshot s.disk st.env (retained s st) st.app (ingestDelta s st)).1
      (snapshotsOf s.engine st.app.AppID ++
        [(newSnapshot s.disk st.env (retained s st) st.app (ingestDelta s st)).2]) := by
  obtain ⟨hne, hfresh, hck⟩ := hg
  have hret := retained_snapshots_of_noEviction hne
  have hle := diskLe_newSnapshot hck (retained s st) (ingestDelta s st)
  have hfields := newSnapshot_fields s.disk st.env (retained s st) st.app (ingestDelta s st)
  unfold CheckpointOK at hck
  cases ho : st.env.spill with
  | none => simp [ho] at hck
  | some o =>
    simp only [ho] at hck
    have hiff := isCheckpoint_newSnapshot s.disk st.env (retained s st) st.app
      (ingestDelta s st) o ho
    rw [hret] at hiff
    set snap := (newSnapshot s.disk st.env (retained s st) st.app (ingestDelta s st)).2 with hsnap
    refine ⟨?_, ?_, ?_⟩
    · rw [List.map_append, List.map_singleton, hfields.1]
      apply List.Nodup.append hok.1 (List.nodup_singleton _)
      intro x hx hx'
      rw [List.mem_singleton] at hx'
      subst hx'
      exact hfresh hx
    · intro i sn hi
      by_cases hlt : i < (snapshotsOf s.engine st.app.AppID).length
      · rw [List.getElem?_append_left hlt] at hi
        exact hok.2.1 i sn hi
      · have hi' : i = (snapshotsOf s.engine st.app.AppID).length := by
          by_contra hne'
          rw [List.getElem?_eq_none (by simp; omega)] at hi
          cases hi
        subst hi'
        simp at hi
        subst hi
        exact hiff
    · intro sn hsn hc
      rcases List.mem_append.1 hsn with h1 | h1
      · obtain ⟨f, hf, hsz⟩ := hok.2.2 sn h1 hc
        exact ⟨f, hle _ _ hf, hsz⟩
      · rw [List.mem_singleton] at h1
        subst h1
        have hl := hiff.1 hc
        rw [← hret] at hl
        have := newSnapshot_checkpoint s.disk st.env (retained s st) st.app
          (ingestDelta s st) o ho hl
        rw [hsnap, this]
        exact ⟨{ fs := { App := st.app }, size := o.size }, by simp [GoMap.get?_set], hck.1⟩

theorem storeOK_step {s : Store} {st : Step} (hok : StoreOK s) (hg : GoodStep s st) :
    StoreOK (s.step st) := by
  intro a
  rw [snapshotsOf_step]
  by_cases ha : a = st.app.AppID
  · rw [if_pos ha, disk_step]
    split_ifs with hc
    · rw [retained_snapshots_of_noEviction hg.1]
      exact hok _
    · rw [retained_snapshots_of_noEviction hg.1, appendCapped_of_lt hg.1.2,
        ← retained_snapshots_of_noEviction hg.1]
      have := timelineOK_append hg (hok _)
      rw [← retained_snapshots_of_noEviction hg.1] at this
      exact this
  · rw [if_neg ha]
    exact timelineOK_mono (diskLe_step hg.2.2) (hok a)

theorem storeOK_start (cfg : EngineConfig) (disk : Disk) : StoreOK (Store.start cfg disk) := by
  intro a
  have : snapshotsOf (Store.start cfg disk).engine a = [] := rfl
  rw [this]
  exact ⟨List.nodup_nil, by simp, by simp⟩

theorem run_cons (s : Store) (st : Step) (rest : List Step) :
    s.run (st :: rest) = (s.step st).run rest := rfl

theorem run_append (s : Store) (l₁ l₂ : List Step) :
    s.run (l₁ ++ l₂) = (s.run l₁).run l₂ := by
  unfold Store.run
  rw [List.foldl_append]

theorem runAll_cons {P : Store → Step → Prop} (s : Store) (st : Step) (rest : List Step) :
    RunAll P s (st :: rest) ↔ P s st ∧ RunAll P (s.step st) rest := Iff.rfl

theorem runAll_append {P : Store → Step → Prop} (s : Store) (l₁ l₂ : List Step) :
    RunAll P s (l₁ ++ l₂) ↔ RunAll P s l₁ ∧ RunAll P (s.run l₁) l₂ := by
  induction l₁ generalizing s with
  | nil => simp [RunAll, Store.run]
  | cons st rest ih =>
    rw [List.cons_append, runAll_cons, runAll_cons, ih, run_cons, and_assoc]

theorem storeOK_run {s : Store} {steps : List Step} (hok : StoreOK s)
    (hg : RunAll GoodStep s steps) : StoreOK (s.run steps) := by
  induction steps generalizing s with
  | nil => exact hok
  | cons st rest ih =>
    rw [run_cons]
    exact ih (storeOK_step hok hg.1) hg.2


/-! ## Resolution in timelines that satisfy the invariant -/

theorem getElem?_lt {α : Type} {l : List α} {i : Nat} {x : α} (h : l[i]? = some x) :
    i < l.length := by
  by_contra hn
  rw [List.getElem?_eq_none (by omega)] at h
  cases h

/-- In a timeline that satisfies the invariant, a snapshot id that is found resolves: the
chain ends in a checkpoint whose file loads, and the result is the replay of the chain on
what the file reads back as. -/
theorem resolve_timelineOK (disk : Disk) (tl : appTimeline) (id : String)
    (hok : TimelineOK disk tl.snapshots) {i : Nat}
    (hi : findSnapshot tl.snapshots id = some i) :
    ∃ sel last f, tl.snapshots[i]? = some sel ∧ sel.SnapshotID = id ∧
      (collectChain tl.snapshots i).getLast? = some last ∧ isCheckpoint last = true ∧
      disk.get? last.DiskRef = some f ∧ f.size ≤ readLimit ∧
      resolveSnapshotLocked disk tl id =
        .ok (sel, replayChain (jsonReload f.fs) (collectChain tl.snapshots i)) := by
  obtain ⟨sel, hsel, hid⟩ := findSnapshot_some hi
  have hlt := getElem?_lt hsel
  have h0 : ∀ sn, tl.snapshots[0]? = some sn → isCheckpoint sn = true :=
    fun sn hsn => (hok.2.1 0 sn hsn).2 rfl
  obtain ⟨last, hlast, hck, hmem⟩ := collectChain_getLast h0 hlt
  obtain ⟨f, hf, hsz⟩ := hok.2.2 last hmem hck
  exact ⟨sel, last, f, hsel, hid, hlast, hck, hf, hsz,
    resolve_of_chain disk tl id hi hsel hlast hck hf hsz⟩

theorem resolve_ok_mem {disk : Disk} {tl : appTimeline} {id : String}
    {r : Snapshot × FullSnapshot} (h : resolveSnapshotLocked disk tl id = .ok r) :
    id ∈ tl.snapshots.map (fun sn => sn.SnapshotID) := by
  by_contra hn
  unfold resolveSnapshotLocked at h
  rw [findSnapshot_none_of_not_mem hn] at h
  cases h

/-- Appending snapshots to a timeline, rewriting its display data and adding files to the
disk does not change what a snapshot id of the timeline resolves to. -/
theorem resolve_extend {disk disk' : Disk} {tl tl' : appTimeline} {id : String}
    (hok : TimelineOK disk tl.snapshots) (hle : DiskLe disk disk') (ext : List Snapshot)
    (hs : tl'.snapshots = tl.snapshots ++ ext)
    (hid : id ∈ tl.snapshots.map (fun sn => sn.SnapshotID)) :
    resolveSnapshotLocked disk' tl' id = resolveSnapshotLocked disk tl id := by
  obtain ⟨i, hi⟩ := findSnapshot_isSome_of_mem hid
  obtain ⟨sel, last, f, hsel, _, hlast, hck, hf, hsz, hres⟩ := resolve_timelineOK disk tl id hok hi
  have hlt := getElem?_lt hsel
  rw [hres]
  have hi' : findSnapshot tl'.snapshots id = some i := by
    rw [hs]
    exact findSnapshot_append_left hi ext
  have hsel' : tl'.snapshots[i]? = some sel := by
    rw [hs, List.getElem?_append_left hlt]
    exact hsel
  have hchain : collectChain tl'.snapshots i = collectChain tl.snapshots i := by
    rw [hs]
    exact collectChain_append hlt ext
  rw [← hchain]
  apply resolve_of_chain disk' tl' id hi' hsel' _ hck (hle _ _ hf) hsz
  rw [hchain]
  exact hlast

theorem get?_apps_step (s : Store) (st : Step) (a : String) :
    ∃ tl', (s.step st).engine.apps.get? st.app.AppID = some tl' ∧
      tl'.snapshots = snapshotsOf (s.step st).engine st.app.AppID ∧
      (a ≠ st.app.AppID → (s.step st).engine.apps.get? a = s.engine.apps.get? a) := by
  unfold snapshotsOf Store.step
  by_cases h : (decide ((retained s st).snapshots.length > 0) && noChange (ingestDelta s st)) = true
  · rw [ingest_unchanged s st h]
    simp only [GoMap.get?_set, if_true]
    exact ⟨_, rfl, rfl, fun ha => by rw [if_neg ha]⟩
  · rw [ingest_created s st h]
    simp only [GoMap.get?_set, if_true]
    exact ⟨_, rfl, rfl, fun ha => by rw [if_neg ha]⟩

theorem snapshotsOf_of_get? {e : Engine} {a : String} {tl : appTimeline}
    (h : e.apps.get? a = some tl) : snapshotsOf e a = tl.snapshots := by
  unfold snapshotsOf
  rw [h]

/-- The snapshots of the observed application after a call without eviction: the same, or
the same with the new snapshot appended. -/
theorem snapshotsOf_step_self {s : Store} {st : Step} (hne : NoEviction s st) :
    ∃ ext, snapshotsOf (s.step st).engine st.app.AppID =
      snapshotsOf s.engine st.app.AppID ++ ext := by
  rw [snapshotsOf_step, if_pos rfl, retained_snapshots_of_noEviction hne]
  split_ifs
  · exact ⟨[], by simp⟩
  · rw [appendCapped_of_lt hne.2]
    exact ⟨_, rfl⟩

/-- A call without eviction, with a fresh identifier and a successful checkpoint write
leaves every resolution of the store as it was. -/
theorem resolve_step {s : Store} {st : Step} (hok : StoreOK s) (hg : GoodStep s st)
    {a id : String} {r : Snapshot × FullSnapshot}
    (h : ResolveSnapshot s.engine s.disk a id = .ok r) :
    ResolveSnapshot (s.step st).engine (s.step st).disk a id = .ok r := by
  unfold ResolveSnapshot at h ⊢
  cases hget : GoMap.get? s.engine.apps a with
  | none => simp [hget] at h
  | some tl =>
    simp only [hget] at h
    have hsn := snapshotsOf_of_get? hget
    have hokT : TimelineOK s.disk tl.snapshots := by
      rw [← hsn]
      exact hok a
    obtain ⟨tl', h1, h2, h3⟩ := get?_apps_step s st a
    by_cases ha : a = st.app.AppID
    · subst ha
      obtain ⟨ext, hext⟩ := snapshotsOf_step_self hg.1
      simp only [h1]
      rw [resolve_extend hokT (diskLe_step hg.2.2) ext (by rw [h2, hext, hsn])
        (resolve_ok_mem h)]
      exact h
    · rw [h3 ha]
      simp only [hget]
      rw [resolve_extend hokT (diskLe_step hg.2.2) [] (by simp) (resolve_ok_mem h)]
      exact h

theorem resolve_run {s : Store} {steps : List Step} (hok : StoreOK s)
    (hg : RunAll GoodStep s steps) {a id : String} {r : Snapshot × FullSnapshot}
    (h : ResolveSnapshot s.engine s.disk a id = .ok r) :
    ResolveSnapshot (s.run steps).engine (s.run steps).disk a id = .ok r := by
  induction steps generalizing s with
  | nil => exact h
  | cons st rest ih =>
    rw [run_cons]
    exact ih (storeOK_step hok hg.1) hg.2 (resolve_step hok hg.1 h)


/-! ## What the new snapshot resolves to -/

theorem reconstructs_roundtrip (X S : AppState) :
    Reconstructs (applyDelta X (diffStates X S)) S :=
  ⟨windowOf_roundtrip_fields X S, mem_normPaths_roundtrip X S, fun _ => jsonMarshal_roundtrip X S⟩

theorem reconstructs_checkpoint (X S : AppState) :
    Reconstructs (applyDelta (jsonReload { App := S }).App (diffStates X S)) S := by
  refine ⟨fun h => ?_, fun p => ?_, ?_⟩
  · rw [windowOf_replay_on_target (jsonReload { App := S }).App X S rfl]
  · exact mem_normPaths_replay_on_target (jsonReload { App := S }).App X S rfl p
  · intro hne
    rw [applyDelta_PluginData]
    have hd : (diffStates X S).PluginData = S.PluginData := rfl
    split_ifs
    · rw [hd]
    · show jsonMarshal (match S.PluginData with
        | some [] => none
        | p => p) = _
      cases hp : S.PluginData with
      | none => rfl
      | some m =>
        cases m with
        | nil => exact absurd hp hne
        | cons e m => rfl

theorem replayChain_cons (base : FullSnapshot) (sn : Snapshot) (chain : List Snapshot) :
    replayChain base (sn :: chain) = { App := applyDelta (replayChain base chain).App sn.Delta } :=
  rfl

theorem replayChain_nil (base : FullSnapshot) : replayChain base [] = base := rfl

theorem findSnapshot_getLast {snaps : List Snapshot} {l : Snapshot}
    (hn : (snaps.map (fun sn => sn.SnapshotID)).Nodup) (hl : snaps.getLast? = some l) :
    findSnapshot snaps l.SnapshotID = some (snaps.length - 1) := by
  obtain ⟨init, rfl⟩ : ∃ init, snaps = init ++ [l] := by
    rcases List.eq_nil_or_concat snaps with h | ⟨init, x, h⟩
    · rw [h] at hl
      cases hl
    · rw [h] at hl
      simp at hl
      subst hl
      exact ⟨init, by simpa using h⟩
  rw [List.map_append, List.map_singleton] at hn
  have hnot : l.SnapshotID ∉ init.map (fun sn => sn.SnapshotID) := by
    intro hmem
    exact (List.nodup_append.1 hn).2.2 hmem (List.mem_singleton.2 rfl)
  rw [findSnapshot_append_new hnot]
  simp

/-- The state `Ingest` diffs against, when the timeline satisfies the invariant and holds
`j + 1` snapshots: the replay of the chain of the last snapshot. -/
theorem diffBase_timelineOK (disk : Disk) (tl : appTimeline) (app : AppState)
    (hok : TimelineOK disk tl.snapshots) {j : Nat} (hj : tl.snapshots.length = j + 1) :
    ∃ last f, (collectChain tl.snapshots j).getLast? = some last ∧
      disk.get? last.DiskRef = some f ∧
      diffBase disk tl app = replayChain (jsonReload f.fs) (collectChain tl.snapshots j) := by
  have hne : tl.snapshots ≠ [] := by
    intro h
    rw [h] at hj
    cases hj
  obtain ⟨l, hl⟩ : ∃ l, tl.snapshots.getLast? = some l :=
    ⟨tl.snapshots.getLast hne, List.getLast?_eq_getLast _ hne⟩
  have hi := findSnapshot_getLast hok.1 hl
  rw [hj, Nat.add_sub_cancel] at hi
  obtain ⟨sel, last, f, _, _, hlast, _, hf, _, hres⟩ :=
    resolve_timelineOK disk tl l.SnapshotID hok hi
  refine ⟨last, f, hlast, hf, ?_⟩
  unfold diffBase
  simp only [hl, hres]

/-- A call that creates a snapshot, with no eviction, a fresh identifier and a successful
checkpoint write, on a store that satisfies the invariant: the new snapshot resolves, to a
state that reconstructs the observation. -/
theorem resolve_new {s : Store} {st : Step} (hok : StoreOK s) (hg : GoodStep s st)
    (hc : Creates s st) :
    ∃ sel full, ResolveSnapshot (s.step st).engine (s.step st).disk st.app.AppID st.env.uuid =
        .ok (sel, full) ∧
      sel.SnapshotID = st.env.uuid ∧ sel.Timestamp = st.app.Timestamp ∧
      Reconstructs full.App st.app := by
  have hcond := (creates_iff s st).1 hc
  have hret := retained_snapshots_of_noEviction hg.1
  have hfields := newSnapshot_fields s.disk st.env (retained s st) st.app (ingestDelta s st)
  have hsnaps : snapshotsOf (s.step st).engine st.app.AppID =
      (retained s st).snapshots ++
        [(newSnapshot s.disk st.env (retained s st) st.app (ingestDelta s st)).2] := by
    rw [snapshotsOf_step, if_pos rfl, if_neg hcond, appendCapped_of_lt]
    rw [hret]
    exact hg.1.2
  have hdisk : (s.step st).disk =
      (newSnapshot s.disk st.env (retained s st) st.app (ingestDelta s st)).1 := by
    rw [disk_step, if_neg hcond]
  have hokR : TimelineOK s.disk (retained s st).snapshots := by
    rw [hret]
    exact hok _
  have hokT : TimelineOK (newSnapshot s.disk st.env (retained s st) st.app (ingestDelta s st)).1
      ((retained s st).snapshots ++
        [(newSnapshot s.disk st.env (retained s st) st.app (ingestDelta s st)).2]) := by
    have := timelineOK_append hg (hok _)
    rw [← hret] at this
    exact this
  obtain ⟨tl', h1, h2, _⟩ := get?_apps_step s st st.app.AppID
  rw [hsnaps] at h2
  have hfresh : (newSnapshot s.disk st.env (retained s st) st.app (ingestDelta s st)).2.SnapshotID ∉
      (retained s st).snapshots.map (fun sn => sn.SnapshotID) := by
    rw [hfields.1, hret]
    exact hg.2.1
  have hi : findSnapshot tl'.snapshots st.env.uuid = some (retained s st).snapshots.length := by
    rw [h2, ← hfields.1]
    exact findSnapshot_append_new hfresh
  obtain ⟨sel, last, f, hsel, hid, hlast, hck, hf, hsz, hres⟩ :=
    resolve_timelineOK _ tl' st.env.uuid (by rw [h2]; exact hokT) hi
  have hsel' : sel = (newSnapshot s.disk st.env (retained s st) st.app (ingestDelta s st)).2 := by
    rw [h2] at hsel
    simpa using hsel.symm
  unfold ResolveSnapshot
  simp only [h1]
  rw [hdisk, hres]
  refine ⟨sel, _, rfl, hid, by rw [hsel']; exact hfields.2.2.1, ?_⟩
  rw [h2] at hlast hres ⊢
  obtain ⟨_, _, hspill⟩ := hg
  unfold CheckpointOK at hspill
  cases ho : st.env.spill with
  | none => simp [ho] at hspill
  | some o =>
    by_cases hl : (retained s st).snapshots.length % 30 = 0
    · have hnew := newSnapshot_checkpoint s.disk st.env (retained s st) st.app
        (ingestDelta s st) o ho hl
      have hckp := (isCheckpoint_newSnapshot s.disk st.env (retained s st) st.app
        (ingestDelta s st) o ho).2 hl
      rw [collectChain_new_checkpoint _ _ (Or.inl hckp)] at hlast ⊢
      simp only [List.getLast?_singleton, Option.some.injEq] at hlast
      subst hlast
      rw [hnew] at hf
      simp only [GoMap.get?_set, if_true, Option.some.injEq] at hf
      subst hf
      rw [replayChain_cons, replayChain_nil, hfields.2.1]
      exact reconstructs_checkpoint _ _
    · have hnew := newSnapshot_link s.disk st.env (retained s st) st.app (ingestDelta s st) hl
      obtain ⟨j, hj⟩ : ∃ j, (retained s st).snapshots.length = j + 1 := by
        cases hlen : (retained s st).snapshots.length with
        | zero => simp [hlen] at hl
        | succ j => exact ⟨j, rfl⟩
      have hnck : isCheckpoint
          (newSnapshot s.disk st.env (retained s st) st.app (ingestDelta s st)).2 = false := by
        rw [hnew]
        rfl
      rw [collectChain_new_link _ _ j hj hnck] at hlast ⊢
      obtain ⟨last₀, f₀, hlast₀, hf₀, hbase⟩ :=
        diffBase_timelineOK s.disk (retained s st) st.app hokR hj
      rw [List.getLast?_cons, hlast₀] at hlast
      simp only [Option.getD_some, Option.some.injEq] at hlast
      subst hlast
      rw [hnew] at hf
      simp only at hf
      rw [hf₀] at hf
      cases hf
      rw [replayChain_cons, hfields.2.1, ← hbase]
      exact reconstructs_roundtrip _ _


/-! ## Runs whose checkpoint writes go through -/

theorem timelineShape_append {s : Store} {st : Step} (hg : CalmStep s st)
    (hok : TimelineShape (snapshotsOf s.engine st.app.AppID)) :
    TimelineShape (snapshotsOf s.engine st.app.AppID ++
      [(newSnapshot s.disk st.env (retained s st) st.app (ingestDelta s st)).2]) := by
  obtain ⟨hne, hfresh, hw⟩ := hg
  have hret := retained_snapshots_of_noEviction hne
  have hfields := newSnapshot_fields s.disk st.env (retained s st) st.app (ingestDelta s st)
  unfold WriteOK at hw
  cases ho : st.env.spill with
  | none => exact absurd ho hw
  | some o =>
    have hiff := isCheckpoint_newSnapshot s.disk st.env (retained s st) st.app
      (ingestDelta s st) o ho
    rw [hret] at hiff
    refine ⟨?_, ?_⟩
    · rw [List.map_append, List.map_singleton, hfields.1]
      apply List.Nodup.append hok.1 (List.nodup_singleton _)
      intro x hx hx'
      rw [List.mem_singleton] at hx'
      subst hx'
      exact hfresh hx
    · intro i sn hi
      by_cases hlt : i < (snapshotsOf s.engine st.app.AppID).length
      · rw [List.getElem?_append_left hlt] at hi
        exact hok.2 i sn hi
      · have hi' : i = (snapshotsOf s.engine st.app.AppID).length := by
          by_contra hne'
          rw [List.getElem?_eq_none (by simp; omega)] at hi
          cases hi
        subst hi'
        simp at hi
        subst hi
        exact hiff

theorem storeShape_step {s : Store} {st : Step} (hok : StoreShape s) (hg : CalmStep s st) :
    StoreShape (s.step st) := by
  intro a
  rw [snapshotsOf_step]
  by_cases ha : a = st.app.AppID
  · rw [if_pos ha]
    split_ifs with hc
    · rw [retained_snapshots_of_noEviction hg.1]
      exact hok _
    · rw [retained_snapshots_of_noEviction hg.1, appendCapped_of_lt hg.1.2,
        ← retained_snapshots_of_noEviction hg.1]
      have := timelineShape_append hg (hok _)
      rw [← retained_snapshots_of_noEviction hg.1] at this
      exact this
  · rw [if_neg ha]
    exact hok a

theorem storeShape_start (cfg : EngineConfig) (disk : Disk) :
    StoreShape (Store.start cfg disk) := by
  intro a
  have : snapshotsOf (Store.start cfg disk).engine a = [] := rfl
  rw [this]
  exact ⟨List.nodup_nil, by simp⟩

theorem storeShape_run {s : Store} {steps : List Step} (hok : StoreShape s)
    (hg : RunAll CalmStep s steps) : StoreShape (s.run steps) := by
  induction steps generalizing s with
  | nil => exact hok
  | cons st rest ih =>
    rw [run_cons]
    exact ih (storeShape_step hok hg.1) hg.2

theorem length_snapshotsOf_step {s : Store} {st : Step} (hne : NoEviction s st)
    (hc : Creates s st) :
    (snapshotsOf (s.step st).engine st.app.AppID).length =
      (snapshotsOf s.engine st.app.AppID).length + 1 := by
  rw [snapshotsOf_step, if_pos rfl, if_neg ((creates_iff s st).1 hc),
    retained_snapshots_of_noEviction hne, appendCapped_of_lt hne.2]
  simp

theorem length_snapshotsOf_run {a : String} {steps : List Step} {s : Store}
    (happ : ∀ st ∈ steps, st.app.AppID = a) (hg : RunAll CalmStep s steps)
    (hc : RunAll Creates s steps) :
    (snapshotsOf (s.run steps).engine a).length =
      (snapshotsOf s.engine a).length + steps.length := by
  induction steps generalizing s with
  | nil => rfl
  | cons st rest ih =>
    have ha := happ st (List.mem_cons_self _ _)
    rw [run_cons, ih (fun st' h' => happ st' (List.mem_cons_of_mem _ h')) hg.2 hc.2, ← ha,
      length_snapshotsOf_step hg.1.1 hc.1, List.length_cons]
    omega

/-- When the state of the last snapshot does not resolve, `Ingest` compares the observation
with itself and creates nothing: a call that creates a snapshot on a non-empty timeline has
resolved the last snapshot. -/
theorem resolves_of_creates {s : Store} {st : Step} (hc : Creates s st) {l : Snapshot}
    (hl : (retained s st).snapshots.getLast? = some l) :
    ∃ r, resolveSnapshotLocked s.disk (retained s st) l.SnapshotID = .ok r := by
  cases hres : resolveSnapshotLocked s.disk (retained s st) l.SnapshotID with
  | ok r => exact ⟨r, rfl⟩
  | error e =>
    exfalso
    apply (creates_iff s st).1 hc
    have hbase : diffBase s.disk (retained s st) st.app = { App := st.app } := by
      unfold diffBase
      simp only [hl, hres]
    have hdelta : ingestDelta s st = diffStates st.app st.app := by
      unfold ingestDelta
      rw [hbase]
    have hun := (unchanged_of_agree st.app st.app (fun _ => rfl) (fun _ => Iff.rfl)
      (Or.inr (Or.inr rfl)) rfl).1
    rw [← hdelta] at hun
    obtain ⟨h1, h2, h3, h4, h5⟩ := hun
    have hpos : 0 < (retained s st).snapshots.length := by
      cases hs : (retained s st).snapshots with
      | nil => simp [hs] at hl
      | cons x xs => simp
    simp [noChange, h1, h2, h3, h4, h5, hpos]

/-- A resolution that succeeds through a chain ending in a checkpoint has loaded the file of
that checkpoint. -/
theorem load_of_resolve_ok {disk : Disk} {tl : appTimeline} {id : String} {i : Nat}
    {last : Snapshot} {r : Snapshot × FullSnapshot}
    (hres : resolveSnapshotLocked disk tl id = .ok r)
    (hi : findSnapshot tl.snapshots id = some i)
    (hlast : (collectChain tl.snapshots i).getLast? = some last)
    (hck : isCheckpoint last = true) :
    ∃ seed, loadFullSnapshotLocked disk last.DiskRef = .ok seed := by
  obtain ⟨sel, hsel, _⟩ := findSnapshot_some hi
  unfold resolveSnapshotLocked at hres
  simp only [hi, hlast, hsel, chainSeed_checkpoint disk tl hck] at hres
  cases hload : loadFullSnapshotLocked disk last.DiskRef with
  | ok seed => exact ⟨seed, rfl⟩
  | error e => simp [hload] at hres

theorem resolve_of_seed (disk : Disk) (tl : appTimeline) (id : String) {i : Nat}
    {sel last : Snapshot} {seed : FullSnapshot}
    (hi : findSnapshot tl.snapshots id = some i) (hsel : tl.snapshots[i]? = some sel)
    (hlast : (collectChain tl.snapshots i).getLast? = some last)
    (hck : isCheckpoint last = true)
    (hload : loadFullSnapshotLocked disk last.DiskRef = .ok seed) :
    resolveSnapshotLocked disk tl id = .ok (sel, replayChain seed (collectChain tl.snapshots i)) := by
  unfold resolveSnapshotLocked
  simp only [hi, hlast, hsel, chainSeed_checkpoint disk tl hck, hload]

/-! ## Claims on whole runs -/

theorem meta_id_of_ingest {s : Store} {st : Step} {m : SnapshotMeta}
    (h : (s.ingest st).meta = some m) : m.SnapshotID = st.env.uuid ∧ Creates s st := by
  have hc : Creates s st := by
    unfold Creates
    rw [h]
    simp
  refine ⟨?_, hc⟩
  rw [ingest_created s st ((creates_iff s st).1 hc)] at h
  simp only [Option.some.injEq] at h
  rw [← h]

/-- C1 (amended): in a run of `Ingest` calls from a new engine in which every checkpoint
write succeeds with a file within the read guard of `loadFullSnapshotLocked`, no snapshot is
evicted and the identifiers are fresh, the id that the `k`-th call returned resolves, in the
final store, to a snapshot with that id and the timestamp of the `k`-th observation, and to a
full state that has, handle by handle, the rectangle, monitor id, z-order, flags and virtual
desktop of that observation, the same set of lower-cased trimmed open-file paths, and, unless
the observation holds the empty (non-nil) plugin map, a plugin map that serialises to the same
bytes. -/
theorem C1_resolve_reconstructs (cfg : EngineConfig) (disk : Disk) (steps : List Step)
    (k : Nat) (st : Step) (m : SnapshotMeta)
    (hgood : RunAll GoodStep (Store.start cfg disk) steps)
    (hk : steps[k]? = some st)
    (hm : (((Store.start cfg disk).run (steps.take k)).ingest st).meta = some m) :
    ∃ sel full,
      ResolveSnapshot ((Store.start cfg disk).run steps).engine
          ((Store.start cfg disk).run steps).disk st.app.AppID m.SnapshotID = .ok (sel, full) ∧
        sel.SnapshotID = m.SnapshotID ∧ sel.Timestamp = st.app.Timestamp ∧
        Reconstructs full.App st.app := by
  have hsplit : steps = steps.take k ++ st :: steps.drop (k + 1) := by
    have hlt := getElem?_lt hk
    rw [List.getElem?_eq_getElem hlt] at hk
    simp only [Option.some.injEq] at hk
    rw [← hk, ← List.drop_eq_getElem_cons hlt, List.take_append_drop]
  rw [hsplit] at hgood
  obtain ⟨h1, h2⟩ := (runAll_append _ _ _).1 hgood
  have hok := storeOK_run (storeOK_start cfg disk) h1
  obtain ⟨hid, hc⟩ := meta_id_of_ingest hm
  obtain ⟨sel, full, hres, hsid, hts, hrec⟩ := resolve_new hok h2.1 hc
  refine ⟨sel, full, ?_, by rw [hid]; exact hsid, hts, hrec⟩
  have := resolve_run (storeOK_step hok h2.1) h2.2 hres
  rw [← run_cons, ← run_append, ← hsplit] at this
  rw [hid]
  exact this

/-- C1, witness: S1 is ingested, then S2 with the window moved; the id returned for S1
resolves to a state with the window where S1 had it. -/
theorem C1_resolve_reconstructs_witness :
    RunAll GoodStep (Store.start sampleConfig []) scenarioSteps ∧
    (∃ sel full,
      ResolveSnapshot ((Store.start sampleConfig []).run scenarioSteps).engine
          ((Store.start sampleConfig []).run scenarioSteps).disk obsS1.AppID "id-1" =
            .ok (sel, full) ∧
        sel.SnapshotID = "id-1" ∧ sel.Timestamp = obsS1.Timestamp ∧
        Reconstructs full.App obsS1) ∧
    resolvedState ((Store.start sampleConfig []).run scenarioSteps) "app" "id-1" = some obsS1 ∧
    resolvedState ((Store.start sampleConfig []).run scenarioSteps) "app" "id-2" ≠ some obsS1 :=
  ⟨by decide,
   C1_resolve_reconstructs sampleConfig [] scenarioSteps 0
     { env := sampleEnv 3 "id-1", app := obsS1 }
     { SnapshotID := "id-1", AppID := "app", Timestamp := 0, WindowsCount := 1,
       FilesAdded := 0, FilesRemoved := 0 }
     (by decide) (by decide) (by decide),
   by decide, by decide⟩

/-- C1, counterexample: one call on a new engine with the observation `obsHuge`, whose window
title alone is longer than the 10 MiB of the read guard.  Nothing is evicted, the identifier
is fresh and the checkpoint write succeeds: the call returns the id `id-1` and the timeline
holds the snapshot, spilled under the returned reference.  `ResolveSnapshot` on that id
returns an error and no state: `loadFullSnapshotLocked` reads 10 MiB of the file and the
truncated text does not parse. -/
theorem C1_counterexample_read_guard :
    (obsHuge.Windows.map (fun w => w.Title.length)) = [11000000] ∧ readLimit < 11000000 ∧
    RunAll CalmStep (Store.start sampleConfig []) [hugeStep] ∧
    ¬ RunAll GoodStep (Store.start sampleConfig []) [hugeStep] ∧
    ((Store.start sampleConfig []).ingest hugeStep).meta =
      some { SnapshotID := "id-1", AppID := "app", Timestamp := 0, WindowsCount := 1,
             FilesAdded := 0, FilesRemoved := 0 } ∧
    (snapshotsOf ((Store.start sampleConfig []).run [hugeStep]).engine "app").map
      (fun sn => (sn.SnapshotID, sn.Spilled, sn.DiskRef)) =
        [("id-1", true, "app/huge.json.gz")] ∧
    ResolveSnapshot ((Store.start sampleConfig []).run [hugeStep]).engine
        ((Store.start sampleConfig []).run [hugeStep]).disk "app" "id-1" =
      .error "unexpected end of JSON input" ∧
    resolvedState ((Store.start sampleConfig []).run [hugeStep]) "app" "id-1" = none := by
  refine ⟨?_, by decide, by decide, by decide, by decide, by decide, by rfl, by rfl⟩
  show [String.length ⟨List.replicate 11000000 'x'⟩] = [11000000]
  rw [String.length, List.length_replicate]

/-- One call on a new engine, with the observation as the capture path delivers it (an
empty, non-nil plugin map); the checkpoint write succeeds and nothing is evicted.  The
returned id resolves to a state whose plugin map is nil, and the nil map serialises to other
bytes than the empty map. -/
theorem first_snapshot_resolves_empty_map_as_nil :
    RunAll GoodStep (Store.start sampleConfig []) [{ env := sampleEnv 3 "id-1", app := obsCaptured }] ∧
    ((Store.start sampleConfig []).ingest { env := sampleEnv 3 "id-1", app := obsCaptured }).meta =
      some { SnapshotID := "id-1", AppID := "app", Timestamp := 0, WindowsCount := 1,
             FilesAdded := 0, FilesRemoved := 0 } ∧
    obsCaptured.PluginData = some [] ∧
    (resolvedState ((Store.start sampleConfig []).run
        [{ env := sampleEnv 3 "id-1", app := obsCaptured }]) "app" "id-1").map
      (fun full => full.PluginData) = some none ∧
    jsonMarshal none = "null" ∧ jsonMarshal (some []) = "\x7b\x7d" ∧
    jsonMarshal none ≠ jsonMarshal obsCaptured.PluginData ∧
    (resolvedState ((Store.start sampleConfig []).run
        [{ env := sampleEnv 3 "id-1", app := obsCaptured }]) "app" "id-1").map
      (fun full => (diffStates full obsCaptured).PluginChanged) = some true := by
  decide


theorem get?_apps_of_mem {e : Engine} {a id : String}
    (h : id ∈ (snapshotsOf e a).map (fun sn => sn.SnapshotID)) :
    ∃ tl, e.apps.get? a = some tl ∧ tl.snapshots = snapshotsOf e a := by
  unfold snapshotsOf at h ⊢
  cases hg : GoMap.get? e.apps a with
  | none => simp [hg] at h
  | some tl => exact ⟨tl, rfl, rfl⟩

/-- C7 (amended): in a run of `Ingest` calls from a new engine in which every checkpoint
write succeeds with a file within the read guard, no snapshot is evicted (by retention or by
the cap) and the identifiers are fresh, every snapshot id held in a timeline resolves, and the
chain whose deltas `resolveSnapshotLocked` replays for it has at most 30 links. -/
theorem C7_chain_bound (cfg : EngineConfig) (disk : Disk) (steps : List Step)
    (hgood : RunAll GoodStep (Store.start cfg disk) steps) (a id : String)
    (hid : id ∈ (snapshotsOf ((Store.start cfg disk).run steps).engine a).map
      (fun sn => sn.SnapshotID)) :
    (resolveChain (snapshotsOf ((Store.start cfg disk).run steps).engine a) id).length ≤ 30 ∧
    ∃ sel seed,
      ResolveSnapshot ((Store.start cfg disk).run steps).engine
          ((Store.start cfg disk).run steps).disk a id =
        .ok (sel, replayChain seed
          (resolveChain (snapshotsOf ((Store.start cfg disk).run steps).engine a) id)) := by
  have hok := storeOK_run (storeOK_start cfg disk) hgood a
  obtain ⟨tl, htl, hsn⟩ := get?_apps_of_mem hid
  rw [← hsn] at hok hid ⊢
  obtain ⟨i, hi⟩ := findSnapshot_isSome_of_mem hid
  obtain ⟨sel, last, f, hsel, _, _, _, _, _, hres⟩ := resolve_timelineOK _ tl id hok hi
  have hchain : resolveChain tl.snapshots id = collectChain tl.snapshots i := by
    unfold resolveChain
    rw [hi]
  rw [hchain]
  constructor
  · rw [collectChain_length hok.2.1 (getElem?_lt hsel)]
    omega
  · refine ⟨sel, jsonReload f.fs, ?_⟩
    unfold ResolveSnapshot
    simp only [htl]
    exact hres

/-- C7, witness: the scenario of two calls; both ids are held and resolve. -/
theorem C7_chain_bound_witness :
    RunAll GoodStep (Store.start sampleConfig []) scenarioSteps ∧
    "id-2" ∈ (snapshotsOf ((Store.start sampleConfig []).run scenarioSteps).engine "app").map
      (fun sn => sn.SnapshotID) ∧
    (resolveChain (snapshotsOf ((Store.start sampleConfig []).run scenarioSteps).engine "app")
      "id-2").length ≤ 30 ∧
    ∃ sel seed,
      ResolveSnapshot ((Store.start sampleConfig []).run scenarioSteps).engine
          ((Store.start sampleConfig []).run scenarioSteps).disk "app" "id-2" =
        .ok (sel, replayChain seed
          (resolveChain (snapshotsOf ((Store.start sampleConfig []).run scenarioSteps).engine "app")
            "id-2")) :=
  ⟨by decide, by decide,
    C7_chain_bound sampleConfig [] scenarioSteps (by decide) "app" "id-2" (by decide)⟩

set_option maxRecDepth 1000000 in
/-- C7, counterexample: 31 calls on a new engine with the default cap of 500, each with a
moved window, during which every checkpoint write fails (`Ingest` goes on without a
checkpoint).  The timeline then holds 31 snapshots, none of them a checkpoint, and resolving
the last one replays a chain of 31 deltas. -/
theorem C7_counterexample_failed_writes :
    ((snapshotsOf ((Store.start sampleConfig []).run (failingSteps 31)).engine "app").map
      (fun sn => sn.Spilled)) = List.replicate 31 false ∧
    (snapshotsOf ((Store.start sampleConfig []).run (failingSteps 31)).engine "app").getLast?.map
      (fun sn => sn.SnapshotID) = some (idOf 30) ∧
    (resolveChain (snapshotsOf ((Store.start sampleConfig []).run (failingSteps 31)).engine "app")
      (idOf 30)).length = 31 ∧
    (resolvedState ((Store.start sampleConfig []).run (failingSteps 31)) "app" (idOf 30)).map
      (fun full => full.Windows) = some (movingObs 30).Windows := by
  decide


theorem findSnapshot_getElem {snaps : List Snapshot}
    (hn : (snaps.map (fun sn => sn.SnapshotID)).Nodup) {i : Nat} {sn : Snapshot}
    (h : snaps[i]? = some sn) : findSnapshot snaps sn.SnapshotID = some i := by
  induction snaps generalizing i with
  | nil => simp at h
  | cons s rest ih =>
    simp only [List.map_cons, List.nodup_cons] at hn
    cases i with
    | zero =>
      simp only [List.getElem?_cons_zero, Option.some.injEq] at h
      subst h
      simp [findSnapshot]
    | succ j =>
      simp only [List.getElem?_cons_succ] at h
      have hmem : sn.SnapshotID ∈ rest.map (fun sn => sn.SnapshotID) :=
        List.mem_map.2 ⟨sn, List.getElem?_mem h, rfl⟩
      have hne : ¬ s.SnapshotID = sn.SnapshotID := by
        intro e
        rw [← e] at hmem
        exact hn.1 hmem
      unfold findSnapshot
      rw [if_neg hne, ih hn.2 h]
      rfl

/-- With a checkpoint exactly at the multiples of 30, the chain walked from an index ends
at the last multiple of 30 at or before it. -/
theorem collectChain_getLast_index {snaps : List Snapshot}
    (hc : ∀ i sn, snaps[i]? = some sn → (isCheckpoint sn = true ↔ i % 30 = 0))
    {i : Nat} (h : i < snaps.length) :
    (collectChain snaps i).getLast? = snaps[i - i % 30]? := by
  induction i with
  | zero =>
    rw [collectChain_zero, List.getElem?_eq_getElem h]
    simp
  | succ j ih =>
    rw [collectChain_succ, List.getElem?_eq_getElem h]
    have := hc (j + 1) _ (List.getElem?_eq_getElem h)
    by_cases hk : isCheckpoint snaps[j + 1] = true
    · simp only [hk, if_true, List.getLast?_singleton]
      have h0 := this.1 hk
      rw [h0, Nat.sub_zero, List.getElem?_eq_getElem h]
    · simp only [hk, Bool.false_eq_true, if_false]
      have hne : (j + 1) % 30 ≠ 0 := fun e => hk (this.2 e)
      have hidx : j + 1 - (j + 1) % 30 = j - j % 30 := by omega
      rw [hidx, ← ih (Nat.lt_of_succ_lt h), List.getLast?_cons]
      have hlen := collectChain_length hc (Nat.lt_of_succ_lt h)
      cases hcc : collectChain snaps j with
      | nil => simp [hcc] at hlen
      | cons x xs =>
        rw [List.getLast?_eq_getLast _ (List.cons_ne_nil x xs)]
        rfl

/-- 35 successive `Ingest` calls for one application on a new engine, each of which creates
a snapshot, with fresh identifiers, checkpoint writes that go through and no eviction (the
cap is never reached and retention drops nothing).  The timeline then holds 35 snapshots; the
31st is marked spilled, has a non-empty disk reference and no parent id, and its checkpoint
file loads; the chain replayed for the 35th snapshot has exactly 5 links, the oldest being
the 31st snapshot, and the resolution is the replay of those 5 deltas on the loaded state. -/
theorem checkpoint_at_31_of_creates (cfg : EngineConfig) (disk : Disk) (steps : List Step)
    (a : String) (hlen : steps.length = 35) (happ : ∀ st ∈ steps, st.app.AppID = a)
    (hcalm : RunAll CalmStep (Store.start cfg disk) steps)
    (hcreate : RunAll Creates (Store.start cfg disk) steps) :
    (snapshotsOf ((Store.start cfg disk).run steps).engine a).length = 35 ∧
    ∃ s31 s35 seed,
      (snapshotsOf ((Store.start cfg disk).run steps).engine a)[30]? = some s31 ∧
      (snapshotsOf ((Store.start cfg disk).run steps).engine a)[34]? = some s35 ∧
      s31.Spilled = true ∧ s31.DiskRef ≠ "" ∧ s31.BaseSnapshotID = none ∧
      loadFullSnapshotLocked ((Store.start cfg disk).run steps).disk s31.DiskRef = .ok seed ∧
      (resolveChain (snapshotsOf ((Store.start cfg disk).run steps).engine a)
        s35.SnapshotID).length = 5 ∧
      (resolveChain (snapshotsOf ((Store.start cfg disk).run steps).engine a)
        s35.SnapshotID).getLast? = some s31 ∧
      ResolveSnapshot ((Store.start cfg disk).run steps).engine
          ((Store.start cfg disk).run steps).disk a s35.SnapshotID =
        .ok (s35, replayChain seed
          (resolveChain (snapshotsOf ((Store.start cfg disk).run steps).engine a)
            s35.SnapshotID)) := by
  -- the first 34 calls, and the last one
  have hne : steps ≠ [] := by
    intro h
    rw [h] at hlen
    cases hlen
  have hsplit : steps = steps.dropLast ++ [steps.getLast hne] :=
    (List.dropLast_append_getLast hne).symm
  have hinit : steps.dropLast.length = 34 := by
    rw [List.length_dropLast, hlen]
  have hst : (steps.getLast hne).app.AppID = a := happ _ (List.getLast_mem hne)
  rw [hsplit] at hcalm hcreate
  obtain ⟨hcalm₁, hcalm₂, _⟩ := (runAll_append _ _ _).1 hcalm
  obtain ⟨hcreate₁, hcreate₂, _⟩ := (runAll_append _ _ _).1 hcreate
  have hrun : (Store.start cfg disk).run steps =
      ((Store.start cfg disk).run steps.dropLast).step (steps.getLast hne) := by
    conv_lhs => rw [hsplit]
    rw [run_append]
    rfl
  rw [hrun]
  generalize hs : (Store.start cfg disk).run steps.dropLast = s at *
  generalize steps.getLast hne = st at *
  subst hst
  -- the timeline before the last call
  have hshape : TimelineShape (snapshotsOf s.engine st.app.AppID) := by
    rw [← hs]
    exact storeShape_run (storeShape_start cfg disk) hcalm₁ _
  have hT : (snapshotsOf s.engine st.app.AppID).length = 34 := by
    have := length_snapshotsOf_run (a := st.app.AppID)
      (fun st' h' => happ st' (List.mem_of_mem_dropLast h')) hcalm₁ hcreate₁
    rw [hs] at this
    rw [this, hinit]
    rfl
  have hret := retained_snapshots_of_noEviction hcalm₂.1
  have h30 : 30 < (snapshotsOf s.engine st.app.AppID).length := by omega
  have hs31 := List.getElem?_eq_getElem h30
  have hck : isCheckpoint (snapshotsOf s.engine st.app.AppID)[30] = true :=
    (hshape.2 30 _ hs31).2 rfl
  have hchain33 : (collectChain (snapshotsOf s.engine st.app.AppID) 33).getLast? =
      some (snapshotsOf s.engine st.app.AppID)[30] := by
    rw [collectChain_getLast_index hshape.2 (by omega)]
    exact hs31
  -- the last call resolved the 34th snapshot, hence loaded the checkpoint
  have hTne : snapshotsOf s.engine st.app.AppID ≠ [] := by
    intro h
    rw [h] at hT
    cases hT
  have hlastT := List.getLast?_eq_getLast _ hTne
  obtain ⟨r, hr⟩ := resolves_of_creates hcreate₂ (by rw [hret]; exact hlastT)
  have hi33 : findSnapshot (retained s st).snapshots
      ((snapshotsOf s.engine st.app.AppID).getLast hTne).SnapshotID = some 33 := by
    rw [hret]
    have := findSnapshot_getLast hshape.1 hlastT
    rw [hT] at this
    exact this
  obtain ⟨seed, hseed⟩ := load_of_resolve_ok hr hi33 (by rw [hret]; exact hchain33) hck
  -- the timeline and the disk after the last call
  have hl : (retained s st).snapshots.length % 30 ≠ 0 := by
    rw [hret, hT]
    decide
  have hnew := newSnapshot_link s.disk st.env (retained s st) st.app (ingestDelta s st) hl
  have hcond := (creates_iff s st).1 hcreate₂
  have hsnaps : snapshotsOf (s.step st).engine st.app.AppID =
      snapshotsOf s.engine st.app.AppID ++
        [(newSnapshot s.disk st.env (retained s st) st.app (ingestDelta s st)).2] := by
    rw [snapshotsOf_step, if_pos rfl, if_neg hcond, hret, appendCapped_of_lt hcalm₂.1.2]
  have hdisk : (s.step st).disk = s.disk := by
    rw [disk_step, if_neg hcond, hnew]
  have hnck : isCheckpoint
      (newSnapshot s.disk st.env (retained s st) st.app (ingestDelta s st)).2 = false := by
    rw [hnew]
    rfl
  have hfields := newSnapshot_fields s.disk st.env (retained s st) st.app (ingestDelta s st)
  have hi34 : findSnapshot (snapshotsOf (s.step st).engine st.app.AppID)
      (newSnapshot s.disk st.env (retained s st) st.app (ingestDelta s st)).2.SnapshotID =
        some 34 := by
    rw [hsnaps, ← hT]
    apply findSnapshot_append_new
    rw [hfields.1]
    exact hcalm₂.2.1
  have hchain34 : collectChain (snapshotsOf (s.step st).engine st.app.AppID) 34 =
      (newSnapshot s.disk st.env (retained s st) st.app (ingestDelta s st)).2 ::
        collectChain (snapshotsOf s.engine st.app.AppID) 33 := by
    rw [hsnaps, ← hT]
    exact collectChain_new_link _ _ 33 hT hnck
  have hlen33 := collectChain_length hshape.2 (show 33 < _ by omega)
  have hlast34 : (collectChain (snapshotsOf (s.step st).engine st.app.AppID) 34).getLast? =
      some (snapshotsOf s.engine st.app.AppID)[30] := by
    rw [hchain34, List.getLast?_cons, hchain33]
    rfl
  have hres : resolveChain (snapshotsOf (s.step st).engine st.app.AppID)
      (newSnapshot s.disk st.env (retained s st) st.app (ingestDelta s st)).2.SnapshotID =
        collectChain (snapshotsOf (s.step st).engine st.app.AppID) 34 := by
    unfold resolveChain
    rw [hi34]
  have hsel : (snapshotsOf (s.step st).engine st.app.AppID)[34]? =
      some (newSnapshot s.disk st.env (retained s st) st.app (ingestDelta s st)).2 := by
    rw [hsnaps, ← hT]
    simp
  obtain ⟨tl', h1, h2, _⟩ := get?_apps_step s st st.app.AppID
  unfold isCheckpoint at hck
  simp only [Bool.and_eq_true, decide_eq_true_eq, Option.isNone_iff_eq_none] at hck
  refine ⟨by rw [hsnaps, List.length_append, hT]; rfl,
    (snapshotsOf s.engine st.app.AppID)[30],
    (newSnapshot s.disk st.env (retained s st) st.app (ingestDelta s st)).2, seed,
    ?_, hsel, hck.1.1, hck.1.2, hck.2, ?_, ?_, ?_, ?_⟩
  · rw [hsnaps, List.getElem?_append_left h30]
    exact hs31
  · rw [hdisk]
    exact hseed
  · rw [hres, hchain34, List.length_cons, hlen33]
  · rw [hres]
    exact hlast34
  · rw [hres]
    unfold ResolveSnapshot
    simp only [h1]
    rw [← h2] at hi34 hsel hlast34 ⊢
    apply resolve_of_seed _ tl' _ hi34 hsel hlast34
    · simp [isCheckpoint, hck.1.1, hck.1.2, hck.2]
    · rw [hdisk]
      exact hseed


/-! ## Cap and retention -/

theorem newEngine_cap (cfg : EngineConfig) :
    (NewEngine cfg).cfg.MaxSnapshotsPerApp =
      if cfg.MaxSnapshotsPerApp ≤ 0 then 500 else cfg.MaxSnapshotsPerApp := by
  by_cases h1 : cfg.MaxSnapshotsPerApp ≤ 0 <;> by_cases h2 : cfg.Retention ≤ 0 <;>
    simp [NewEngine, h1, h2]

theorem newEngine_retention (cfg : EngineConfig) :
    (NewEngine cfg).cfg.Retention = if cfg.Retention ≤ 0 then 24 * hour else cfg.Retention := by
  by_cases h1 : cfg.MaxSnapshotsPerApp ≤ 0 <;> by_cases h2 : cfg.Retention ≤ 0 <;>
    simp [NewEngine, h1, h2]

theorem newEngine_cap_pos (cfg : EngineConfig) : 0 < (NewEngine cfg).cfg.MaxSnapshotsPerApp := by
  rw [newEngine_cap]
  split_ifs <;> omega

theorem newEngine_retention_pos (cfg : EngineConfig) : 0 < (NewEngine cfg).cfg.Retention := by
  rw [newEngine_retention]
  split_ifs
  · unfold hour
    omega
  · omega

theorem appendCapped_eq_drop {cap : Int} (hcap : 0 ≤ cap) (snaps : List Snapshot) (sn : Snapshot) :
    appendCapped cap snaps sn = (snaps ++ [sn]).drop (snaps.length + 1 - cap.toNat) := by
  unfold appendCapped
  simp only [List.length_append, List.length_singleton]
  split_ifs with h
  · congr 1
    omega
  · have : snaps.length + 1 - cap.toNat = 0 := by omega
    rw [this, List.drop_zero]

theorem appendCapped_length {cap : Int} (hcap : 0 ≤ cap) (snaps : List Snapshot) (sn : Snapshot) :
    ((appendCapped cap snaps sn).length : Int) ≤ cap := by
  rw [appendCapped_eq_drop hcap]
  simp only [List.length_drop, List.length_append, List.length_singleton]
  omega

theorem appendCapped_getLast {cap : Int} (hcap : 0 < cap) (snaps : List Snapshot) (sn : Snapshot) :
    (appendCapped cap snaps sn).getLast? = some sn := by
  rw [appendCapped_eq_drop (le_of_lt hcap)]
  have hle : snaps.length + 1 - cap.toNat ≤ snaps.length := by omega
  rw [List.drop_append_of_le_length hle]
  simp

/-- Once a timeline holds 500 snapshots, the default cap, a call that appends keeps it at
500 and does not write a checkpoint: the test of line 198 looks at the length of the
timeline, and 500 is not a multiple of 30. -/
theorem no_checkpoint_at_default_cap (disk : Disk) (env : IngestEnv) (tl : appTimeline)
    (app : AppState) (delta : StateDelta) (h : tl.snapshots.length = 500) :
    isCheckpoint (newSnapshot disk env tl app delta).2 = false ∧
    (newSnapshot disk env tl app delta).1 = disk ∧
    (appendCapped 500 tl.snapshots (newSnapshot disk env tl app delta).2).length = 500 := by
  have hl : tl.snapshots.length % 30 ≠ 0 := by
    rw [h]
    decide
  rw [newSnapshot_link disk env tl app delta hl]
  refine ⟨rfl, rfl, ?_⟩
  rw [appendCapped_eq_drop (by decide)]
  simp only [List.length_drop, List.length_append, List.length_singleton, h]
  decide

theorem length_retained_le (s : Store) (st : Step) :
    (retained s st).snapshots.length ≤ (snapshotsOf s.engine st.app.AppID).length := by
  rw [retained_snapshots]
  split_ifs
  · exact le_refl _
  · exact List.length_filter_le _ _

/-- Whatever the calls, no timeline of an engine built by `NewEngine` outgrows the cap. -/
theorem length_snapshotsOf_run_le (cfg : EngineConfig) (disk : Disk) (steps : List Step)
    (a : String) :
    ((snapshotsOf ((Store.start cfg disk).run steps).engine a).length : Int) ≤
      (NewEngine cfg).cfg.MaxSnapshotsPerApp := by
  have key : ∀ (steps : List Step) (s : Store),
      s.engine.cfg.MaxSnapshotsPerApp = (NewEngine cfg).cfg.MaxSnapshotsPerApp →
      (∀ a, ((snapshotsOf s.engine a).length : Int) ≤ (NewEngine cfg).cfg.MaxSnapshotsPerApp) →
      ∀ a, ((snapshotsOf (s.run steps).engine a).length : Int) ≤
        (NewEngine cfg).cfg.MaxSnapshotsPerApp := by
    intro steps
    induction steps with
    | nil => exact fun s _ h => h
    | cons st rest ih =>
      intro s hcfg h
      rw [run_cons]
      apply ih
      · rw [step_cfg, hcfg]
      · intro b
        rw [snapshotsOf_step]
        split_ifs with hb hc
        · have := length_retained_le s st
          have := h st.app.AppID
          omega
        · rw [hcfg]
          exact appendCapped_length (le_of_lt (newEngine_cap_pos cfg)) _ _
        · exact h b
  apply key steps (Store.start cfg disk) rfl
  intro b
  have : snapshotsOf (Store.start cfg disk).engine b = [] := rfl
  rw [this]
  exact le_of_lt (newEngine_cap_pos cfg)

/-- C9: an engine built by `NewEngine` has a positive cap (500 in place of a non-positive
one); after every `Ingest` call every timeline holds at most that many snapshots; and a call
that creates a snapshot leaves in the timeline the last `MaxSnapshotsPerApp` elements of the
retained snapshots followed by the new one, in that order, so that the new snapshot is always
the last element. -/
theorem C9_cap (cfg : EngineConfig) (disk : Disk) (steps : List Step) (st : Step) :
    ((NewEngine cfg).cfg.MaxSnapshotsPerApp =
        (if cfg.MaxSnapshotsPerApp ≤ 0 then 500 else cfg.MaxSnapshotsPerApp) ∧
      0 < (NewEngine cfg).cfg.MaxSnapshotsPerApp) ∧
    (∀ a, ((snapshotsOf (((Store.start cfg disk).run steps).step st).engine a).length : Int) ≤
      (NewEngine cfg).cfg.MaxSnapshotsPerApp) ∧
    (∀ m, (((Store.start cfg disk).run steps).ingest st).meta = some m →
      ∃ snap, snap.SnapshotID = m.SnapshotID ∧
        snapshotsOf (((Store.start cfg disk).run steps).step st).engine st.app.AppID =
          ((retained ((Store.start cfg disk).run steps) st).snapshots ++ [snap]).drop
            ((retained ((Store.start cfg disk).run steps) st).snapshots.length + 1 -
              (NewEngine cfg).cfg.MaxSnapshotsPerApp.toNat) ∧
        (snapshotsOf (((Store.start cfg disk).run steps).step st).engine
          st.app.AppID).getLast? = some snap) := by
  refine ⟨⟨newEngine_cap cfg, newEngine_cap_pos cfg⟩, ?_, ?_⟩
  · intro a
    have := length_snapshotsOf_run_le cfg disk (steps ++ [st]) a
    rw [run_append] at this
    exact this
  · intro m hm
    obtain ⟨hid, hc⟩ := meta_id_of_ingest hm
    have hcfg : ((Store.start cfg disk).run steps).engine.cfg.MaxSnapshotsPerApp =
        (NewEngine cfg).cfg.MaxSnapshotsPerApp := by
      rw [run_cfg]
      rfl
    refine ⟨(newSnapshot ((Store.start cfg disk).run steps).disk st.env
      (retained ((Store.start cfg disk).run steps) st) st.app
      (ingestDelta ((Store.start cfg disk).run steps) st)).2, ?_, ?_, ?_⟩
    · rw [hid]
      exact (newSnapshot_fields _ _ _ _ _).1
    · rw [snapshotsOf_step, if_pos rfl, if_neg ((creates_iff _ _).1 hc), hcfg,
        appendCapped_eq_drop (le_of_lt (newEngine_cap_pos cfg))]
    · rw [snapshotsOf_step, if_pos rfl, if_neg ((creates_iff _ _).1 hc), hcfg]
      exact appendCapped_getLast (newEngine_cap_pos cfg) _ _

/-- C9, witness: the second call of the scenario returns metadata; the timeline then holds
both snapshots, the new one last. -/
theorem C9_cap_witness :
    (((Store.start sampleConfig []).run [{ env := sampleEnv 3 "id-1", app := obsS1 }]).ingest
        { env := sampleEnv 4 "id-2", app := obsS2 }).meta =
      some { SnapshotID := "id-2", AppID := "app", Timestamp := 0, WindowsCount := 1,
             FilesAdded := 0, FilesRemoved := 0 } ∧
    ∃ snap, snap.SnapshotID = "id-2" ∧
      snapshotsOf (((Store.start sampleConfig []).run
          [{ env := sampleEnv 3 "id-1", app := obsS1 }]).step
            { env := sampleEnv 4 "id-2", app := obsS2 }).engine "app" =
        ((retained ((Store.start sampleConfig []).run
            [{ env := sampleEnv 3 "id-1", app := obsS1 }])
            { env := sampleEnv 4 "id-2", app := obsS2 }).snapshots ++ [snap]).drop
          ((retained ((Store.start sampleConfig []).run
            [{ env := sampleEnv 3 "id-1", app := obsS1 }])
            { env := sampleEnv 4 "id-2", app := obsS2 }).snapshots.length + 1 -
            (NewEngine sampleConfig).cfg.MaxSnapshotsPerApp.toNat) ∧
      (snapshotsOf (((Store.start sampleConfig []).run
          [{ env := sampleEnv 3 "id-1", app := obsS1 }]).step
            { env := sampleEnv 4 "id-2", app := obsS2 }).engine "app").getLast? = some snap :=
  ⟨by decide,
    (C9_cap sampleConfig [] [{ env := sampleEnv 3 "id-1", app := obsS1 }]
      { env := sampleEnv 4 "id-2", app := obsS2 }).2.2
      { SnapshotID := "id-2", AppID := "app", Timestamp := 0, WindowsCount := 1,
        FilesAdded := 0, FilesRemoved := 0 } (by decide)⟩

theorem mem_appendCapped {cap : Int} {snaps : List Snapshot} {sn x : Snapshot}
    (h : x ∈ appendCapped cap snaps sn) : x ∈ snaps ∨ x = sn := by
  unfold appendCapped at h
  dsimp only at h
  split_ifs at h
  · have := List.mem_of_mem_drop h
    simpa using this
  · simpa using h

/-- C10 (amended): an engine built by `NewEngine` has a positive retention window, and after
an `Ingest` call, with `now` the clock value read during the call, every snapshot in the
timeline of the application other than the one just appended has a timestamp later than
`now` minus the retention window; the appended snapshot carries the capture timestamp of the
observation, whatever it is. -/
theorem C10_retention (cfg : EngineConfig) (disk : Disk) (steps : List Step) (st : Step) :
    0 < (NewEngine cfg).cfg.Retention ∧
    ∀ sn ∈ snapshotsOf (((Store.start cfg disk).run steps).step st).engine st.app.AppID,
      sn.Timestamp > st.env.now - (NewEngine cfg).cfg.Retention ∨
      (Creates ((Store.start cfg disk).run steps) st ∧ sn.SnapshotID = st.env.uuid ∧
        sn.Timestamp = st.app.Timestamp) := by
  refine ⟨newEngine_retention_pos cfg, ?_⟩
  have hcfg : ((Store.start cfg disk).run steps).engine.cfg.Retention =
      (NewEngine cfg).cfg.Retention := by
    rw [run_cfg]
    rfl
  have hret : ∀ sn ∈ (retained ((Store.start cfg disk).run steps) st).snapshots,
      sn.Timestamp > st.env.now - (NewEngine cfg).cfg.Retention := by
    intro sn hsn
    rw [retained_snapshots, hcfg, if_neg (not_le.2 (newEngine_retention_pos cfg))] at hsn
    simpa using (List.mem_filter.1 hsn).2
  intro sn hsn
  rw [snapshotsOf_step, if_pos rfl] at hsn
  split_ifs at hsn with hc
  · exact Or.inl (hret sn hsn)
  · rcases mem_appendCapped hsn with h | h
    · exact Or.inl (hret sn h)
    · right
      have hf := newSnapshot_fields ((Store.start cfg disk).run steps).disk st.env
        (retained ((Store.start cfg disk).run steps) st) st.app
        (ingestDelta ((Store.start cfg disk).run steps) st)
      rw [h]
      exact ⟨(creates_iff _ _).2 hc, hf.1, hf.2.2.1⟩

/-- C10, counterexample: one call on a new engine with a retention of 24 hours; the clock of
the call reads 100 hours and the capture timestamp of the observation is 0.  The snapshot is
appended with timestamp 0, more than 24 hours before the clock. -/
theorem C10_counterexample_stale_observation :
    (NewEngine sampleConfig).cfg.Retention = 24 * hour ∧
    (snapshotsOf ((Store.start sampleConfig []).step
        { env := sampleEnv (100 * hour) "id-1", app := obsStale }).engine "app").map
      (fun sn => sn.Timestamp) = [0] ∧
    (0 : Int) < 100 * hour - (NewEngine sampleConfig).cfg.Retention := by
  decide


/-! ## Idempotence -/

/-- C5, at a failing input: on a new engine, `obsClipA` is ingested (the checkpoint holds its
clipboard fingerprint), then `obsClipB`, which differs in the clipboard fingerprint only, and
then `obsClipB` once more.  No snapshot is evicted and every checkpoint write succeeds, yet
the third call creates a snapshot: the state resolved for the second snapshot still carries
the fingerprint of the checkpoint, since `applyDelta` replays nothing for the clipboard. -/
theorem C5_clipboard_breaks_idempotence :
    RunAll GoodStep (Store.start sampleConfig [])
      [{ env := sampleEnv 3 "id-1", app := obsClipA },
       { env := sampleEnv 4 "id-2", app := obsClipB },
       { env := sampleEnv 5 "id-3", app := obsClipB }] ∧
    (((Store.start sampleConfig []).run
        [{ env := sampleEnv 3 "id-1", app := obsClipA },
         { env := sampleEnv 4 "id-2", app := obsClipB }]).ingest
        { env := sampleEnv 5 "id-3", app := obsClipB }).meta =
      some { SnapshotID := "id-3", AppID := "app", Timestamp := 0, WindowsCount := 1,
             FilesAdded := 0, FilesRemoved := 0 } ∧
    (snapshotsOf ((Store.start sampleConfig []).run
        [{ env := sampleEnv 3 "id-1", app := obsClipA },
         { env := sampleEnv 4 "id-2", app := obsClipB }]).engine "app").map
      (fun sn => sn.SnapshotID) = ["id-1", "id-2"] ∧
    (snapshotsOf ((Store.start sampleConfig []).run
        [{ env := sampleEnv 3 "id-1", app := obsClipA },
         { env := sampleEnv 4 "id-2", app := obsClipB },
         { env := sampleEnv 5 "id-3", app := obsClipB }]).engine "app").map
      (fun sn => (sn.SnapshotID, sn.Delta.ClipboardChanged)) =
        [("id-1", false), ("id-2", true), ("id-3", true)] ∧
    (resolvedState ((Store.start sampleConfig []).run
        [{ env := sampleEnv 3 "id-1", app := obsClipA },
         { env := sampleEnv 4 "id-2", app := obsClipB }]) "app" "id-2").map
      (fun full => full.ClipboardHash) = some "h0" := by
  decide

/-- C6, at a failing input: on a new engine, the observation S1 (one window, no files) as the
capture path delivers it, with an empty plugin map, is ingested twice; the checkpoint write
succeeds and the timestamp is inside the retention window.  The second call returns metadata
and the timeline holds two snapshots: the checkpoint file reads back with a nil plugin map,
which `jsonEq` tells apart from the empty one.  With a nil plugin map in S1 the second call
returns nothing. -/
theorem C6_second_ingest_creates_snapshot :
    ((Store.start sampleConfig []).ingest { env := sampleEnv 3 "id-1", app := obsCaptured }).meta =
      some { SnapshotID := "id-1", AppID := "app", Timestamp := 0, WindowsCount := 1,
             FilesAdded := 0, FilesRemoved := 0 } ∧
    (((Store.start sampleConfig []).step { env := sampleEnv 3 "id-1", app := obsCaptured }).ingest
        { env := sampleEnv 4 "id-2", app := obsCaptured }).meta =
      some { SnapshotID := "id-2", AppID := "app", Timestamp := 0, WindowsCount := 1,
             FilesAdded := 0, FilesRemoved := 0 } ∧
    (snapshotsOf ((Store.start sampleConfig []).run
        [{ env := sampleEnv 3 "id-1", app := obsCaptured },
         { env := sampleEnv 4 "id-2", app := obsCaptured }]).engine "app").map
      (fun sn => (sn.SnapshotID, sn.Spilled, sn.Delta.PluginChanged)) =
        [("id-1", true, false), ("id-2", false, true)] ∧
    (((Store.start sampleConfig []).step { env := sampleEnv 3 "id-1", app := obsS1 }).ingest
        { env := sampleEnv 4 "id-2", app := obsS1 }).meta = none := by
  decide

/-! ## The lists of `diffStates` -/

theorem map_path_pathsMissing_sublist (a b : GoMap String Unit) :
    ((pathsMissing a b).map (fun f => f.Path)).Sublist (GoMap.keys a) := by
  unfold pathsMissing GoMap.keys
  induction a with
  | nil => simp
  | cons e a ih =>
    rw [List.filterMap_cons]
    cases hb : GoMap.get? b e.1 with
    | none =>
      simp only [List.map_cons]
      exact ih.cons₂ _
    | some v =>
      simp only [List.map_cons]
      exact ih.cons _

theorem nodup_keys_pathSet (fs : List FileRef) : (GoMap.keys (pathSet fs)).Nodup :=
  GoMap.nodup_keys_foldl_set _ _ fs (by simp [GoMap.keys])

theorem nodup_pathsMissing (fs : List FileRef) (b : GoMap String Unit) :
    ((pathsMissing (pathSet fs) b).map (fun f => f.Path)).Nodup :=
  (nodup_keys_pathSet fs).sublist (map_path_pathsMissing_sublist _ b)

theorem mem_filesAdded (prev next : AppState) (p : String) :
    p ∈ (diffStates prev next).FilesAdded.map (fun f => f.Path) ↔
      p ∈ normPaths next ∧ p ∉ normPaths prev := by
  show p ∈ (pathsMissing (pathSet next.OpenFiles) (pathSet prev.OpenFiles)).map _ ↔ _
  rw [mem_map_path_pathsMissing, mem_keys_pathSet, mem_keys_pathSet]
  rfl

theorem mem_filesRemoved (prev next : AppState) (p : String) :
    p ∈ (diffStates prev next).FilesRemoved.map (fun f => f.Path) ↔
      p ∈ normPaths prev ∧ p ∉ normPaths next := by
  show p ∈ (pathsMissing (pathSet prev.OpenFiles) (pathSet next.OpenFiles)).map _ ↔ _
  rw [mem_map_path_pathsMissing, mem_keys_pathSet, mem_keys_pathSet]
  rfl

/-- C16: the paths of `FilesAdded` are exactly the lower-cased, trimmed paths of `next` that
are not among those of `prev`, the paths of `FilesRemoved` are exactly the converse set,
neither list repeats a path or an entry, no path is in both lists, and two paths, one of each
state, that are equal once lower-cased and trimmed give no entry in either list. -/
theorem C16_file_lists (prev next : AppState) :
    (∀ p, p ∈ (diffStates prev next).FilesAdded.map (fun f => f.Path) ↔
      p ∈ normPaths next ∧ p ∉ normPaths prev) ∧
    (∀ p, p ∈ (diffStates prev next).FilesRemoved.map (fun f => f.Path) ↔
      p ∈ normPaths prev ∧ p ∉ normPaths next) ∧
    ((diffStates prev next).FilesAdded.map (fun f => f.Path)).Nodup ∧
    ((diffStates prev next).FilesRemoved.map (fun f => f.Path)).Nodup ∧
    (diffStates prev next).FilesAdded.Nodup ∧ (diffStates prev next).FilesRemoved.Nodup ∧
    (∀ p, p ∈ (diffStates prev next).FilesAdded.map (fun f => f.Path) →
      p ∉ (diffStates prev next).FilesRemoved.map (fun f => f.Path)) ∧
    (∀ a ∈ prev.OpenFiles, ∀ b ∈ next.OpenFiles,
      stringsToLower a.Path = stringsToLower b.Path →
      stringsToLower b.Path ∉ (diffStates prev next).FilesAdded.map (fun f => f.Path) ∧
      stringsToLower a.Path ∉ (diffStates prev next).FilesRemoved.map (fun f => f.Path)) := by
  have hA := nodup_pathsMissing next.OpenFiles (pathSet prev.OpenFiles)
  have hR := nodup_pathsMissing prev.OpenFiles (pathSet next.OpenFiles)
  refine ⟨mem_filesAdded prev next, mem_filesRemoved prev next, hA, hR,
    List.Nodup.of_map _ hA, List.Nodup.of_map _ hR, ?_, ?_⟩
  · intro p hp hp'
    exact ((mem_filesAdded prev next p).1 hp).2 ((mem_filesRemoved prev next p).1 hp').1
  · intro a ha b hb hab
    constructor
    · intro h
      apply ((mem_filesAdded prev next _).1 h).2
      rw [← hab]
      exact List.mem_map.2 ⟨a, ha, rfl⟩
    · intro h
      apply ((mem_filesRemoved prev next _).1 h).2
      rw [hab]
      exact List.mem_map.2 ⟨b, hb, rfl⟩

/-- C16, witness: the one file of `obsTitled` and of `obsRetitled` is spelled with another
letter case and other surrounding blanks; no entry is listed. -/
theorem C16_file_lists_witness :
    obsTitled.OpenFiles.map (fun f => f.Path) = ["C:\\Docs\\Report.TXT "] ∧
    obsRetitled.OpenFiles.map (fun f => f.Path) = [" c:\\docs\\report.txt"] ∧
    stringsToLower "C:\\Docs\\Report.TXT " = stringsToLower " c:\\docs\\report.txt" ∧
    "c:\\docs\\report.txt" ∉
      (diffStates obsTitled obsRetitled).FilesAdded.map (fun f => f.Path) ∧
    "c:\\docs\\report.txt" ∉
      (diffStates obsTitled obsRetitled).FilesRemoved.map (fun f => f.Path) ∧
    (diffStates obsS1 obsRich).FilesAdded = [{ Path := "c:\\docs\\report.txt" }] ∧
    (diffStates obsRich obsS1).FilesRemoved = [{ Path := "c:\\docs\\report.txt" }] :=
  have h := (C16_file_lists obsTitled obsRetitled).2.2.2.2.2.2.2
    { Path := "C:\\Docs\\Report.TXT " } (by decide) { Path := " c:\\docs\\report.txt" }
    (by decide) (by decide)
  ⟨by decide, by decide, by decide, h.1, h.2, by decide, by decide⟩

/-- C17: `diffStates` flags the clipboard exactly when the two fingerprints are both
non-empty and different; with an empty fingerprint on either side the flag is false. -/
theorem C17_clipboard_flag (prev next : AppState) :
    ((diffStates prev next).ClipboardChanged = true ↔
      prev.ClipboardHash ≠ "" ∧ next.ClipboardHash ≠ "" ∧
        prev.ClipboardHash ≠ next.ClipboardHash) ∧
    (prev.ClipboardHash = "" ∨ next.ClipboardHash = "" →
      (diffStates prev next).ClipboardChanged = false) := by
  have h : (diffStates prev next).ClipboardChanged =
      (decide (prev.ClipboardHash ≠ "") && decide (next.ClipboardHash ≠ "") &&
        decide (prev.ClipboardHash ≠ next.ClipboardHash)) := rfl
  rw [h]
  constructor
  · simp only [Bool.and_eq_true, decide_eq_true_eq]
    tauto
  · rintro (h1 | h1) <;> simp [h1]
/-! ## The window entries of `diffStates` -/

/-- C17, witness: an empty fingerprint on one side leaves the flag false; two different
non-empty fingerprints set it. -/
theorem C17_clipboard_flag_witness :
    obsS1.ClipboardHash = "" ∧ (diffStates obsS1 obsClipB).ClipboardChanged = false ∧
    (diffStates obsClipA obsClipB).ClipboardChanged = true :=
  ⟨rfl, (C17_clipboard_flag obsS1 obsClipB).2 (Or.inl rfl),
    (C17_clipboard_flag obsClipA obsClipB).1.2 ⟨by decide, by decide, by decide⟩⟩

theorem map_filterMap_sublist_keys {K V D : Type} (f : K × V → Option D) (key : D → K)
    (hf : ∀ e d, f e = some d → key d = e.1) (m : GoMap K V) :
    ((m.filterMap f).map key).Sublist (GoMap.keys m) := by
  unfold GoMap.keys
  induction m with
  | nil => simp
  | cons e m ih =>
    rw [List.filterMap_cons]
    cases he : f e with
    | none =>
      simp only [List.map_cons]
      exact ih.cons _
    | some d =>
      simp only [List.map_cons, hf e d he]
      exact ih.cons₂ _

theorem nodup_hwnd_windowDiffs {P N : GoMap Nat WindowState} (hP : (GoMap.keys P).Nodup)
    (hN : (GoMap.keys N).Nodup) : ((windowDiffs P N).map (fun d => d.HWND)).Nodup := by
  unfold windowDiffs
  rw [List.map_append]
  have h1 := map_filterMap_sublist_keys (fun e : Nat × WindowState =>
    match GoMap.get? P e.1 with
    | none => some ({ HWND := e.1, Before := none, After := some e.2 } : WindowDiff)
    | some pw =>
      if !windowEq pw e.2 then some { HWND := e.1, Before := some pw, After := some e.2 }
      else none) (fun d => d.HWND) (by
      intro e d he
      cases hp : GoMap.get? P e.1 with
      | none =>
        simp only [hp] at he
        cases he
        rfl
      | some pw =>
        simp only [hp] at he
        split_ifs at he
        cases he
        rfl) N
  have h2 := map_filterMap_sublist_keys (fun e : Nat × WindowState =>
    match GoMap.get? N e.1 with
    | none => some ({ HWND := e.1, Before := some e.2, After := none } : WindowDiff)
    | some _ => none) (fun d => d.HWND) (by
      intro e d he
      cases hn : GoMap.get? N e.1 with
      | none =>
        simp only [hn] at he
        cases he
        rfl
      | some nw => simp [hn] at he) P
  refine List.Nodup.append (hN.sublist h1) (hP.sublist h2) ?_
  intro h hh1 hh2
  have hk : h ∈ GoMap.keys N := h1.subset hh1
  obtain ⟨d, hd, rfl⟩ := List.mem_map.1 hh2
  obtain ⟨⟨k, pw⟩, _, hf⟩ := List.mem_filterMap.1 hd
  cases hn : GoMap.get? N k with
  | none =>
    simp only [hn] at hf
    cases hf
    exact (GoMap.not_mem_keys_iff _ _).2 hn hk
  | some nw => simp [hn] at hf

/-- Membership in `windowDiffs`, entry by entry. -/
theorem mem_windowDiffs_iff {P N : GoMap Nat WindowState} (hP : (GoMap.keys P).Nodup)
    (hN : (GoMap.keys N).Nodup) (d : WindowDiff) :
    d ∈ windowDiffs P N ↔
      d.Before = GoMap.get? P d.HWND ∧ d.After = GoMap.get? N d.HWND ∧
      match GoMap.get? P d.HWND, GoMap.get? N d.HWND with
      | none, none => False
      | some pw, some nw => windowEq pw nw = false
      | _, _ => True := by
  constructor
  · intro hd
    obtain ⟨h1, h2, _, _⟩ := mem_windowDiffs hP hN hd
    exact ⟨h2, h1, (exists_windowDiff_iff hP hN d.HWND).1 ⟨d, hd, rfl⟩⟩
  · rintro ⟨hb, ha, hm⟩
    obtain ⟨d', hd', hh⟩ := (exists_windowDiff_iff hP hN d.HWND).2 hm
    obtain ⟨h1, h2, _, _⟩ := mem_windowDiffs hP hN hd'
    have : d' = d := by
      cases d
      cases d'
      simp only at hh hb ha h1 h2
      subst hh
      rw [h1, h2, hb, ha]
    rw [← this]
    exact hd'

theorem windowOf_eq_none_iff (A : AppState) (h : Nat) :
    windowOf A h = none ↔ h ∉ handles A := by
  rw [mem_handles_iff]
  cases windowOf A h <;> simp

/-- C15: for states with pairwise distinct handles, the handles of the entries of
`WindowDiffs` are pairwise distinct, and an entry is in the list exactly when it is of one of
three kinds: its handle is only in `next`, `Before` is absent and `After` is the window of
`next`; its handle is only in `prev`, `After` is absent and `Before` is the window of `prev`;
or its handle is in both, `Before` and `After` are the two windows, and they differ in a
compared field.  `WindowsChanged` is set exactly when the list is not empty. -/
theorem C15_window_diffs (prev next : AppState)
    (hp : (handles prev).Nodup) (hn : (handles next).Nodup) :
    ((diffStates prev next).WindowDiffs.map (fun d => d.HWND)).Nodup ∧
    (∀ d, d ∈ (diffStates prev next).WindowDiffs ↔
      (d.HWND ∉ handles prev ∧ d.Before = none ∧
        ∃ w ∈ next.Windows, w.HWND = d.HWND ∧ d.After = some w) ∨
      (d.HWND ∉ handles next ∧ d.After = none ∧
        ∃ w ∈ prev.Windows, w.HWND = d.HWND ∧ d.Before = some w) ∨
      (∃ p ∈ prev.Windows, ∃ n ∈ next.Windows, p.HWND = d.HWND ∧ n.HWND = d.HWND ∧
        comparedFields p ≠ comparedFields n ∧ d.Before = some p ∧ d.After = some n)) ∧
    ((diffStates prev next).WindowsChanged = true ↔
      (diffStates prev next).WindowDiffs ≠ []) := by
  have hP := nodup_keys_windowMap prev.Windows
  have hN := nodup_keys_windowMap next.Windows
  have hdiffs : (diffStates prev next).WindowDiffs =
      windowDiffs (windowMap prev.Windows) (windowMap next.Windows) := rfl
  have hflag : (diffStates prev next).WindowsChanged =
      decide ((windowDiffs (windowMap prev.Windows) (windowMap next.Windows)).length > 0) := rfl
  have hsP : ∀ h w, windowOf prev h = some w ↔ w ∈ prev.Windows ∧ w.HWND = h :=
    windowMap_of_nodup hp
  have hsN : ∀ h w, windowOf next h = some w ↔ w ∈ next.Windows ∧ w.HWND = h :=
    windowMap_of_nodup hn
  refine ⟨?_, ?_, ?_⟩
  · rw [hdiffs]
    exact nodup_hwnd_windowDiffs hP hN
  · intro d
    rw [hdiffs, mem_windowDiffs_iff hP hN]
    show (d.Before = windowOf prev d.HWND ∧ d.After = windowOf next d.HWND ∧
      match windowOf prev d.HWND, windowOf next d.HWND with
      | none, none => False
      | some pw, some nw => windowEq pw nw = false
      | _, _ => True) ↔ _
    constructor
    · rintro ⟨hb, ha, hm⟩
      cases hp' : windowOf prev d.HWND with
      | none =>
        cases hn' : windowOf next d.HWND with
        | none => simp [hp', hn'] at hm
        | some nw =>
          left
          obtain ⟨h1, h2⟩ := (hsN _ _).1 hn'
          exact ⟨(windowOf_eq_none_iff _ _).1 hp', hb.trans hp', nw, h1, h2, ha.trans hn'⟩
      | some pw =>
        obtain ⟨h1, h2⟩ := (hsP _ _).1 hp'
        cases hn' : windowOf next d.HWND with
        | none =>
          right
          left
          exact ⟨(windowOf_eq_none_iff _ _).1 hn', ha.trans hn', pw, h1, h2, hb.trans hp'⟩
        | some nw =>
          right
          right
          obtain ⟨h3, h4⟩ := (hsN _ _).1 hn'
          simp only [hp', hn'] at hm
          refine ⟨pw, h1, nw, h3, h2, h4, ?_, hb.trans hp', ha.trans hn'⟩
          intro hc
          rw [(windowEq_iff pw nw).2 hc] at hm
          exact absurd hm (by simp)
    · rintro (⟨h1, hb, w, hw, hh, ha⟩ | ⟨h1, ha, w, hw, hh, hb⟩ |
        ⟨p, hp', n, hn', hhp, hhn, hc, hb, ha⟩)
      · have e1 := (windowOf_eq_none_iff _ _).2 h1
        have e2 := (hsN _ _).2 ⟨hw, hh⟩
        rw [e1, e2]
        exact ⟨hb, ha, trivial⟩
      · have e1 := (windowOf_eq_none_iff _ _).2 h1
        have e2 := (hsP _ _).2 ⟨hw, hh⟩
        rw [e1, e2]
        exact ⟨hb, ha, trivial⟩
      · have e1 := (hsP _ _).2 ⟨hp', hhp⟩
        have e2 := (hsN _ _).2 ⟨hn', hhn⟩
        rw [e1, e2]
        refine ⟨hb, ha, ?_⟩
        cases hw : windowEq p n with
        | false => exact hw
        | true => exact absurd ((windowEq_iff p n).1 hw) hc
  · rw [hflag, hdiffs]
    simp [List.length_pos]

/-- C15, witness: the window of `obsS1` is moved in `obsS2`; the delta holds the single entry
for its handle, with both descriptors, whose rectangles differ. -/
theorem C15_window_diffs_witness :
    (handles obsS1).Nodup ∧ (handles obsS2).Nodup ∧
    (diffStates obsS1 obsS2).WindowDiffs =
      [{ HWND := 1, Before := some (sampleWindow 1 0 0 "Untitled"),
         After := some (sampleWindow 1 100 0 "Untitled") }] ∧
    (sampleWindow 1 0 0 "Untitled").Rect ≠ (sampleWindow 1 100 0 "Untitled").Rect ∧
    (diffStates obsS1 obsS2).WindowsChanged = true ∧
    ((diffStates obsS1 obsS2).WindowDiffs.map (fun d => d.HWND)).Nodup :=
  ⟨by decide, by decide, by decide, by decide, by decide,
    (C15_window_diffs obsS1 obsS2 (by decide) (by decide)).1⟩
/-! ## Failure of a resolution -/

theorem collectChain_ne_nil {snaps : List Snapshot} {i : Nat} (h : i < snaps.length) :
    collectChain snaps i ≠ [] := by
  cases i with
  | zero =>
    rw [collectChain_zero, List.getElem?_eq_getElem h]
    simp
  | succ j =>
    rw [collectChain_succ, List.getElem?_eq_getElem h]
    simp only
    split_ifs <;> simp

theorem findSnapshot_none_iff (snaps : List Snapshot) (id : String) :
    findSnapshot snaps id = none ↔ id ∉ snaps.map (fun sn => sn.SnapshotID) := by
  constructor
  · intro h hm
    obtain ⟨i, hi⟩ := findSnapshot_isSome_of_mem hm
    rw [h] at hi
    cases hi
  · exact findSnapshot_none_of_not_mem

/-- The method `resolveSnapshotLocked`, case by case. -/
theorem resolveSnapshotLocked_cases (disk : Disk) (tl : appTimeline) (id : String) :
    (findSnapshot tl.snapshots id = none ∧
      resolveSnapshotLocked disk tl id = .error "snapshot not found") ∨
    ∃ i sel last, findSnapshot tl.snapshots id = some i ∧ tl.snapshots[i]? = some sel ∧
      sel.SnapshotID = id ∧ (collectChain tl.snapshots i).getLast? = some last ∧
      resolveSnapshotLocked disk tl id =
        match chainSeed disk tl last with
        | .error err => .error err
        | .ok base => .ok (sel, replayChain base (collectChain tl.snapshots i)) := by
  cases hi : findSnapshot tl.snapshots id with
  | none =>
    left
    refine ⟨rfl, ?_⟩
    unfold resolveSnapshotLocked
    rw [hi]
  | some i =>
    right
    obtain ⟨sel, hsel, hid⟩ := findSnapshot_some hi
    have hlt : i < tl.snapshots.length := by
      rcases Nat.lt_or_ge i tl.snapshots.length with h | h
      · exact h
      · rw [List.getElem?_eq_none h] at hsel
        cases hsel
    obtain ⟨last, hlast⟩ : ∃ last, (collectChain tl.snapshots i).getLast? = some last := by
      cases hc : (collectChain tl.snapshots i).getLast? with
      | none => exact absurd (List.getLast?_eq_none_iff.1 hc) (collectChain_ne_nil hlt)
      | some l => exact ⟨l, rfl⟩
    refine ⟨i, sel, last, rfl, hsel, hid, hlast, ?_⟩
    unfold resolveSnapshotLocked
    simp only [hi, hlast, hsel]

/-- C11: `ResolveSnapshot` returns an error exactly when the application has no timeline, or
the identifier is not in its timeline, or the oldest link of the chain is a checkpoint whose
file does not load.  In every other case it returns a snapshot of the timeline whose
identifier is the one asked for, together with the full state obtained by replaying the
deltas of the chain on its seed. -/
theorem C11_resolve_error_iff (e : Engine) (disk : Disk) (appID snapshotID : String) :
    ((∃ err, ResolveSnapshot e disk appID snapshotID = .error err) ↔
      ResolveFails e disk appID snapshotID) ∧
    (¬ ResolveFails e disk appID snapshotID →
      ∃ tl sel last seed, e.apps.get? appID = some tl ∧ sel ∈ tl.snapshots ∧
        sel.SnapshotID = snapshotID ∧
        (resolveChain tl.snapshots snapshotID).getLast? = some last ∧
        chainSeed disk tl last = .ok seed ∧
        ResolveSnapshot e disk appID snapshotID =
          .ok (sel, replayChain seed (resolveChain tl.snapshots snapshotID))) := by
  unfold ResolveFails ResolveSnapshot
  cases ha : e.apps.get? appID with
  | none =>
    simp
  | some tl =>
    have hs : snapshotsOf e appID = tl.snapshots := snapshotsOf_of_get? ha
    rw [hs]
    simp only [false_or, reduceCtorEq]
    rcases resolveSnapshotLocked_cases disk tl snapshotID with ⟨hf, hr⟩ |
      ⟨i, sel, last, hf, hsel, hid, hlast, hr⟩
    · have hnm := (findSnapshot_none_iff _ _).1 hf
      rw [hr]
      constructor
      · exact ⟨fun _ => Or.inl hnm, fun _ => ⟨_, rfl⟩⟩
      · intro h
        exact absurd (Or.inl hnm) h
    · have hmem : sel ∈ tl.snapshots := List.getElem?_mem hsel
      have hm : snapshotID ∈ tl.snapshots.map (fun sn => sn.SnapshotID) :=
        List.mem_map.2 ⟨sel, hmem, hid⟩
      have hchain : resolveChain tl.snapshots snapshotID = collectChain tl.snapshots i := by
        unfold resolveChain
        rw [hf]
      rw [hchain, hr, hlast]
      cases hseed : chainSeed disk tl last with
      | error err =>
        have hck : isCheckpoint last = true := by
          unfold chainSeed at hseed
          split_ifs at hseed with hck
          exact hck
        rw [chainSeed_checkpoint disk tl hck] at hseed
        constructor
        · exact ⟨fun _ => Or.inr ⟨last, err, rfl, hck, hseed⟩, fun _ => ⟨err, rfl⟩⟩
        · intro h
          exact absurd (Or.inr ⟨last, err, rfl, hck, hseed⟩) h
      | ok seed =>
        constructor
        · constructor
          · rintro ⟨err, herr⟩
            cases herr
          · rintro (h | ⟨last', err, h1, h2, h3⟩)
            · exact absurd hm h
            · cases h1
              rw [chainSeed_checkpoint disk tl h2, h3] at hseed
              cases hseed
        · intro _
          exact ⟨tl, sel, last, seed, rfl, hmem, hid, hchain ▸ hlast, hseed, by rw [hchain]⟩
/-! ## A checkpoint write that fails -/

/-- C11, witness: after the scenario, the identifier of the second snapshot resolves: none of
the three failure cases holds, and the result is the snapshot with that identifier and the
replay of its chain. -/
theorem C11_resolve_error_iff_witness :
    ¬ ResolveFails ((Store.start sampleConfig []).run scenarioSteps).engine
      ((Store.start sampleConfig []).run scenarioSteps).disk "app" "id-2" ∧
    ResolveFails ((Store.start sampleConfig []).run scenarioSteps).engine
      ((Store.start sampleConfig []).run scenarioSteps).disk "app" "id-9" ∧
    ∃ tl sel last seed,
      ((Store.start sampleConfig []).run scenarioSteps).engine.apps.get? "app" = some tl ∧
      sel ∈ tl.snapshots ∧ sel.SnapshotID = "id-2" ∧
      (resolveChain tl.snapshots "id-2").getLast? = some last ∧
      chainSeed ((Store.start sampleConfig []).run scenarioSteps).disk tl last = .ok seed ∧
      ResolveSnapshot ((Store.start sampleConfig []).run scenarioSteps).engine
          ((Store.start sampleConfig []).run scenarioSteps).disk "app" "id-2" =
        .ok (sel, replayChain seed (resolveChain tl.snapshots "id-2")) :=
  have hok : ¬ ∃ err, ResolveSnapshot ((Store.start sampleConfig []).run scenarioSteps).engine
      ((Store.start sampleConfig []).run scenarioSteps).disk "app" "id-2" = .error err := by
    rintro ⟨err, he⟩
    have h : (match ResolveSnapshot ((Store.start sampleConfig []).run scenarioSteps).engine
        ((Store.start sampleConfig []).run scenarioSteps).disk "app" "id-2" with
      | .ok _ => true
      | .error _ => false) = true := by decide
    rw [he] at h
    cases h
  have hnf : ¬ ResolveFails ((Store.start sampleConfig []).run scenarioSteps).engine
      ((Store.start sampleConfig []).run scenarioSteps).disk "app" "id-2" :=
    fun hf => hok ((C11_resolve_error_iff _ _ "app" "id-2").1.2 hf)
  ⟨hnf, Or.inr (Or.inl (by decide)), (C11_resolve_error_iff _ _ "app" "id-2").2 hnf⟩

/-- C13: a call that gets as far as building a snapshot (the timeline, after retention, is
empty or the observation shows a change) and whose checkpoint write fails, on a store whose
cap is positive as `NewEngine` leaves it; the write is attempted when the length of the
timeline is a multiple of 30, and the statement holds at every length.  `Ingest` returns
metadata for the new identifier and no error, leaves the disk as it was, and the last
snapshot of the timeline is the new one: not spilled, with an empty disk reference, and with
the identifier of the snapshot that was last before as parent (none when the timeline was
empty). -/
theorem C13_write_failure_tolerated (s : Store) (st : Step)
    (hcap : 0 < s.engine.cfg.MaxSnapshotsPerApp)
    (hreach : (retained s st).snapshots = [] ∨ noChange (ingestDelta s st) = false)
    (hfail : st.env.spill = none) :
    ∃ m snap, (s.ingest st).meta = some m ∧ m.SnapshotID = st.env.uuid ∧
      (s.ingest st).err = none ∧ (s.step st).disk = s.disk ∧
      (snapshotsOf (s.step st).engine st.app.AppID).getLast? = some snap ∧
      snap.SnapshotID = st.env.uuid ∧ snap.Spilled = false ∧ snap.DiskRef = "" ∧
      snap.BaseSnapshotID =
        (retained s st).snapshots.getLast?.map (fun p => p.SnapshotID) ∧
      snap.Delta = ingestDelta s st := by
  have hc : ¬ (decide ((retained s st).snapshots.length > 0) &&
      noChange (ingestDelta s st)) = true := by
    rcases hreach with h | h
    · simp [h]
    · simp [h]
  have hnew := newSnapshot_failed s.disk st.env (retained s st) st.app (ingestDelta s st) hfail
  refine ⟨⟨st.env.uuid, st.app.AppID, st.app.Timestamp / 1000000, st.app.Windows.length,
      (ingestDelta s st).FilesAdded.length, (ingestDelta s st).FilesRemoved.length⟩,
    (newSnapshot s.disk st.env (retained s st) st.app (ingestDelta s st)).2, ?_, ?_, ?_,
    ?_, ?_, ?_⟩
  · rw [ingest_created s st hc]
  · rfl
  · rw [ingest_created s st hc]
  · rw [disk_step, if_neg hc, hnew]
  · rw [snapshotsOf_step, if_pos rfl, if_neg hc]
    exact appendCapped_getLast hcap _ _
  · rw [hnew]
    exact ⟨rfl, rfl, rfl, rfl, rfl⟩

set_option maxRecDepth 1000000 in
/-- C13, witness: the 31st call of a run with the default configuration, which finds 30
snapshots and is due to checkpoint, and whose write fails; its snapshot has the 30th as
parent. -/
theorem C13_write_failure_tolerated_witness :
    noChange (ingestDelta ((Store.start sampleConfig []).run (movingSteps 30))
      { env := failingEnv 31 (idOf 30), app := movingObs 30 }) = false ∧
    (retained ((Store.start sampleConfig []).run (movingSteps 30))
      { env := failingEnv 31 (idOf 30), app := movingObs 30 }).snapshots.length = 30 ∧
    ∃ m snap, (((Store.start sampleConfig []).run (movingSteps 30)).ingest
        { env := failingEnv 31 (idOf 30), app := movingObs 30 }).meta = some m ∧
      m.SnapshotID = idOf 30 ∧
      (((Store.start sampleConfig []).run (movingSteps 30)).ingest
        { env := failingEnv 31 (idOf 30), app := movingObs 30 }).err = none ∧
      (((Store.start sampleConfig []).run (movingSteps 30)).step
        { env := failingEnv 31 (idOf 30), app := movingObs 30 }).disk =
        ((Store.start sampleConfig []).run (movingSteps 30)).disk ∧
      (snapshotsOf (((Store.start sampleConfig []).run (movingSteps 30)).step
        { env := failingEnv 31 (idOf 30), app := movingObs 30 }).engine "app").getLast? =
        some snap ∧
      snap.SnapshotID = idOf 30 ∧ snap.Spilled = false ∧ snap.DiskRef = "" ∧
      snap.BaseSnapshotID = some (idOf 29) ∧
      snap.Delta = ingestDelta ((Store.start sampleConfig []).run (movingSteps 30))
        { env := failingEnv 31 (idOf 30), app := movingObs 30 } :=
  have h1 : noChange (ingestDelta ((Store.start sampleConfig []).run (movingSteps 30))
      { env := failingEnv 31 (idOf 30), app := movingObs 30 }) = false := by decide
  have h2 : (retained ((Store.start sampleConfig []).run (movingSteps 30))
      { env := failingEnv 31 (idOf 30), app := movingObs 30 }).snapshots.length = 30 := by decide
  have h3 : (retained ((Store.start sampleConfig []).run (movingSteps 30))
      { env := failingEnv 31 (idOf 30), app := movingObs 30 }).snapshots.getLast?.map
        (fun p => p.SnapshotID) = some (idOf 29) := by decide
  ⟨h1, h2, by
    obtain ⟨m, snap, a1, a2, a3, a4, a5, a6, a7, a8, a9, a10⟩ :=
      C13_write_failure_tolerated ((Store.start sampleConfig []).run (movingSteps 30))
        { env := failingEnv 31 (idOf 30), app := movingObs 30 } (by decide) (Or.inr h1) rfl
    exact ⟨m, snap, a1, a2, a3, a4, a5, a6, a7, a8, a9.trans h3, a10⟩⟩
/-! ## The first snapshot of a timeline -/

theorem applyDelta_of_unchanged (app : AppState) {d : StateDelta} (h : Unchanged d) :
    applyDelta app d = app := by
  obtain ⟨h1, h2, h3, h4, h5⟩ := h
  unfold applyDelta
  simp [h1, h2, h3, h4, h5]

theorem retained_start (cfg : EngineConfig) (disk : Disk) (st : Step) :
    (retained (Store.start cfg disk) st).snapshots = [] := by
  rw [retained_snapshots]
  have : snapshotsOf (Store.start cfg disk).engine st.app.AppID = [] := rfl
  rw [this]
  split_ifs <;> rfl

theorem diffBase_of_nil (disk : Disk) (tl : appTimeline) (app : AppState)
    (h : tl.snapshots = []) : diffBase disk tl app = { App := app } := by
  unfold diffBase
  rw [h]
  rfl

theorem ingestDelta_start (cfg : EngineConfig) (disk : Disk) (st : Step) :
    ingestDelta (Store.start cfg disk) st = diffStates st.app st.app := by
  unfold ingestDelta
  rw [diffBase_of_nil _ _ _ (retained_start cfg disk st)]

/-- The first call on a new engine: the timeline afterwards holds the one snapshot built
from the delta of the observation with itself. -/
theorem snapshotsOf_first_step (cfg : EngineConfig) (disk : Disk) (st : Step) :
    snapshotsOf ((Store.start cfg disk).step st).engine st.app.AppID =
      [(newSnapshot disk st.env (retained (Store.start cfg disk) st) st.app
        (diffStates st.app st.app)).2] ∧
    ((Store.start cfg disk).step st).disk =
      (newSnapshot disk st.env (retained (Store.start cfg disk) st) st.app
        (diffStates st.app st.app)).1 ∧
    ((Store.start cfg disk).ingest st).meta =
      some ⟨st.env.uuid, st.app.AppID, st.app.Timestamp / 1000000, st.app.Windows.length,
        (diffStates st.app st.app).FilesAdded.length,
        (diffStates st.app st.app).FilesRemoved.length⟩ := by
  have hr := retained_start cfg disk st
  have hc : ¬ (decide ((retained (Store.start cfg disk) st).snapshots.length > 0) &&
      noChange (ingestDelta (Store.start cfg disk) st)) = true := by
    simp [hr]
  have hcap : ((retained (Store.start cfg disk) st).snapshots.length : Int) <
      (Store.start cfg disk).engine.cfg.MaxSnapshotsPerApp := by
    rw [hr]
    exact newEngine_cap_pos cfg
  refine ⟨?_, ?_, ?_⟩
  · rw [snapshotsOf_step, if_pos rfl, if_neg hc, appendCapped_of_lt hcap, ingestDelta_start, hr]
    rfl
  · rw [disk_step, if_neg hc, ingestDelta_start]
    rfl
  · rw [ingest_created _ _ hc, ingestDelta_start]

/-- A first snapshot whose checkpoint write went through resolves to the observation as it
reads back from the checkpoint file. -/
theorem resolve_first_checkpoint (cfg : EngineConfig) (disk : Disk) (st : Step)
    (o : SpillOutcome) (ho : st.env.spill = some o) (hsz : o.size ≤ readLimit) :
    isCheckpoint (newSnapshot disk st.env (retained (Store.start cfg disk) st) st.app
      (diffStates st.app st.app)).2 = true ∧
    ResolveSnapshot ((Store.start cfg disk).step st).engine ((Store.start cfg disk).step st).disk
        st.app.AppID st.env.uuid =
      .ok ((newSnapshot disk st.env (retained (Store.start cfg disk) st) st.app
        (diffStates st.app st.app)).2, jsonReload { App := st.app }) := by
  have hr := retained_start cfg disk st
  have hl : (retained (Store.start cfg disk) st).snapshots.length % 30 = 0 := by
    rw [hr]
    rfl
  obtain ⟨h1, h2, _⟩ := snapshotsOf_first_step cfg disk st
  have hck := (isCheckpoint_newSnapshot disk st.env (retained (Store.start cfg disk) st) st.app
    (diffStates st.app st.app) o ho).2 hl
  refine ⟨hck, ?_⟩
  obtain ⟨tl', ht1, ht2, _⟩ := get?_apps_step (Store.start cfg disk) st st.app.AppID
  rw [h1] at ht2
  have hnew := newSnapshot_checkpoint disk st.env (retained (Store.start cfg disk) st) st.app
    (diffStates st.app st.app) o ho hl
  unfold ResolveSnapshot
  rw [ht1]
  simp only
  rw [h2]
  have hres := @resolve_of_chain
    (newSnapshot disk st.env (retained (Store.start cfg disk) st) st.app
      (diffStates st.app st.app)).1 tl' st.env.uuid 0
    (newSnapshot disk st.env (retained (Store.start cfg disk) st) st.app
      (diffStates st.app st.app)).2
    (newSnapshot disk st.env (retained (Store.start cfg disk) st) st.app
      (diffStates st.app st.app)).2
    { fs := { App := st.app }, size := o.size }
    (by rw [ht2, hnew]; simp [findSnapshot])
    (by rw [ht2]; rfl)
    (by rw [ht2]; rfl)
    hck
    (by rw [hnew]; simp [GoMap.get?_set])
    hsz
  rw [hres, ht2]
  have hd : (newSnapshot disk st.env (retained (Store.start cfg disk) st) st.app
      (diffStates st.app st.app)).2.Delta = diffStates st.app st.app :=
    (newSnapshot_fields _ _ _ _ _).2.1
  have hu : Unchanged (diffStates st.app st.app) :=
    (unchanged_of_agree st.app st.app (fun _ => rfl) (fun _ => Iff.rfl)
      (Or.inr (Or.inr rfl)) rfl).1
  have hc0 : collectChain [(newSnapshot disk st.env (retained (Store.start cfg disk) st) st.app
      (diffStates st.app st.app)).2] 0 =
      [(newSnapshot disk st.env (retained (Store.start cfg disk) st) st.app
      (diffStates st.app st.app)).2] := rfl
  rw [hc0, replayChain_cons, replayChain_nil, hd, applyDelta_of_unchanged _ hu]

/-- A first snapshot whose checkpoint write failed resolves to the empty seed: no window, no
open file, no plugin data, whatever the observation held. -/
theorem resolve_first_failed (cfg : EngineConfig) (disk : Disk) (st : Step)
    (ho : st.env.spill = none) :
    ∃ a, resolvedState ((Store.start cfg disk).step st) st.app.AppID st.env.uuid = some a ∧
      a.Windows = [] ∧ a.OpenFiles = [] ∧ a.PluginData = none := by
  obtain ⟨h1, _, _⟩ := snapshotsOf_first_step cfg disk st
  obtain ⟨tl', ht1, ht2, _⟩ := get?_apps_step (Store.start cfg disk) st st.app.AppID
  rw [h1] at ht2
  have hnew := newSnapshot_failed disk st.env (retained (Store.start cfg disk) st) st.app
    (diffStates st.app st.app) ho
  have hu : Unchanged (diffStates st.app st.app) :=
    (unchanged_of_agree st.app st.app (fun _ => rfl) (fun _ => Iff.rfl)
      (Or.inr (Or.inr rfl)) rfl).1
  rw [hnew] at ht2
  simp only at ht2
  have hres : resolveSnapshotLocked ((Store.start cfg disk).step st).disk tl' st.env.uuid =
      .ok ({ SnapshotID := st.env.uuid, AppID := st.app.AppID,
             BaseSnapshotID := (retained (Store.start cfg disk) st).snapshots.getLast?.map
               (fun s => s.SnapshotID),
             Delta := diffStates st.app st.app, Timestamp := st.app.Timestamp,
             Spilled := false, DiskRef := "" },
        { App := applyDelta
            { AppID := tl'.appID, PID := 0, ExecutablePath := tl'.exe, CommandLine := "",
              WorkingDir := "", ForegroundWindowClass := "", Windows := [], OpenFiles := [],
              ClipboardHash := "", PluginData := none, InputState := { InputLanguage := "" },
              Timestamp := zeroTime } (diffStates st.app st.app) }) := by
    unfold resolveSnapshotLocked
    rw [ht2]
    simp [findSnapshot, collectChain, chainSeed, isCheckpoint, replayChain]
  unfold resolvedState ResolveSnapshot
  rw [ht1]
  simp only [hres, applyDelta_of_unchanged _ hu]
  exact ⟨_, rfl, rfl, rfl, rfl⟩

/-- C14 as amended: on a new engine, ingesting a state with exactly one window and no open
files creates the single snapshot of the timeline, and its delta is empty: `WindowsChanged`
is false, `WindowDiffs` has no entry, and nothing else is flagged.  The window is carried by
the checkpoint: when the write goes through with a file within the read guard, the snapshot
is a checkpoint and resolves to a state with that window and no open file. -/
theorem C14_first_delta_empty (cfg : EngineConfig) (disk : Disk) (env : IngestEnv)
    (S1 : AppState) (w : WindowState) (hw : S1.Windows = [w]) (hf : S1.OpenFiles = []) :
    ∃ m snap,
      ((Store.start cfg disk).ingest { env := env, app := S1 }).meta = some m ∧
      m.SnapshotID = env.uuid ∧
      snapshotsOf ((Store.start cfg disk).step { env := env, app := S1 }).engine S1.AppID =
        [snap] ∧
      snap.SnapshotID = env.uuid ∧
      snap.Delta.WindowsChanged = false ∧ snap.Delta.WindowDiffs = [] ∧ Unchanged snap.Delta ∧
      (∀ o, env.spill = some o → o.size ≤ readLimit →
        isCheckpoint snap = true ∧
        ∃ full, ResolveSnapshot ((Store.start cfg disk).step { env := env, app := S1 }).engine
            ((Store.start cfg disk).step { env := env, app := S1 }).disk S1.AppID env.uuid =
            .ok (snap, full) ∧
          full.App.Windows = [w] ∧ full.App.OpenFiles = []) := by
  obtain ⟨h1, _, h3⟩ := snapshotsOf_first_step cfg disk { env := env, app := S1 }
  obtain ⟨f1, f2, _, _⟩ := newSnapshot_fields disk env
    (retained (Store.start cfg disk) { env := env, app := S1 }) S1 (diffStates S1 S1)
  obtain ⟨hu, hd⟩ := unchanged_of_agree S1 S1 (fun _ => rfl) (fun _ => Iff.rfl)
    (Or.inr (Or.inr rfl)) rfl
  refine ⟨_, _, h3, rfl, h1, f1, ?_, ?_, ?_, ?_⟩
  · rw [f2]
    exact hu.1
  · rw [f2]
    exact hd
  · rw [f2]
    exact hu
  · intro o ho hsz
    obtain ⟨r1, r2⟩ := resolve_first_checkpoint cfg disk { env := env, app := S1 } o ho hsz
    exact ⟨r1, _, r2, hw, hf⟩

/-- C14, witness: the observation S1 of the scenario on a new engine with the default
configuration. -/
theorem C14_first_delta_empty_witness :
    obsS1.Windows = [sampleWindow 1 0 0 "Untitled"] ∧ obsS1.OpenFiles = [] ∧
    ∃ m snap,
      ((Store.start sampleConfig []).ingest { env := sampleEnv 3 "id-1", app := obsS1 }).meta =
        some m ∧
      m.SnapshotID = "id-1" ∧
      snapshotsOf ((Store.start sampleConfig []).step
        { env := sampleEnv 3 "id-1", app := obsS1 }).engine "app" = [snap] ∧
      snap.SnapshotID = "id-1" ∧
      snap.Delta.WindowsChanged = false ∧ snap.Delta.WindowDiffs = [] ∧ Unchanged snap.Delta ∧
      (∀ o, (sampleEnv 3 "id-1").spill = some o → o.size ≤ readLimit →
        isCheckpoint snap = true ∧
        ∃ full, ResolveSnapshot ((Store.start sampleConfig []).step
              { env := sampleEnv 3 "id-1", app := obsS1 }).engine
            ((Store.start sampleConfig []).step
              { env := sampleEnv 3 "id-1", app := obsS1 }).disk "app" "id-1" =
            .ok (snap, full) ∧
          full.App.Windows = [sampleWindow 1 0 0 "Untitled"] ∧ full.App.OpenFiles = []) :=
  ⟨rfl, rfl, C14_first_delta_empty sampleConfig [] (sampleEnv 3 "id-1") obsS1
    (sampleWindow 1 0 0 "Untitled") rfl rfl⟩

/-- C14, counterexample: S1 of the scenario, one window and no open file, ingested on a new
engine.  The snapshot that is created has `WindowsChanged` false and no entry in
`WindowDiffs`. -/
theorem C14_counterexample_no_added_window :
    obsS1.Windows.length = 1 ∧ obsS1.OpenFiles = [] ∧
    (snapshotsOf ((Store.start sampleConfig []).step
      { env := sampleEnv 3 "id-1", app := obsS1 }).engine "app").map
        (fun sn => (sn.SnapshotID, sn.Delta.WindowsChanged, sn.Delta.WindowDiffs)) =
      [("id-1", false, [])] := by
  decide
/-- C12, at the failing input: the observation `obsRich` (one window, one open file, one
plugin entry) is ingested on a new engine with the default configuration.  When the
checkpoint write goes through, the snapshot resolves to the observation; when it fails, the
same snapshot resolves to a state without windows, open files or plugin data. -/
theorem C12_first_snapshot_lost_on_write_failure :
    resolvedState ((Store.start sampleConfig []).step
      { env := sampleEnv 3 "id-1", app := obsRich }) "app" "id-1" = some obsRich ∧
    (resolvedState ((Store.start sampleConfig []).step
      { env := failingEnv 3 "id-1", app := obsRich }) "app" "id-1").map
        (fun a => (a.Windows, a.OpenFiles, a.PluginData)) = some ([], [], none) ∧
    (snapshotsOf ((Store.start sampleConfig []).step
      { env := failingEnv 3 "id-1", app := obsRich }).engine "app").map
        (fun sn => (sn.SnapshotID, sn.Spilled, sn.DiskRef, sn.BaseSnapshotID)) =
      [("id-1", false, "", none)] ∧
    ((Store.start sampleConfig []).ingest
      { env := failingEnv 3 "id-1", app := obsRich }).err = none := by
  refine ⟨by decide, by decide, by decide, by decide⟩
/-! ## The timeline listing -/

/-- C19: `GetTimeline` returns the empty list for an application without a timeline.  For
any application its result is a rearrangement of the summaries of the snapshots held, one
per snapshot, each with the identifier of its snapshot and its timestamp in milliseconds,
and the timestamps of the result never increase along the list. -/
theorem C19_get_timeline (e : Engine) (appID : String) :
    (e.apps.get? appID = none → GetTimeline e appID = []) ∧
    (GetTimeline e appID).Perm ((snapshotsOf e appID).map summaryOf) ∧
    (GetTimeline e appID).length = (snapshotsOf e appID).length ∧
    (∀ sn, (summaryOf sn).SnapshotID = sn.SnapshotID ∧
      (summaryOf sn).Timestamp = sn.Timestamp / 1000000) ∧
    (GetTimeline e appID).Pairwise (fun a b => a.Timestamp ≥ b.Timestamp) := by
  haveI : IsTotal SnapshotMeta (fun a b => b.Timestamp ≤ a.Timestamp) :=
    ⟨fun a b => le_total b.Timestamp a.Timestamp⟩
  haveI : IsTrans SnapshotMeta (fun a b => b.Timestamp ≤ a.Timestamp) :=
    ⟨fun _ _ _ h1 h2 => le_trans h2 h1⟩
  unfold GetTimeline snapshotsOf
  cases e.apps.get? appID with
  | none =>
    refine ⟨fun _ => rfl, List.Perm.refl _, rfl, fun _ => ⟨rfl, rfl⟩, List.Pairwise.nil⟩
  | some tl =>
    refine ⟨fun h => (by cases h), List.perm_insertionSort _ _, ?_, fun _ => ⟨rfl, rfl⟩, ?_⟩
    · rw [List.length_insertionSort, List.length_map]
    · exact List.sorted_insertionSort (fun a b : SnapshotMeta => b.Timestamp ≤ a.Timestamp) _

/-- C19, witness: a new engine lists nothing for an application it has not seen. -/
theorem C19_get_timeline_witness :
    (NewEngine sampleConfig).apps.get? "app" = none ∧
    GetTimeline (NewEngine sampleConfig) "app" = [] :=
  ⟨rfl, (C19_get_timeline (NewEngine sampleConfig) "app").1 rfl⟩

/-- The metadata `Ingest` returns and the summary of the snapshot it appends differ at most
in `WindowsCount`: the first holds the number of windows of the observation, the second the
number of entries of `WindowDiffs`. -/
theorem ingest_meta_summary (s : Store) (st : Step) (h : Creates s st) :
    (s.ingest st).meta = some { summaryOf (newSnapshot s.disk st.env (retained s st) st.app
      (ingestDelta s st)).2 with WindowsCount := st.app.Windows.length } := by
  obtain ⟨h1, h2, h3, h4⟩ := newSnapshot_fields s.disk st.env (retained s st) st.app
    (ingestDelta s st)
  rw [ingest_created s st ((creates_iff s st).1 h)]
  unfold summaryOf
  simp only [h1, h2, h3, h4]

/-- C18, at the failing input: `obsTwo` (two windows), captured at 5 ms, and then
`obsTwoMoved` (the first of them moved), captured at 7 ms, are ingested on a new engine with
the default configuration.  The metadata of both calls report 2 windows; the deltas hold 0
and 1 window entries, which is what `GetTimeline` reports for the same two identifiers. -/
theorem C18_meta_counts_windows :
    ((Store.start sampleConfig []).ingest countStep1).meta =
      some { SnapshotID := "id-1", AppID := "app", Timestamp := 5, WindowsCount := 2,
             FilesAdded := 0, FilesRemoved := 0 } ∧
    (((Store.start sampleConfig []).step countStep1).ingest countStep2).meta =
      some { SnapshotID := "id-2", AppID := "app", Timestamp := 7, WindowsCount := 2,
             FilesAdded := 0, FilesRemoved := 0 } ∧
    (snapshotsOf ((Store.start sampleConfig []).run [countStep1, countStep2]).engine
      "app").map (fun sn => (sn.SnapshotID, sn.Delta.WindowDiffs.length)) =
      [("id-1", 0), ("id-2", 1)] ∧
    GetTimeline ((Store.start sampleConfig []).run [countStep1, countStep2]).engine "app" =
      [{ SnapshotID := "id-2", AppID := "app", Timestamp := 7, WindowsCount := 1,
         FilesAdded := 0, FilesRemoved := 0 },
       { SnapshotID := "id-1", AppID := "app", Timestamp := 5, WindowsCount := 0,
         FilesAdded := 0, FilesRemoved := 0 }] :=
  ⟨by decide, by decide, by decide, by decide⟩

/-! ## Restore without a launch target -/

theorem registry_restore_of_no_exe (env : RestoreEnv) (app : AppState)
    (h : app.ExecutablePath = "") : Registry.Restore env app = (app, []) := by
  have h1 : VSCodePlugin.CanHandle app = false := by
    unfold VSCodePlugin.CanHandle
    rw [h]
    decide
  have h2 : ChromePlugin.CanHandle app = false := by
    unfold ChromePlugin.CanHandle
    rw [h]
    decide
  have h3 : OfficePlugin.CanHandle app = false := by
    unfold OfficePlugin.CanHandle
    rw [h]
    decide
  unfold Registry.Restore
  simp [h1, h2, h3]

/-- C20: `relaunch` returns an error without a `CreateProcess` call exactly when the
executable path and the command line are both empty, and with either of them present it
makes exactly one such call.  `RestoreSnapshot`, on a full state with neither of the two
whose process id is not positive or is not that of a process `processExists` finds, reports
the stage `ensure_process`, does nothing else, and returns the error of `relaunch`. -/
theorem C20_relaunch_guard (env : RestoreEnv) (exePath cmdLine workingDir : String)
    (snap : Snapshot) (full : FullSnapshot) :
    (((∃ err, (relaunch env exePath cmdLine workingDir).2 = .error err) ∧
        (relaunch env exePath cmdLine workingDir).1 = []) ↔
      exePath = "" ∧ cmdLine = "") ∧
    (¬ (exePath = "" ∧ cmdLine = "") →
      ∃ app args wd, (relaunch env exePath cmdLine workingDir).1 =
        [.createProcess app args wd]) ∧
    (full.App.ExecutablePath = "" → full.App.CommandLine = "" →
      full.App.PID ≤ 0 ∨ processExists env full.App.PID = false →
      RestoreSnapshot env snap (some full) =
        { events := [.progress "ensure_process" 15 "Ensuring process exists"],
          err := some "missing executable path/command line" }) := by
  refine ⟨?_, ?_, ?_⟩
  · by_cases h : exePath = "" ∧ cmdLine = ""
    · simp [relaunch, h.1, h.2]
    · have h' : (decide (exePath = "") && decide (cmdLine = "")) = false := by
        simpa using h
      unfold relaunch
      simp only [h', Bool.false_eq_true, if_false]
      constructor
      · rintro ⟨_, h2⟩
        split at h2 <;> simp at h2
      · intro h2
        exact absurd h2 h
  · intro h
    have h' : (decide (exePath = "") && decide (cmdLine = "")) = false := by
      simpa using h
    unfold relaunch
    simp only [h', Bool.false_eq_true, if_false]
    split <;> exact ⟨_, _, _, rfl⟩
  · intro hexe hcmd hdead
    have hd : (decide (full.App.PID ≤ 0) || !processExists env full.App.PID) = true := by
      rcases hdead with h | h
      · simp [h]
      · simp [h]
    unfold RestoreSnapshot
    simp only [registry_restore_of_no_exe env full.App hexe, hd, if_true, hexe, hcmd]
    rfl

/-- C20, witness: a state with a window but neither executable path nor command line, whose
process 42 is gone. -/
theorem C20_relaunch_guard_witness :
    obsNoTarget.ExecutablePath = "" ∧ obsNoTarget.CommandLine = "" ∧
    processExists deadEnv obsNoTarget.PID = false ∧
    RestoreSnapshot deadEnv
        { SnapshotID := "id-1", AppID := "app", BaseSnapshotID := none,
          Delta := diffStates obsNoTarget obsNoTarget, Timestamp := 1, Spilled := false,
          DiskRef := "" } (some { App := obsNoTarget }) =
      { events := [.progress "ensure_process" 15 "Ensuring process exists"],
        err := some "missing executable path/command line" } ∧
    (relaunch deadEnv "C:\\app.exe" "" "").1 =
      [.createProcess (some "C:\\app.exe") (some "\"C:\\app.exe\"") none] :=
  ⟨rfl, rfl, rfl,
    (C20_relaunch_guard deadEnv "" "" ""
      { SnapshotID := "id-1", AppID := "app", BaseSnapshotID := none,
        Delta := diffStates obsNoTarget obsNoTarget, Timestamp := 1, Spilled := false,
        DiskRef := "" } { App := obsNoTarget }).2.2 rfl rfl (Or.inr rfl),
    by decide⟩

/-! ## Exclusion rules -/

theorem stringsContains_iff (s sub : String) :
    stringsContains s sub = true ↔ sub.data <:+: s.data := by
  unfold stringsContains
  rw [List.any_eq_true, List.infix_iff_prefix_suffix]
  constructor
  · rintro ⟨t, ht, hp⟩
    exact ⟨t, List.isPrefixOf_iff_prefix.1 hp, (List.mem_tails _ _).1 ht⟩
  · rintro ⟨t, hp, ht⟩
    exact ⟨t, (List.mem_tails _ _).2 ht, List.isPrefixOf_iff_prefix.2 hp⟩

/-- C23: `Allow` returns false exactly when the lower-cased base name of the path equals the
lower-cased form of an entry of `ExcludeExeNames`, or the lower-cased path contains the
lower-cased form of a non-empty entry of `ExcludePathSubstr`, or the lower-cased window class
equals the lower-cased form of a non-empty entry of `ExcludeWindowClasses`; with the three
lists empty it returns true. -/
theorem C23_allow (r : Rules) (exePath windowClass : String) :
    (r.Allow exePath windowClass = false ↔
      (∃ n ∈ r.ExcludeExeNames, toLower (filepathBase exePath) = toLower n) ∨
      (∃ s ∈ r.ExcludePathSubstr, s ≠ "" ∧ (toLower s).data <:+: (toLower exePath).data) ∨
      (∃ c ∈ r.ExcludeWindowClasses, c ≠ "" ∧ toLower windowClass = toLower c)) ∧
    (r.ExcludeExeNames = [] → r.ExcludePathSubstr = [] → r.ExcludeWindowClasses = [] →
      r.Allow exePath windowClass = true) := by
  constructor
  · have h : r.Allow exePath windowClass =
        !(r.ExcludeExeNames.any (fun n => toLower (filepathBase exePath) = toLower n) ||
          r.ExcludePathSubstr.any
            (fun s => decide (s ≠ "") && stringsContains (toLower exePath) (toLower s)) ||
          r.ExcludeWindowClasses.any
            (fun c => decide (c ≠ "") && decide (toLower windowClass = toLower c))) := by
      unfold Rules.Allow
      simp only
      generalize r.ExcludeExeNames.any _ = a
      generalize r.ExcludePathSubstr.any _ = b
      generalize r.ExcludeWindowClasses.any _ = c
      cases a <;> cases b <;> cases c <;> rfl
    rw [h]
    simp only [Bool.not_eq_false', Bool.or_eq_true, List.any_eq_true, Bool.and_eq_true,
      decide_eq_true_eq, stringsContains_iff, or_assoc]
  · intro h1 h2 h3
    unfold Rules.Allow
    simp [h1, h2, h3]

/-- C23, witness: rules with one entry of each kind and an empty entry in two lists; an
excluded name in another letter case, a path through an excluded directory, an excluded
window class, and a call that passes. -/
theorem C23_allow_witness :
    sampleRules.Allow "D:\\Tools\\KEEPASS.EXE" "Window" = false ∧
    sampleRules.Allow tempExePath "Window" = false ∧
    sampleRules.Allow "C:\\app.exe" "shell_traywnd" = false ∧
    sampleRules.Allow "C:\\app.exe" "" = true ∧
    ({ ExcludeExeNames := [], ExcludePathSubstr := [], ExcludeWindowClasses := [] } :
      Rules).Allow tempExePath "Window" = true :=
  ⟨(C23_allow sampleRules "D:\\Tools\\KEEPASS.EXE" "Window").1.2
      (Or.inl ⟨"KeePass.exe", by decide, by decide⟩),
    by decide, by decide, by decide,
    (C23_allow _ tempExePath "Window").2 rfl rfl rfl⟩

/-- C30, at the failing input: the path `tempExePath` of an executable in the directory
`AppData`, `Local`, `Temp` of a user, written with single backslashes (six of them) as
Windows reports it, passes the rules of `DefaultConfig`.  The path entry of these rules holds
eight backslashes, two at each separator, and only a path written with doubled separators is
refused. -/
theorem C30_temp_path_allowed :
    tempExePath.data.filter (fun c => c = '\\') = List.replicate 6 '\\' ∧
    (DefaultConfig "snapshots").Rules.ExcludePathSubstr.map
      (fun s => (s.data.filter (fun c => c = '\\')).length) = [8] ∧
    (DefaultConfig "snapshots").Rules.Allow tempExePath "Notepad" = true ∧
    (DefaultConfig "snapshots").Rules.Allow
      "C:\\\\Users\\\\u\\\\AppData\\\\Local\\\\Temp\\\\setup.exe" "Notepad" = false :=
  ⟨by decide, by decide, by decide, by decide⟩
/-! ## Matching saved windows to live ones -/

/-- C21: for a list of live (non-zero) handles, `findBestWindow` returns the first handle
whose class name and title both equal the saved ones, if there is one; otherwise the first
handle whose class name equals the saved one, if there is one; otherwise the first handle of
the list.  The result is 0 exactly when the list is empty, and a non-zero result is a member
of the list. -/
theorem C21_findBestWindow (env : RestoreEnv) (current : List Nat) (sw : WindowState)
    (hlive : 0 ∉ current) :
    (∀ before h after, current = before ++ h :: after →
      (env.className h = sw.ClassName ∧ env.title h = sw.Title) →
      (∀ x ∈ before, ¬ (env.className x = sw.ClassName ∧ env.title x = sw.Title)) →
      findBestWindow env current sw = h) ∧
    ((∀ x ∈ current, ¬ (env.className x = sw.ClassName ∧ env.title x = sw.Title)) →
      ∀ before h after, current = before ++ h :: after → env.className h = sw.ClassName →
      (∀ x ∈ before, env.className x ≠ sw.ClassName) →
      findBestWindow env current sw = h) ∧
    ((∀ x ∈ current, env.className x ≠ sw.ClassName) →
      findBestWindow env current sw = current.headD 0) ∧
    (findBestWindow env current sw = 0 ↔ current = []) ∧
    (findBestWindow env current sw ≠ 0 → findBestWindow env current sw ∈ current) := by
  have hmem : current ≠ [] → findBestWindow env current sw ∈ current := by
    intro hne
    unfold findBestWindow
    cases h1 : current.find?
        (fun h => env.className h = sw.ClassName && env.title h = sw.Title) with
    | some h => exact List.mem_of_find?_eq_some h1
    | none =>
      cases h2 : current.find? (fun h => env.className h = sw.ClassName) with
      | some h => exact List.mem_of_find?_eq_some h2
      | none =>
        cases current with
        | nil => exact absurd rfl hne
        | cons h t => exact List.mem_cons_self _ _
  have hnil : current = [] → findBestWindow env current sw = 0 := by
    intro h
    rw [h]
    rfl
  refine ⟨?_, ?_, ?_, ?_, ?_⟩
  · intro before h after hc hboth hnone
    have h1 : current.find?
        (fun h => env.className h = sw.ClassName && env.title h = sw.Title) = some h := by
      rw [List.find?_eq_some]
      refine ⟨by simpa using hboth, before, after, hc, ?_⟩
      intro x hx
      have hx' := hnone x hx
      by_cases hcl : env.className x = sw.ClassName
      · have ht : env.title x ≠ sw.Title := fun ht => hx' ⟨hcl, ht⟩
        simp [hcl, ht]
      · simp [hcl]
    unfold findBestWindow
    rw [h1]
  · intro hno before h after hc hclass hnone
    have h1 : current.find?
        (fun h => env.className h = sw.ClassName && env.title h = sw.Title) = none := by
      rw [List.find?_eq_none]
      intro x hx
      have hx' := hno x hx
      by_cases hcl : env.className x = sw.ClassName
      · have ht : env.title x ≠ sw.Title := fun ht => hx' ⟨hcl, ht⟩
        simp [hcl, ht]
      · simp [hcl]
    have h2 : current.find? (fun h => env.className h = sw.ClassName) = some h := by
      rw [List.find?_eq_some]
      refine ⟨by simpa using hclass, before, after, hc, ?_⟩
      intro x hx
      simpa using hnone x hx
    unfold findBestWindow
    rw [h1, h2]
  · intro hno
    have h1 : current.find?
        (fun h => env.className h = sw.ClassName && env.title h = sw.Title) = none := by
      rw [List.find?_eq_none]
      intro x hx
      simp [hno x hx]
    have h2 : current.find? (fun h => env.className h = sw.ClassName) = none := by
      rw [List.find?_eq_none]
      intro x hx
      simpa using hno x hx
    unfold findBestWindow
    rw [h1, h2]
    cases current <;> rfl
  · constructor
    · intro h0
      by_contra hne
      have := hmem hne
      rw [h0] at this
      exact hlive this
    · exact hnil
  · intro hne
    apply hmem
    intro h
    exact hne (hnil h)

/-- C21, witness: the two live windows 10 and 11 have the class `Live` and the titles `first`
and `second`.  A saved window of that class titled `second` is matched to 11, one of that
class with another title to 10, one of another class to 10 as well, and with no live window
the result is 0. -/
theorem C21_findBestWindow_witness :
    (0 : Nat) ∉ [10, 11] ∧
    findBestWindow twoLiveEnv [10, 11] { savedA with ClassName := "Live", Title := "second" } =
      11 ∧
    findBestWindow twoLiveEnv [10, 11] { savedA with ClassName := "Live" } = 10 ∧
    findBestWindow twoLiveEnv [10, 11] savedA = 10 ∧
    findBestWindow twoLiveEnv [] savedA = 0 ∧
    (findBestWindow twoLiveEnv [10, 11] savedA = 0 ↔ ([10, 11] : List Nat) = []) :=
  ⟨by decide, by decide, by decide, by decide, by decide,
    (C21_findBestWindow twoLiveEnv [10, 11] savedA (by decide)).2.2.2.1⟩
/-! ## The order in which windows are raised -/

theorem sinkByZ_perm (w : WindowState) (pre : List WindowState) :
    (sinkByZ w pre).Perm (w :: pre) := by
  induction pre with
  | nil => exact List.Perm.refl _
  | cons x pre ih =>
    unfold sinkByZ
    split_ifs
    · exact (ih.cons x).trans (List.Perm.swap w x pre)
    · exact List.Perm.refl _

theorem sinkByZ_sorted (w : WindowState) {pre : List WindowState}
    (h : pre.Pairwise (fun a b => b.ZOrder ≤ a.ZOrder)) :
    (sinkByZ w pre).Pairwise (fun a b => b.ZOrder ≤ a.ZOrder) := by
  induction pre with
  | nil => simp [sinkByZ]
  | cons x pre ih =>
    rw [List.pairwise_cons] at h
    unfold sinkByZ
    split_ifs with hx
    · rw [List.pairwise_cons]
      refine ⟨?_, ih h.2⟩
      intro y hy
      rcases List.mem_cons.1 ((sinkByZ_perm w pre).subset hy) with rfl | hy'
      · exact le_of_lt hx
      · exact h.1 y hy'
    · have hwx : x.ZOrder ≤ w.ZOrder := not_lt.1 hx
      rw [List.pairwise_cons]
      refine ⟨?_, List.pairwise_cons.2 h⟩
      intro y hy
      rcases List.mem_cons.1 hy with rfl | hy'
      · exact hwx
      · exact le_trans (h.1 y hy') hwx

theorem sinkByZ_filter (w : WindowState) (pre : List WindowState) (z : Int) :
    (sinkByZ w pre).filter (fun v => v.ZOrder = z) =
      (w :: pre).filter (fun v => v.ZOrder = z) := by
  induction pre with
  | nil => rfl
  | cons x pre ih =>
    unfold sinkByZ
    split_ifs with hx
    · rw [List.filter_cons, ih]
      by_cases h1 : x.ZOrder = z
      · have h2 : w.ZOrder ≠ z := by
          intro h2
          rw [h1, h2] at hx
          exact lt_irrefl _ hx
        simp [List.filter_cons, h1, h2]
      · simp [List.filter_cons, h1]
    · rfl

theorem foldl_sinkByZ (ws pre : List WindowState) :
    (ws.foldl (fun pre w => sinkByZ w pre) pre).Perm (ws.reverse ++ pre) ∧
    (pre.Pairwise (fun a b => b.ZOrder ≤ a.ZOrder) →
      (ws.foldl (fun pre w => sinkByZ w pre) pre).Pairwise (fun a b => b.ZOrder ≤ a.ZOrder)) ∧
    ∀ z, (ws.foldl (fun pre w => sinkByZ w pre) pre).filter (fun v => v.ZOrder = z) =
      (ws.filter (fun v => v.ZOrder = z)).reverse ++ pre.filter (fun v => v.ZOrder = z) := by
  induction ws generalizing pre with
  | nil => simp
  | cons w ws ih =>
    obtain ⟨h1, h2, h3⟩ := ih (sinkByZ w pre)
    refine ⟨?_, ?_, ?_⟩
    · rw [List.foldl_cons, List.reverse_cons, List.append_assoc]
      exact h1.trans (List.Perm.append_left _ (sinkByZ_perm w pre))
    · intro hp
      exact h2 (sinkByZ_sorted w hp)
    · intro z
      rw [List.foldl_cons, h3, sinkByZ_filter]
      by_cases hz : w.ZOrder = z
      · simp [List.filter_cons, hz]
      · simp [List.filter_cons, hz]

theorem raised_placeWindow (env : RestoreEnv) (pid : Int) (current : List Nat)
    (sw : WindowState) : (placeWindow env pid current sw).filterMap raisedHandle = [] := by
  unfold placeWindow
  simp only
  split_ifs <;> rfl

theorem raised_flatten_placeWindow (env : RestoreEnv) (pid : Int) (current : List Nat)
    (saved : List WindowState) :
    ((saved.map (placeWindow env pid current)).flatten).filterMap raisedHandle = [] := by
  induction saved with
  | nil => rfl
  | cons sw saved ih =>
    rw [List.map_cons, List.flatten_cons, List.filterMap_append, raised_placeWindow, ih]
    rfl

/-- C25: `sortByZ` returns a rearrangement of its input in which the z-order never decreases
along the list and in which the windows of any one z-order stand in their original order;
and in `restoreWindows`, for a process that shows a window, the handles raised are, in this
order, those of the sorted windows that are still windows of the process. -/
theorem C25_sortByZ (ws : List WindowState) :
    (sortByZ ws).Perm ws ∧
    (sortByZ ws).Pairwise (fun a b => a.ZOrder ≤ b.ZOrder) ∧
    (∀ z, (sortByZ ws).filter (fun w => w.ZOrder = z) = ws.filter (fun w => w.ZOrder = z)) ∧
    (∀ (env : RestoreEnv) (pid : Int), env.enumWindows pid ≠ [] →
      (restoreWindows env pid ws).filterMap raisedHandle =
        ((sortByZ ws).filter (fun sw => ownedWindow env pid sw.HWND)).map
          (fun sw => sw.HWND)) := by
  obtain ⟨h1, h2, h3⟩ := foldl_sinkByZ ws []
  refine ⟨?_, ?_, ?_, ?_⟩
  · unfold sortByZ
    exact (List.reverse_perm _).trans (h1.trans (by simp))
  · unfold sortByZ
    rw [List.pairwise_reverse]
    exact h2 List.Pairwise.nil
  · intro z
    unfold sortByZ
    rw [List.filter_reverse, h3 z]
    simp
  · intro env pid hne
    have hl : ¬ (env.enumWindows pid).length = 0 := by
      intro h
      exact hne (List.length_eq_zero.1 h)
    unfold restoreWindows
    simp only [hl, if_false]
    rw [List.filterMap_append, raised_flatten_placeWindow, List.nil_append,
      List.filterMap_map]
    rw [← List.filterMap_eq_map]
    rfl

/-- C25, witness: process 42 shows windows; of three saved windows, two of z-order 1 and one
of z-order 0, the one of z-order 0 comes first and the other two keep their order. -/
theorem C25_sortByZ_witness :
    twoLiveEnv.enumWindows 42 ≠ [] ∧
    (sortByZ [sampleWindow 10 0 1 "a", sampleWindow 7 0 1 "b", sampleWindow 11 0 0 "c"]).map
      (fun w => w.HWND) = [11, 10, 7] ∧
    (restoreWindows twoLiveEnv 42
      [sampleWindow 10 0 1 "a", sampleWindow 7 0 1 "b", sampleWindow 11 0 0 "c"]).filterMap
        raisedHandle =
      ((sortByZ [sampleWindow 10 0 1 "a", sampleWindow 7 0 1 "b",
        sampleWindow 11 0 0 "c"]).filter (fun sw => ownedWindow twoLiveEnv 42 sw.HWND)).map
          (fun sw => sw.HWND) ∧
    (restoreWindows twoLiveEnv 42
      [sampleWindow 10 0 1 "a", sampleWindow 7 0 1 "b", sampleWindow 11 0 0 "c"]).filterMap
        raisedHandle = [11, 10] :=
  ⟨by decide, by decide,
    (C25_sortByZ [sampleWindow 10 0 1 "a", sampleWindow 7 0 1 "b",
      sampleWindow 11 0 0 "c"]).2.2.2 twoLiveEnv 42 (by decide),
    by decide⟩
/-! ## The fallback match -/

theorem findBestWindow_fallback (env : RestoreEnv) (h0 : Nat) (rest : List Nat)
    (sw : WindowState) (hno : ∀ h ∈ h0 :: rest, env.className h ≠ sw.ClassName) :
    findBestWindow env (h0 :: rest) sw = h0 := by
  have h1 : (h0 :: rest).find?
      (fun h => env.className h = sw.ClassName && env.title h = sw.Title) = none := by
    rw [List.find?_eq_none]
    intro x hx
    simp [hno x hx]
  have h2 : (h0 :: rest).find? (fun h => env.className h = sw.ClassName) = none := by
    rw [List.find?_eq_none]
    intro x hx
    simpa using hno x hx
  unfold findBestWindow
  rw [h1, h2]

theorem placeWindow_fallback (env : RestoreEnv) (pid : Int) (h0 : Nat) (rest : List Nat)
    (sw : WindowState) (h0ne : h0 ≠ 0) (hown : ownedWindow env pid sw.HWND = false)
    (hno : ∀ h ∈ h0 :: rest, env.className h ≠ sw.ClassName) :
    placeWindow env pid (h0 :: rest) sw = applyWindowState h0 sw := by
  unfold placeWindow
  simp only [hown, findBestWindow_fallback env h0 rest sw hno, Bool.false_eq_true, if_false]
  rw [if_pos h0ne]

theorem raises_of_none_owned (env : RestoreEnv) (pid : Int) (saved : List WindowState)
    (hown : ∀ sw ∈ saved, ownedWindow env pid sw.HWND = false) :
    ((sortByZ saved).filter (fun sw => ownedWindow env pid sw.HWND)).map
      (fun sw => RestoreEvent.bringWindowToTop sw.HWND) = [] := by
  rw [List.map_eq_nil_iff, List.filter_eq_nil_iff]
  intro sw hsw
  have hmem : sw ∈ saved := by
    have hp : (sortByZ saved).Perm saved := by
      obtain ⟨h1, _, _⟩ := foldl_sinkByZ saved []
      unfold sortByZ
      exact (List.reverse_perm _).trans (h1.trans (by simp))
    exact hp.subset hsw
  simp [hown sw hmem]

/-- C24 as amended: in `restoreWindows` the fallback match selects the first live window
enumerated for the process, whether or not an earlier saved window was matched to it.  When
every saved window fails the exact-handle match and the class matches, each of them is
applied to that one live window, in the order of the saved list, and nothing else is done. -/
theorem C24_fallback_first_live (env : RestoreEnv) (pid : Int) (saved : List WindowState)
    (h0 : Nat) (rest : List Nat) (hcur : env.enumWindows pid = h0 :: rest) (h0ne : h0 ≠ 0)
    (hown : ∀ sw ∈ saved, ownedWindow env pid sw.HWND = false)
    (hno : ∀ sw ∈ saved, ∀ h ∈ h0 :: rest, env.className h ≠ sw.ClassName) :
    (∀ sw ∈ saved, placeWindow env pid (env.enumWindows pid) sw = applyWindowState h0 sw) ∧
    restoreWindows env pid saved = (saved.map (applyWindowState h0)).flatten := by
  have hp : ∀ sw ∈ saved, placeWindow env pid (h0 :: rest) sw = applyWindowState h0 sw :=
    fun sw hsw => placeWindow_fallback env pid h0 rest sw h0ne (hown sw hsw) (hno sw hsw)
  refine ⟨?_, ?_⟩
  · rw [hcur]
    exact hp
  · unfold restoreWindows
    simp only [hcur, List.length_cons, Nat.succ_ne_zero, if_false]
    rw [raises_of_none_owned env pid saved hown, List.append_nil]
    congr 1
    exact List.map_congr_left hp

/-- C24, witness: process 42 shows the windows 10 and 11; the saved windows `savedA` and
`savedB` are both applied to window 10. -/
theorem C24_fallback_first_live_witness :
    twoLiveEnv.enumWindows 42 = [10, 11] ∧
    (∀ sw ∈ [savedA, savedB], ownedWindow twoLiveEnv 42 sw.HWND = false) ∧
    (∀ sw ∈ [savedA, savedB], ∀ h ∈ [10, 11], twoLiveEnv.className h ≠ sw.ClassName) ∧
    restoreWindows twoLiveEnv 42 [savedA, savedB] =
      ([savedA, savedB].map (applyWindowState 10)).flatten :=
  ⟨rfl, by decide, by decide,
    (C24_fallback_first_live twoLiveEnv 42 [savedA, savedB] 10 [11] rfl (by decide)
      (by decide) (by decide)).2⟩

/-- C24, counterexample: process 42 shows the two windows 10 and 11.  The saved windows
`savedA` and `savedB` differ, and neither matches a live window by handle, by class and
title, or by class.  Both are shown and moved on window 10, and window 11, which no saved
window was matched to, is left alone. -/
theorem C24_counterexample_same_window :
    twoLiveEnv.enumWindows 42 = [10, 11] ∧ savedA ≠ savedB ∧
    (∀ sw ∈ [savedA, savedB], ownedWindow twoLiveEnv 42 sw.HWND = false ∧
      ∀ h ∈ [10, 11], twoLiveEnv.className h ≠ sw.ClassName) ∧
    restoreWindows twoLiveEnv 42 [savedA, savedB] =
      [.showWindow 10 1, .moveWindow 10 0 0 800 600,
       .showWindow 10 1, .moveWindow 10 50 0 800 600] ∧
    (restoreWindows twoLiveEnv 42 [savedA, savedB]).filterMap shownHandle = [10, 10] := by
  refine ⟨rfl, by decide, by decide, by decide, by decide⟩
/-! ## The stages of a restore -/

theorem stagesOf_append (a b : List RestoreEvent) :
    stagesOf (a ++ b) = stagesOf a ++ stagesOf b := by
  unfold stagesOf
  rw [List.filterMap_append]

theorem stagesOf_map_shellOpen (docs : List String) :
    stagesOf (docs.map RestoreEvent.shellOpen) = [] := by
  induction docs with
  | nil => rfl
  | cons d docs ih =>
    rw [List.map_cons]
    exact ih

theorem stagesOf_registry (env : RestoreEnv) (app : AppState) :
    stagesOf (Registry.Restore env app).2 = [] := by
  have ho : ∀ a : AppState, stagesOf (OfficePlugin.Restore env a) = [] := by
    intro a
    unfold OfficePlugin.Restore
    split
    · rfl
    · exact stagesOf_map_shellOpen _
  unfold Registry.Restore
  dsimp only
  split_ifs <;> first | rfl | exact ho _

theorem stagesOf_relaunch (env : RestoreEnv) (exePath cmdLine workingDir : String) :
    stagesOf (relaunch env exePath cmdLine workingDir).1 = [] := by
  unfold relaunch
  by_cases h : (decide (exePath = "") && decide (cmdLine = "")) = true
  · rw [if_pos h]
    rfl
  · rw [if_neg h]
    dsimp only
    split <;> rfl

theorem stagesOf_applyWindowState (h : Nat) (sw : WindowState) :
    stagesOf (applyWindowState h sw) = [] := rfl

theorem stagesOf_placeWindow (env : RestoreEnv) (pid : Int) (current : List Nat)
    (sw : WindowState) : stagesOf (placeWindow env pid current sw) = [] := by
  unfold placeWindow
  simp only
  split_ifs <;> rfl

theorem stagesOf_restoreWindows (env : RestoreEnv) (pid : Int) (saved : List WindowState) :
    stagesOf (restoreWindows env pid saved) = [] := by
  unfold restoreWindows
  simp only
  split_ifs
  · rfl
  · rw [stagesOf_append]
    have h1 : stagesOf ((saved.map (placeWindow env pid (env.enumWindows pid))).flatten) =
        [] := by
      induction saved with
      | nil => rfl
      | cons sw saved ih =>
        rw [List.map_cons, List.flatten_cons, stagesOf_append, stagesOf_placeWindow, ih]
        rfl
    have h2 : ∀ l : List WindowState,
        stagesOf (l.map (fun sw => RestoreEvent.bringWindowToTop sw.HWND)) = [] := by
      intro l
      induction l with
      | nil => rfl
      | cons x l ih =>
        rw [List.map_cons]
        exact ih
    rw [h1, h2]
    rfl

theorem stagesOf_restoreFocus (env : RestoreEnv) (pid : Int) (saved : List WindowState) :
    stagesOf (restoreFocus env pid saved) = [] := by
  unfold restoreFocus
  split
  · rfl
  · split <;> rfl

theorem stagesOf_restoreStages (env : RestoreEnv) (pid : Int) (app : AppState) :
    stagesOf (restoreStages env pid app) = [("restore_windows", 60), ("restore_focus", 90)] := by
  unfold restoreStages
  rw [stagesOf_append, stagesOf_append, stagesOf_append, stagesOf_restoreWindows,
    stagesOf_restoreFocus]
  rfl

/-- The stages of `RestoreSnapshot`, by the three ways it can go. -/
theorem restoreSnapshot_stages (env : RestoreEnv) (snap : Snapshot) (full : FullSnapshot) :
    (¬ ((Registry.Restore env full.App).1.PID ≤ 0 ∨
        processExists env (Registry.Restore env full.App).1.PID = false) ∧
      (RestoreSnapshot env snap (some full)).err = none ∧
      stagesOf (RestoreSnapshot env snap (some full)).events =
        [("ensure_process", 15), ("restore_windows", 60), ("restore_focus", 90)]) ∨
    (((Registry.Restore env full.App).1.PID ≤ 0 ∨
        processExists env (Registry.Restore env full.App).1.PID = false) ∧
      ∃ err, (relaunch env (Registry.Restore env full.App).1.ExecutablePath
          (Registry.Restore env full.App).1.CommandLine
          (Registry.Restore env full.App).1.WorkingDir).2 = .error err ∧
        (RestoreSnapshot env snap (some full)).err = some err ∧
        stagesOf (RestoreSnapshot env snap (some full)).events = [("ensure_process", 15)]) ∨
    (((Registry.Restore env full.App).1.PID ≤ 0 ∨
        processExists env (Registry.Restore env full.App).1.PID = false) ∧
      ∃ npid, (relaunch env (Registry.Restore env full.App).1.ExecutablePath
          (Registry.Restore env full.App).1.CommandLine
          (Registry.Restore env full.App).1.WorkingDir).2 = .ok npid ∧
        (RestoreSnapshot env snap (some full)).err = none ∧
        stagesOf (RestoreSnapshot env snap (some full)).events =
          [("ensure_process", 15), ("wait_windows", 35), ("restore_windows", 60),
           ("restore_focus", 90)]) := by
  unfold RestoreSnapshot
  dsimp only
  by_cases hd : (decide ((Registry.Restore env full.App).1.PID ≤ 0) ||
      !processExists env (Registry.Restore env full.App).1.PID) = true
  · have hd' : (Registry.Restore env full.App).1.PID ≤ 0 ∨
        processExists env (Registry.Restore env full.App).1.PID = false := by
      simpa using hd
    rw [if_pos hd]
    right
    have hs := stagesOf_relaunch env (Registry.Restore env full.App).1.ExecutablePath
      (Registry.Restore env full.App).1.CommandLine (Registry.Restore env full.App).1.WorkingDir
    rcases hrel : relaunch env (Registry.Restore env full.App).1.ExecutablePath
        (Registry.Restore env full.App).1.CommandLine
        (Registry.Restore env full.App).1.WorkingDir with ⟨done, res⟩
    rw [hrel] at hs
    cases res with
    | error err =>
      left
      refine ⟨hd', err, rfl, rfl, ?_⟩
      dsimp only
      rw [stagesOf_append, stagesOf_append, stagesOf_registry, hs]
      rfl
    | ok npid =>
      right
      refine ⟨hd', npid, rfl, rfl, ?_⟩
      dsimp only
      rw [stagesOf_append, stagesOf_append, stagesOf_append, stagesOf_append, stagesOf_registry,
        hs, stagesOf_restoreStages]
      rfl
  · have hd' : ¬ ((Registry.Restore env full.App).1.PID ≤ 0 ∨
        processExists env (Registry.Restore env full.App).1.PID = false) := by
      simpa using hd
    rw [if_neg hd]
    left
    refine ⟨hd', rfl, ?_⟩
    dsimp only
    rw [stagesOf_append, stagesOf_append, stagesOf_registry, stagesOf_restoreStages]
    rfl

/-- The stages of `Services.Restore`, by the four ways it can go. -/
theorem restore_stage_cases (env : RestoreEnv) (e : Engine) (disk : Disk)
    (appID snapshotID : String) :
    (stagesOf (Services.Restore env e disk appID snapshotID).events = [("resolve", 5)] ∧
      (Services.Restore env e disk appID snapshotID).err ≠ none ∧
      ¬ Relaunched env e disk appID snapshotID) ∨
    (stagesOf (Services.Restore env e disk appID snapshotID).events = aliveStages ∧
      (Services.Restore env e disk appID snapshotID).err = none ∧
      ¬ Relaunched env e disk appID snapshotID) ∨
    (stagesOf (Services.Restore env e disk appID snapshotID).events =
        [("resolve", 5), ("ensure_process", 15)] ∧
      (Services.Restore env e disk appID snapshotID).err ≠ none ∧
      ¬ Relaunched env e disk appID snapshotID) ∨
    (stagesOf (Services.Restore env e disk appID snapshotID).events = allStages ∧
      (Services.Restore env e disk appID snapshotID).err = none ∧
      Relaunched env e disk appID snapshotID) := by
  unfold Services.Restore Relaunched
  cases hres : ResolveSnapshot e disk appID snapshotID with
  | error err =>
    left
    refine ⟨rfl, by simp, ?_⟩
    rintro ⟨_, _, _, h, _⟩
    cases h
  | ok r =>
    obtain ⟨snap, full⟩ := r
    dsimp only
    rcases restoreSnapshot_stages env snap full with ⟨h1, h2, h3⟩ | ⟨h1, err, h2, h3, h4⟩ |
      ⟨h1, npid, h2, h3, h4⟩
    · right
      left
      rcases hr : RestoreSnapshot env snap (some full) with ⟨evs, er⟩
      rw [hr] at h2 h3
      dsimp only at h2 h3
      subst h2
      dsimp only
      refine ⟨?_, rfl, ?_⟩
      · show stagesOf (RestoreEvent.progress "resolve" 5 "Resolving snapshot" ::
          (evs ++ [RestoreEvent.progress "done" 100 "Restore completed"])) = _
        rw [← List.singleton_append, stagesOf_append, stagesOf_append, h3]
        rfl
      · rintro ⟨s', f', n', h, hd, _⟩
        cases h
        exact h1 hd
    · right
      right
      left
      rcases hr : RestoreSnapshot env snap (some full) with ⟨evs, er⟩
      rw [hr] at h3 h4
      dsimp only at h3 h4
      subst h3
      dsimp only
      refine ⟨?_, by simp, ?_⟩
      · show stagesOf (RestoreEvent.progress "resolve" 5 "Resolving snapshot" ::
          (evs ++ [RestoreEvent.restoreError err])) = _
        rw [← List.singleton_append, stagesOf_append, stagesOf_append, h4]
        rfl
      · rintro ⟨s', f', n', h, _, hrel⟩
        cases h
        rw [h2] at hrel
        cases hrel
    · right
      right
      right
      rcases hr : RestoreSnapshot env snap (some full) with ⟨evs, er⟩
      rw [hr] at h3 h4
      dsimp only at h3 h4
      subst h3
      dsimp only
      refine ⟨?_, rfl, snap, full, npid, rfl, h1, h2⟩
      show stagesOf (RestoreEvent.progress "resolve" 5 "Resolving snapshot" ::
        (evs ++ [RestoreEvent.progress "done" 100 "Restore completed"])) = _
      rw [← List.singleton_append, stagesOf_append, stagesOf_append, h4]
      rfl

/-- C22: whatever the external calls answer, the stages a restore reports are an initial
part of `resolve`, `ensure_process`, `wait_windows`, `restore_windows`, `restore_focus`,
`done`, or of that sequence without `wait_windows`; the stage `wait_windows` is among them
exactly when the process was relaunched with success; the percentages increase strictly;
`done` is reported exactly when no error is returned; and after a successful relaunch all
six stages are reported and no error is returned, whether or not a window showed up before
the wait timed out. -/
theorem C22_restore_stages (env : RestoreEnv) (e : Engine) (disk : Disk)
    (appID snapshotID : String) :
    (stagesOf (Services.Restore env e disk appID snapshotID).events <+: allStages ∨
      stagesOf (Services.Restore env e disk appID snapshotID).events <+: aliveStages) ∧
    ("wait_windows" ∈ (stagesOf (Services.Restore env e disk appID snapshotID).events).map
        Prod.fst ↔ Relaunched env e disk appID snapshotID) ∧
    ((stagesOf (Services.Restore env e disk appID snapshotID).events).map Prod.snd).Pairwise
      (fun a b => a < b) ∧
    ("done" ∈ (stagesOf (Services.Restore env e disk appID snapshotID).events).map Prod.fst ↔
      (Services.Restore env e disk appID snapshotID).err = none) ∧
    (Relaunched env e disk appID snapshotID →
      stagesOf (Services.Restore env e disk appID snapshotID).events = allStages ∧
      (Services.Restore env e disk appID snapshotID).err = none) := by
  rcases restore_stage_cases env e disk appID snapshotID with ⟨h1, h2, h3⟩ | ⟨h1, h2, h3⟩ |
    ⟨h1, h2, h3⟩ | ⟨h1, h2, h3⟩
  · rw [h1]
    refine ⟨Or.inl (by decide), ⟨fun h => absurd h (by decide), fun h => absurd h h3⟩,
      by decide, ⟨fun h => absurd h (by decide), fun h => absurd h h2⟩, fun h => absurd h h3⟩
  · rw [h1]
    refine ⟨Or.inr (by decide), ⟨fun h => absurd h (by decide), fun h => absurd h h3⟩,
      by decide, ⟨fun _ => h2, fun _ => by decide⟩, fun h => absurd h h3⟩
  · rw [h1]
    refine ⟨Or.inl (by decide), ⟨fun h => absurd h (by decide), fun h => absurd h h3⟩,
      by decide, ⟨fun h => absurd h (by decide), fun h => absurd h h2⟩, fun h => absurd h h3⟩
  · rw [h1]
    refine ⟨Or.inl (by decide), ⟨fun _ => h3, fun _ => by decide⟩,
      by decide, ⟨fun _ => h2, fun _ => by decide⟩, fun _ => ⟨rfl, h2⟩⟩
/-- C22, witness: the snapshot of S1 is restored in a system where the saved process is gone,
`CreateProcess` succeeds and the wait for a window times out: all six stages are reported
and no error is returned.  In a system where `CreateProcess` fails the stages stop after
`ensure_process`, where the process is alive `wait_windows` is left out, and for an unknown
snapshot id only `resolve` is reported. -/
theorem C22_restore_stages_witness :
    timeoutEnv.windowAppears 77 = false ∧
    Relaunched timeoutEnv storeS1.engine storeS1.disk "app" "id-1" ∧
    stagesOf (Services.Restore timeoutEnv storeS1.engine storeS1.disk "app" "id-1").events =
      allStages ∧
    (Services.Restore timeoutEnv storeS1.engine storeS1.disk "app" "id-1").err = none ∧
    stagesOf (Services.Restore deadEnv storeS1.engine storeS1.disk "app" "id-1").events =
      [("resolve", 5), ("ensure_process", 15)] ∧
    stagesOf (Services.Restore twoLiveEnv storeS1.engine storeS1.disk "app" "id-1").events =
      aliveStages ∧
    stagesOf (Services.Restore timeoutEnv storeS1.engine storeS1.disk "app" "id-9").events =
      [("resolve", 5)] :=
  have hrel : Relaunched timeoutEnv storeS1.engine storeS1.disk "app" "id-1" :=
    ⟨{ SnapshotID := "id-1", AppID := "app", BaseSnapshotID := none,
       Delta := diffStates obsS1 obsS1, Timestamp := 1, Spilled := true,
       DiskRef := "app/id-1.json.gz" }, { App := obsS1 }, 77, by rfl, Or.inr (by decide),
      by rfl⟩
  ⟨rfl, hrel,
    ((C22_restore_stages timeoutEnv storeS1.engine storeS1.disk "app" "id-1").2.2.2.2 hrel).1,
    ((C22_restore_stages timeoutEnv storeS1.engine storeS1.disk "app" "id-1").2.2.2.2 hrel).2,
    by decide, by decide, by decide⟩
/-! ## Replaying a delta on its own target -/

theorem windowOf_replay_twice (A B : AppState) (h : Nat) :
    windowOf (applyDelta (applyDelta A (diffStates A B)) (diffStates A B)) h =
      windowOf (applyDelta A (diffStates A B)) h := by
  rw [windowOf_applyDelta_diff (applyDelta A (diffStates A B)) A B,
    windowOf_applyDelta_diff A A B]
  split_ifs <;> rfl

theorem mem_normPaths_replay_twice (A B : AppState) (p : String) :
    p ∈ normPaths (applyDelta (applyDelta A (diffStates A B)) (diffStates A B)) ↔
      p ∈ normPaths (applyDelta A (diffStates A B)) := by
  rw [mem_normPaths_applyDelta_diff (applyDelta A (diffStates A B)) A B,
    mem_normPaths_roundtrip A B]
  tauto

theorem pluginData_replay_twice (A B : AppState) :
    (applyDelta (applyDelta A (diffStates A B)) (diffStates A B)).PluginData =
      (applyDelta A (diffStates A B)).PluginData := by
  rw [applyDelta_PluginData, applyDelta_PluginData]
  split_ifs <;> rfl

theorem pluginData_replay_on_target (X B : AppState) :
    (applyDelta B (diffStates X B)).PluginData = B.PluginData := by
  rw [applyDelta_PluginData]
  split_ifs <;> rfl

theorem jsonReload_pluginData {fs : FullSnapshot} (h : fs.App.PluginData ≠ some []) :
    (jsonReload fs).App.PluginData = fs.App.PluginData := by
  show (match fs.App.PluginData with
    | some [] => none
    | p => p) = _
  cases hp : fs.App.PluginData with
  | none => rfl
  | some m =>
    cases m with
    | nil => exact absurd hp h
    | cons e m => rfl

/-- Applying `diffStates X B` with `applyDelta` to `B` itself leaves the window of every
handle, the set of lower-cased, trimmed open-file paths and the plugin data of `B` as they
are.  Replaying that delta on the state a checkpoint of `B` reads back as leaves the window of
every handle and the open-file set as they are, and the plugin data as well when `B` holds
the nil map or a map with an entry.  And applying `diffStates A B` a second time to `A`
changes nothing of the three. -/
theorem replay_on_own_target (X A B : AppState) :
    ((∀ h, windowOf (applyDelta B (diffStates X B)) h = windowOf B h) ∧
      (∀ p, p ∈ normPaths (applyDelta B (diffStates X B)) ↔ p ∈ normPaths B) ∧
      (applyDelta B (diffStates X B)).PluginData = B.PluginData) ∧
    ((∀ h, windowOf (applyDelta (jsonReload { App := B }).App (diffStates X B)) h =
        windowOf (jsonReload { App := B }).App h) ∧
      (∀ p, p ∈ normPaths (applyDelta (jsonReload { App := B }).App (diffStates X B)) ↔
        p ∈ normPaths (jsonReload { App := B }).App) ∧
      (B.PluginData ≠ some [] →
        (applyDelta (jsonReload { App := B }).App (diffStates X B)).PluginData =
          (jsonReload { App := B }).App.PluginData)) ∧
    ((∀ h, windowOf (applyDelta (applyDelta A (diffStates A B)) (diffStates A B)) h =
        windowOf (applyDelta A (diffStates A B)) h) ∧
      (∀ p, p ∈ normPaths (applyDelta (applyDelta A (diffStates A B)) (diffStates A B)) ↔
        p ∈ normPaths (applyDelta A (diffStates A B))) ∧
      (applyDelta (applyDelta A (diffStates A B)) (diffStates A B)).PluginData =
        (applyDelta A (diffStates A B)).PluginData) := by
  refine ⟨⟨fun h => windowOf_replay_on_target B X B rfl h,
      fun p => mem_normPaths_replay_on_target B X B rfl p, pluginData_replay_on_target X B⟩,
    ⟨fun h => ?_, fun p => ?_, fun hne => ?_⟩,
    ⟨windowOf_replay_twice A B, mem_normPaths_replay_twice A B, pluginData_replay_twice A B⟩⟩
  · rw [windowOf_replay_on_target (jsonReload { App := B }).App X B rfl h]
    rfl
  · rw [mem_normPaths_replay_on_target (jsonReload { App := B }).App X B rfl p]
    rfl
  · rw [applyDelta_PluginData, @jsonReload_pluginData { App := B } hne]
    split_ifs <;> rfl

set_option maxRecDepth 1000000 in
/-- C27, at a failing input: `obsCaptured` holds the empty, non-nil plugin map (what the
capture path delivers for an application no plugin handles) and `obsRich` a plugin entry.
The state a checkpoint of `obsCaptured` reads back as has the nil map, and replaying
`diffStates obsRich obsCaptured` on it puts the empty map in its place, which `jsonEq` tells
from the nil map: the replay of the delta on the loaded state alters it.  The same happens in
`resolveSnapshotLocked`: after the run `pluginSteps` the 31st snapshot is a checkpoint whose
delta flags the plugin data; its file reads back with the nil map, and the snapshot resolves
to a state with the empty map.  With the plugin entry of `obsRich` or the nil map of `obsS2`
in the checkpointed state, the replay leaves the loaded state as it is. -/
theorem C27_replay_alters_reloaded_state :
    obsCaptured.PluginData = some [] ∧
    (jsonReload { App := obsCaptured }).App.PluginData = none ∧
    (applyDelta (jsonReload { App := obsCaptured }).App
      (diffStates obsRich obsCaptured)).PluginData = some [] ∧
    jsonEq (jsonReload { App := obsCaptured }).App.PluginData
      (applyDelta (jsonReload { App := obsCaptured }).App
        (diffStates obsRich obsCaptured)).PluginData = false ∧
    applyDelta (jsonReload { App := obsCaptured }).App (diffStates obsRich obsCaptured) ≠
      (jsonReload { App := obsCaptured }).App ∧
    (snapshotsOf ((Store.start sampleConfig []).run pluginSteps).engine "app")[30]?.map
      (fun sn => (sn.SnapshotID, isCheckpoint sn, sn.Delta.PluginChanged)) =
        some (idOf 30, true, true) ∧
    (snapshotsOf ((Store.start sampleConfig []).run pluginSteps).engine "app")[30]?.bind
      (fun sn =>
        match loadFullSnapshotLocked ((Store.start sampleConfig []).run pluginSteps).disk
          sn.DiskRef with
        | .ok f => some f.App.PluginData
        | .error _ => none) = some none ∧
    (resolvedState ((Store.start sampleConfig []).run pluginSteps) "app" (idOf 30)).map
      (fun a => a.PluginData) = some (some []) ∧
    applyDelta (jsonReload { App := obsRich }).App (diffStates obsCaptured obsRich) =
      (jsonReload { App := obsRich }).App ∧
    applyDelta (jsonReload { App := obsS2 }).App (diffStates obsS1 obsS2) =
      (jsonReload { App := obsS2 }).App :=
  ⟨by decide, by decide, by decide, by decide, by decide, by decide, by decide, by decide,
    by decide, by decide⟩

/-! ## A checkpoint written and read back -/

theorem load_after_spill (disk : Disk) (o : SpillOutcome) (appID : String)
    (fs : FullSnapshot) :
    (spillFullSnapshotLocked disk (some o) appID fs).2 =
      .ok (joinRef appID (o.digest ++ ".json.gz")) ∧
    loadFullSnapshotLocked (spillFullSnapshotLocked disk (some o) appID fs).1
        (joinRef appID (o.digest ++ ".json.gz")) =
      if o.size > readLimit then .error "unexpected end of JSON input"
      else .ok (jsonReload fs) := by
  refine ⟨rfl, ?_⟩
  unfold loadFullSnapshotLocked spillFullSnapshotLocked
  simp only [GoMap.get?_set, if_true]

/-- A state that holds the empty, non-nil plugin map reads back from its checkpoint with the
nil map, and `diffStates` flags the plugin data between the two. -/
theorem reload_flags_empty_plugin_map (fs : FullSnapshot) (h : fs.App.PluginData = some []) :
    (diffStates (jsonReload fs).App fs.App).PluginChanged = true := by
  have hl : (jsonReload fs).App.PluginData = none := by
    show (match fs.App.PluginData with
      | some [] => none
      | p => p) = none
    rw [h]
  show (!jsonEq (jsonReload fs).App.PluginData fs.App.PluginData) = true
  rw [hl, h]
  decide

/-- C28 as amended: a checkpoint write that goes through with a JSON text within the read
guard of 10 MiB returns a reference under which `loadFullSnapshotLocked` succeeds, and
`diffStates` between the state read back and the state written reports no window entry, no
file added or removed and no change of the clipboard; it reports no change of the plugin
data either, unless the state written holds the empty, non-nil plugin map. -/
theorem C28_spill_load_roundtrip (disk : Disk) (o : SpillOutcome) (appID : String)
    (fs : FullSnapshot) (hsz : o.size ≤ readLimit) :
    ∃ r, (spillFullSnapshotLocked disk (some o) appID fs).2 = .ok r ∧
      loadFullSnapshotLocked (spillFullSnapshotLocked disk (some o) appID fs).1 r =
        .ok (jsonReload fs) ∧
      (diffStates (jsonReload fs).App fs.App).WindowsChanged = false ∧
      (diffStates (jsonReload fs).App fs.App).WindowDiffs = [] ∧
      (diffStates (jsonReload fs).App fs.App).FilesAdded = [] ∧
      (diffStates (jsonReload fs).App fs.App).FilesRemoved = [] ∧
      (diffStates (jsonReload fs).App fs.App).ClipboardChanged = false ∧
      (fs.App.PluginData ≠ some [] →
        (diffStates (jsonReload fs).App fs.App).PluginChanged = false) := by
  obtain ⟨h1, h2⟩ := load_after_spill disk o appID fs
  rw [if_neg (not_lt.2 hsz)] at h2
  obtain ⟨⟨u1, u2, _, u4, u5⟩, u6⟩ := unchanged_of_agree fs.App fs.App (fun _ => rfl)
    (fun _ => Iff.rfl) (Or.inr (Or.inr rfl)) rfl
  refine ⟨_, h1, h2, u1, u6, u4, u5, u2, ?_⟩
  intro hne
  show (!jsonEq (jsonReload fs).App.PluginData fs.App.PluginData) = false
  rw [jsonReload_pluginData hne]
  simp [jsonEq]

/-- C28, witness: the checkpoint of the observation `obsRich`, 1000 bytes long. -/
theorem C28_spill_load_roundtrip_witness :
    (1000 : Nat) ≤ readLimit ∧ obsRich.PluginData ≠ some [] ∧
    ∃ r, (spillFullSnapshotLocked [] (some { digest := "id-1", size := 1000 }) "app"
        { App := obsRich }).2 = .ok r ∧
      loadFullSnapshotLocked (spillFullSnapshotLocked []
        (some { digest := "id-1", size := 1000 }) "app" { App := obsRich }).1 r =
        .ok (jsonReload { App := obsRich }) ∧
      (diffStates (jsonReload { App := obsRich }).App obsRich).PluginChanged = false :=
  ⟨by decide, by decide,
    match C28_spill_load_roundtrip [] { digest := "id-1", size := 1000 } "app"
      { App := obsRich } (by decide) with
    | ⟨r, h1, h2, _, _, _, _, _, h8⟩ => ⟨r, h1, h2, h8 (by decide)⟩⟩

/-- C28, counterexample: the observation `obsHuge`, whose window title alone is longer than
the 10 MiB of the read guard.  The checkpoint write goes through and returns a reference,
and `loadFullSnapshotLocked` fails on that reference. -/
theorem C28_counterexample_read_guard :
    (obsHuge.Windows.map (fun w => w.Title.length)) = [11000000] ∧ readLimit < 11000000 ∧
    (spillFullSnapshotLocked [] (some hugeOutcome) "app" { App := obsHuge }).2 =
      .ok "app/huge.json.gz" ∧
    loadFullSnapshotLocked
        (spillFullSnapshotLocked [] (some hugeOutcome) "app" { App := obsHuge }).1
        "app/huge.json.gz" =
      .error "unexpected end of JSON input" := by
  refine ⟨?_, by decide, rfl, ?_⟩
  · show [String.length ⟨List.replicate 11000000 'x'⟩] = [11000000]
    rw [String.length, List.length_replicate]
  · have h := (load_after_spill [] hugeOutcome "app" { App := obsHuge }).2
    have hr : joinRef "app" (hugeOutcome.digest ++ ".json.gz") = "app/huge.json.gz" := by
      decide
    rw [hr] at h
    rw [h]
    rfl
/-! ## The checkpoint fields of a snapshot -/

theorem spillShape_newSnapshot (disk : Disk) (env : IngestEnv) (tl : appTimeline)
    (app : AppState) (delta : StateDelta) :
    SpillShape (newSnapshot disk env tl app delta).2 := by
  by_cases hl : tl.snapshots.length % 30 = 0
  · cases ho : env.spill with
    | none =>
      rw [newSnapshot_failed disk env tl app delta ho]
      exact ⟨by simp, by simp⟩
    | some o =>
      rw [newSnapshot_checkpoint disk env tl app delta o ho hl]
      exact ⟨by simpa using joinRef_ne_empty app.AppID o.digest, fun _ => rfl⟩
  · rw [newSnapshot_link disk env tl app delta hl]
    exact ⟨by simp, by simp⟩

theorem mem_snapshotsOf_step {s : Store} {st : Step} {a : String} {sn : Snapshot}
    (h : sn ∈ snapshotsOf (s.step st).engine a) :
    sn ∈ snapshotsOf s.engine a ∨
      sn = (newSnapshot s.disk st.env (retained s st) st.app (ingestDelta s st)).2 := by
  have hr : ∀ x ∈ (retained s st).snapshots, x ∈ snapshotsOf s.engine st.app.AppID := by
    intro x hx
    rw [retained_snapshots] at hx
    split_ifs at hx
    · exact hx
    · exact (List.mem_filter.1 hx).1
  rw [snapshotsOf_step] at h
  split_ifs at h with ha hc
  · left
    rw [ha]
    exact hr sn h
  · rcases mem_appendCapped h with h1 | h1
    · left
      rw [ha]
      exact hr sn h1
    · exact Or.inr h1
  · exact Or.inl h

theorem spillShape_run {s : Store} (steps : List Step)
    (h : ∀ a, ∀ sn ∈ snapshotsOf s.engine a, SpillShape sn) :
    ∀ a, ∀ sn ∈ snapshotsOf (s.run steps).engine a, SpillShape sn := by
  induction steps generalizing s with
  | nil => exact h
  | cons st rest ih =>
    rw [run_cons]
    apply ih
    intro a sn hsn
    rcases mem_snapshotsOf_step hsn with h1 | h1
    · exact h a sn h1
    · rw [h1]
      exact spillShape_newSnapshot _ _ _ _ _

/-- C26: in every store reached from a new engine by `Ingest` calls, every snapshot of every
timeline is marked spilled exactly when its disk reference is not empty, and has no parent
id when it is spilled.  And a further call that appends a snapshot to a timeline which, after
retention, still holds a snapshot, leaves the new snapshot last in the timeline, with the
identifier of the snapshot that was last before as parent id unless the new one is
spilled. -/
theorem C26_spill_fields (cfg : EngineConfig) (disk : Disk) (steps : List Step) :
    (∀ a, ∀ sn ∈ snapshotsOf ((Store.start cfg disk).run steps).engine a, SpillShape sn) ∧
    (∀ (st : Step) (l : Snapshot), Creates ((Store.start cfg disk).run steps) st →
      (retained ((Store.start cfg disk).run steps) st).snapshots.getLast? = some l →
      ∃ snap, (snapshotsOf (((Store.start cfg disk).run steps).step st).engine
          st.app.AppID).getLast? = some snap ∧
        snap.SnapshotID = st.env.uuid ∧
        (snap.Spilled = false → snap.BaseSnapshotID = some l.SnapshotID)) := by
  constructor
  · apply spillShape_run
    intro a sn hsn
    have : snapshotsOf (Store.start cfg disk).engine a = [] := rfl
    rw [this] at hsn
    cases hsn
  · intro st l hc hl
    have hcap : 0 < ((Store.start cfg disk).run steps).engine.cfg.MaxSnapshotsPerApp := by
      rw [run_cfg]
      exact newEngine_cap_pos cfg
    refine ⟨(newSnapshot ((Store.start cfg disk).run steps).disk st.env
      (retained ((Store.start cfg disk).run steps) st) st.app
      (ingestDelta ((Store.start cfg disk).run steps) st)).2, ?_, ?_, ?_⟩
    · rw [snapshotsOf_step, if_pos rfl, if_neg ((creates_iff _ _).1 hc)]
      exact appendCapped_getLast hcap _ _
    · exact (newSnapshot_fields _ _ _ _ _).1
    · intro hns
      by_cases hlen : (retained ((Store.start cfg disk).run steps) st).snapshots.length % 30 = 0
      · cases ho : st.env.spill with
        | none =>
          rw [newSnapshot_failed _ _ _ _ _ ho]
          simp [hl]
        | some o =>
          rw [newSnapshot_checkpoint _ _ _ _ _ o ho hlen] at hns
          simp at hns
      · rw [newSnapshot_link _ _ _ _ _ hlen]
        simp [hl]

set_option maxRecDepth 1000000 in
/-- C26, witness: after the 30 calls of `movingSteps 30` every snapshot has the shape, and a
31st call whose checkpoint write fails appends a snapshot that is not spilled and has the
30th as parent. -/
theorem C26_spill_fields_witness :
    Creates ((Store.start sampleConfig []).run (movingSteps 30))
      { env := failingEnv 31 (idOf 30), app := movingObs 30 } ∧
    (snapshotsOf (((Store.start sampleConfig []).run (movingSteps 30)).step
      { env := failingEnv 31 (idOf 30), app := movingObs 30 }).engine "app").getLast?.map
        (fun sn => (sn.SnapshotID, sn.Spilled, sn.BaseSnapshotID)) =
      some (idOf 30, false, some (idOf 29)) ∧
    (∀ sn ∈ snapshotsOf ((Store.start sampleConfig []).run (movingSteps 30)).engine "app",
      SpillShape sn) ∧
    ∃ l snap,
      (retained ((Store.start sampleConfig []).run (movingSteps 30))
        { env := failingEnv 31 (idOf 30), app := movingObs 30 }).snapshots.getLast? = some l ∧
      (snapshotsOf (((Store.start sampleConfig []).run (movingSteps 30)).step
        { env := failingEnv 31 (idOf 30), app := movingObs 30 }).engine "app").getLast? =
          some snap ∧
      snap.SnapshotID = idOf 30 ∧
      (snap.Spilled = false → snap.BaseSnapshotID = some l.SnapshotID) := by
  have hc : Creates ((Store.start sampleConfig []).run (movingSteps 30))
      { env := failingEnv 31 (idOf 30), app := movingObs 30 } := by decide
  refine ⟨hc, by decide, (C26_spill_fields sampleConfig [] (movingSteps 30)).1 "app", ?_⟩
  cases hl : (retained ((Store.start sampleConfig []).run (movingSteps 30))
      { env := failingEnv 31 (idOf 30), app := movingObs 30 }).snapshots.getLast? with
  | none =>
    have h : ((retained ((Store.start sampleConfig []).run (movingSteps 30))
      { env := failingEnv 31 (idOf 30), app := movingObs 30 }).snapshots.getLast?).isSome =
        true := by decide
    rw [hl] at h
    cases h
  | some l =>
    obtain ⟨snap, h1, h2, h3⟩ := (C26_spill_fields sampleConfig [] (movingSteps 30)).2
      { env := failingEnv 31 (idOf 30), app := movingObs 30 } l hc hl
    exact ⟨l, snap, rfl, h1, h2, h3⟩

/-! ## A most recent snapshot that does not resolve -/

/-- C29: when the timeline, after retention, holds a snapshot and the most recent one does
not resolve, `Ingest` computes the delta of the observation with itself, returns neither a
snapshot nor an error, and leaves the timeline and the disk as they are, whatever the
observation. -/
theorem C29_unresolvable_base (s : Store) (st : Step) (l : Snapshot) (err : String)
    (hl : (retained s st).snapshots.getLast? = some l)
    (hfail : resolveSnapshotLocked s.disk (retained s st) l.SnapshotID = .error err) :
    ingestDelta s st = diffStates st.app st.app ∧
    (s.ingest st).meta = none ∧ (s.ingest st).err = none ∧
    snapshotsOf (s.step st).engine st.app.AppID = (retained s st).snapshots ∧
    (s.step st).disk = s.disk := by
  have hd : ingestDelta s st = diffStates st.app st.app := by
    unfold ingestDelta diffBase
    simp only [hl, hfail]
  have hu : Unchanged (diffStates st.app st.app) :=
    (unchanged_of_agree st.app st.app (fun _ => rfl) (fun _ => Iff.rfl)
      (Or.inr (Or.inr rfl)) rfl).1
  have hne : (retained s st).snapshots ≠ [] := by
    intro h
    rw [h] at hl
    cases hl
  have hc : (decide ((retained s st).snapshots.length > 0) &&
      noChange (ingestDelta s st)) = true := by
    obtain ⟨u1, u2, u3, u4, u5⟩ := hu
    rw [hd]
    simp [noChange, u1, u2, u3, u4, u5, List.length_pos, hne]
  refine ⟨hd, ?_, ?_, ?_, ?_⟩
  · rw [ingest_unchanged s st hc]
  · rw [ingest_unchanged s st hc]
  · rw [snapshotsOf_step, if_pos rfl, if_pos hc]
  · rw [disk_step, if_pos hc]

/-- C29, witness: the checkpoint file of the one snapshot has been deleted; the observation
S2, with the window moved, is ingested and no snapshot is made. -/
theorem C29_unresolvable_base_witness :
    (retained storeLost { env := sampleEnv 4 "id-2", app := obsS2 }).snapshots.getLast?.map
      (fun sn => sn.SnapshotID) = some "id-1" ∧
    resolvedState storeLost "app" "id-1" = none ∧
    obsS2.Windows ≠ obsS1.Windows ∧
    (storeLost.ingest { env := sampleEnv 4 "id-2", app := obsS2 }).meta = none ∧
    (storeLost.ingest { env := sampleEnv 4 "id-2", app := obsS2 }).err = none ∧
    (snapshotsOf (storeLost.step { env := sampleEnv 4 "id-2", app := obsS2 }).engine
      "app").map (fun sn => sn.SnapshotID) = ["id-1"] :=
  have h := C29_unresolvable_base storeLost { env := sampleEnv 4 "id-2", app := obsS2 }
    { SnapshotID := "id-1", AppID := "app", BaseSnapshotID := none,
      Delta := diffStates obsS1 obsS1, Timestamp := 1, Spilled := true,
      DiskRef := "app/id-1.json.gz" } "file not found" (by rfl) (by rfl)
  ⟨by decide, by decide, by decide, h.2.1, h.2.2.1, by decide⟩

/-! ## Runs in which every observation differs from the one before it -/

theorem runAll_imp {P Q : Store → Step → Prop} (h : ∀ s st, P s st → Q s st) :
    ∀ (steps : List Step) (s : Store), RunAll P s steps → RunAll Q s steps
  | [], _, _ => trivial
  | _ :: rest, _, hp => ⟨h _ _ hp.1, runAll_imp h rest _ hp.2⟩

theorem calmStep_of_goodStep (s : Store) (st : Step) (h : GoodStep s st) : CalmStep s st := by
  refine ⟨h.1, h.2.1, ?_⟩
  have hc := h.2.2
  unfold CheckpointOK at hc
  unfold WriteOK
  intro hn
  rw [hn] at hc
  exact hc

/-- A state that reconstructs an observation, compared with an observation that differs from
that one in the windows or the open files: `diffStates` flags a change. -/
theorem noChange_of_differs {full prev cur : AppState} (hr : Reconstructs full prev)
    (hd : Differs prev cur) : noChange (diffStates full cur) = false := by
  by_contra hn
  rw [Bool.not_eq_false] at hn
  unfold noChange at hn
  simp only [Bool.and_eq_true, Bool.not_eq_true', decide_eq_true_eq] at hn
  obtain ⟨⟨⟨⟨hw, _⟩, ha⟩, hrm⟩, _⟩ := hn
  rcases hd with ⟨h, _, hne⟩ | ⟨p, _, hne⟩
  · rw [← hr.1 h] at hne
    have hex : ∃ d ∈ windowDiffs (windowMap full.Windows) (windowMap cur.Windows),
        d.HWND = h := by
      apply (exists_windowDiff_iff (nodup_keys_windowMap _) (nodup_keys_windowMap _) h).2
      unfold windowOf at hne
      cases hp : GoMap.get? (windowMap full.Windows) h with
      | none =>
        cases hq : GoMap.get? (windowMap cur.Windows) h with
        | none => simp [hp, hq] at hne
        | some nw => trivial
      | some pw =>
        cases hq : GoMap.get? (windowMap cur.Windows) h with
        | none => trivial
        | some nw =>
          show windowEq pw nw = false
          rw [hp, hq] at hne
          by_contra hc
          rw [Bool.not_eq_false] at hc
          exact hne (by rw [Option.map_some', Option.map_some', (windowEq_iff _ _).1 hc])
    obtain ⟨d, hd, _⟩ := hex
    have hlen : (diffStates full cur).WindowsChanged = true := by
      show decide ((windowDiffs (windowMap full.Windows) (windowMap cur.Windows)).length > 0) =
        true
      rw [decide_eq_true_eq]
      exact List.length_pos_of_mem hd
    rw [hlen] at hw
    cases hw
  · rw [← hr.2.1 p] at hne
    by_cases hp : p ∈ normPaths full
    · have hq : p ∉ normPaths cur := fun hq => hne ⟨fun _ => hq, fun _ => hp⟩
      have := (mem_filesRemoved full cur p).2 ⟨hp, hq⟩
      rw [List.length_eq_zero.1 hrm] at this
      cases this
    · have hq : p ∈ normPaths cur := by
        by_contra hq
        exact hne ⟨fun h' => absurd h' hp, fun h' => absurd h' hq⟩
      have := (mem_filesAdded full cur p).2 ⟨hq, hp⟩
      rw [List.length_eq_zero.1 ha] at this
      cases this

/-- The state `Ingest` compares the observation with is the one the last snapshot of the
timeline resolves to. -/
theorem diffBase_of_last {s : Store} {st : Step} {l : Snapshot} {r : Snapshot × FullSnapshot}
    (hok : StoreOK s) (hne : NoEviction s st)
    (hl : (snapshotsOf s.engine st.app.AppID).getLast? = some l)
    (hres : ResolveSnapshot s.engine s.disk st.app.AppID l.SnapshotID = .ok r) :
    diffBase s.disk (retained s st) st.app = r.2 := by
  have hret := retained_snapshots_of_noEviction hne
  unfold ResolveSnapshot at hres
  cases hget : GoMap.get? s.engine.apps st.app.AppID with
  | none => simp [hget] at hres
  | some tl =>
    simp only [hget] at hres
    have hsn := snapshotsOf_of_get? hget
    have hokT : TimelineOK s.disk tl.snapshots := by
      rw [← hsn]
      exact hok _
    have := @resolve_extend s.disk s.disk tl (retained s st) l.SnapshotID hokT (diskLe_refl _) []
      (by rw [hret, hsn, List.append_nil]) (resolve_ok_mem hres)
    unfold diffBase
    rw [hret]
    simp only [hl, this, hres]

theorem creates_of_differs {s : Store} {st : Step} {prev : AppState} {l : Snapshot}
    {r : Snapshot × FullSnapshot} (hok : StoreOK s) (hne : NoEviction s st)
    (hl : (snapshotsOf s.engine st.app.AppID).getLast? = some l)
    (hres : ResolveSnapshot s.engine s.disk st.app.AppID l.SnapshotID = .ok r)
    (hrec : Reconstructs r.2.App prev) (hd : Differs prev st.app) : Creates s st := by
  rw [creates_iff]
  have hdelta : ingestDelta s st = diffStates r.2.App st.app := by
    unfold ingestDelta
    rw [diffBase_of_last hok hne hl hres]
  rw [hdelta, noChange_of_differs hrec hd, Bool.and_false]
  exact Bool.false_ne_true

theorem creates_of_empty {s : Store} {st : Step}
    (h : snapshotsOf s.engine st.app.AppID = []) : Creates s st := by
  rw [creates_iff, retained_snapshots, h]
  simp

/-- After a call that creates a snapshot, the last snapshot of the timeline resolves to a
state that reconstructs the observation of the call. -/
theorem last_resolves_after_create {s : Store} {st : Step} (hok : StoreOK s)
    (hg : GoodStep s st) (hc : Creates s st) :
    ∃ l r, (snapshotsOf (s.step st).engine st.app.AppID).getLast? = some l ∧
      ResolveSnapshot (s.step st).engine (s.step st).disk st.app.AppID l.SnapshotID = .ok r ∧
      Reconstructs r.2.App st.app := by
  obtain ⟨sel, full, hres, _, _, hrec⟩ := resolve_new hok hg hc
  have hfields := newSnapshot_fields s.disk st.env (retained s st) st.app (ingestDelta s st)
  refine ⟨(newSnapshot s.disk st.env (retained s st) st.app (ingestDelta s st)).2, (sel, full),
    ?_, ?_, hrec⟩
  · rw [snapshotsOf_step, if_pos rfl, if_neg ((creates_iff s st).1 hc),
      retained_snapshots_of_noEviction hg.1, appendCapped_of_lt hg.1.2]
    simp
  · rw [hfields.1]
    exact hres

theorem consecutive_cons (prev st : Step) (rest : List Step) :
    consecutive (prev :: st :: rest) = (prev.app, st.app) :: consecutive (st :: rest) := rfl

/-- In a run on one application whose calls evict nothing, draw fresh identifiers and write
readable checkpoints, and in which every observation differs from the one before it in the
windows or the open files, every call creates a snapshot. -/
theorem runAll_creates_of_differs {a : String} :
    ∀ (steps : List Step) (s : Store) (prev : Step), StoreOK s →
      (∀ st ∈ steps, st.app.AppID = a) → RunAll GoodStep s steps →
      (∀ p ∈ consecutive (prev :: steps), Differs p.1 p.2) →
      (∃ l r, (snapshotsOf s.engine a).getLast? = some l ∧
        ResolveSnapshot s.engine s.disk a l.SnapshotID = .ok r ∧
        Reconstructs r.2.App prev.app) →
      RunAll Creates s steps
  | [], _, _, _, _, _, _, _ => trivial
  | st :: rest, s, prev, hok, happ, hg, hch, hinv => by
    have ha := happ st (List.mem_cons_self _ _)
    obtain ⟨l, r, hl, hres, hrec⟩ := hinv
    rw [← ha] at hl hres
    rw [consecutive_cons] at hch
    have hc := creates_of_differs hok hg.1.1 hl hres hrec (hch _ (List.mem_cons_self _ _))
    refine ⟨hc, runAll_creates_of_differs rest (s.step st) st (storeOK_step hok hg.1)
      (fun st' h' => happ st' (List.mem_cons_of_mem _ h')) hg.2
      (fun p hp => hch p (List.mem_cons_of_mem _ hp)) ?_⟩
    rw [← ha]
    exact last_resolves_after_create hok hg.1 hc

theorem runAll_creates_start {a : String} (cfg : EngineConfig) (disk : Disk)
    (steps : List Step) (happ : ∀ st ∈ steps, st.app.AppID = a)
    (hg : RunAll GoodStep (Store.start cfg disk) steps)
    (hch : ∀ p ∈ consecutive steps, Differs p.1 p.2) :
    RunAll Creates (Store.start cfg disk) steps := by
  cases steps with
  | nil => trivial
  | cons st rest =>
    have ha := happ st (List.mem_cons_self _ _)
    have hc : Creates (Store.start cfg disk) st := creates_of_empty rfl
    refine ⟨hc, runAll_creates_of_differs rest _ st (storeOK_step (storeOK_start cfg disk) hg.1)
      (fun st' h' => happ st' (List.mem_cons_of_mem _ h')) hg.2 hch ?_⟩
    rw [← ha]
    exact last_resolves_after_create (storeOK_start cfg disk) hg.1 hc

/-- C8 as amended: 35 successive `Ingest` calls for one application on a new engine, each
with an observation that differs from the one before it in the windows (a handle with a
window in one and none in the other, or with windows that differ in a field `windowEq`
compares) or in the set of lower-cased, trimmed open-file paths; every call draws a fresh
identifier, its checkpoint write goes through with a file within the read guard of
`loadFullSnapshotLocked`, and it evicts nothing (the cap is never reached and retention drops
nothing).  The timeline then holds 35 snapshots; the 31st is marked spilled, has a non-empty
disk reference and no parent id, and its checkpoint file loads; the chain replayed for the
35th snapshot has exactly 5 links, the oldest being the 31st snapshot, and the resolution is
the replay of those 5 deltas on the loaded state. -/
theorem C8_checkpoint_at_31 (cfg : EngineConfig) (disk : Disk) (steps : List Step)
    (a : String) (hlen : steps.length = 35) (happ : ∀ st ∈ steps, st.app.AppID = a)
    (hgood : RunAll GoodStep (Store.start cfg disk) steps)
    (hdiff : ∀ p ∈ consecutive steps, Differs p.1 p.2) :
    (snapshotsOf ((Store.start cfg disk).run steps).engine a).length = 35 ∧
    ∃ s31 s35 seed,
      (snapshotsOf ((Store.start cfg disk).run steps).engine a)[30]? = some s31 ∧
      (snapshotsOf ((Store.start cfg disk).run steps).engine a)[34]? = some s35 ∧
      s31.Spilled = true ∧ s31.DiskRef ≠ "" ∧ s31.BaseSnapshotID = none ∧
      loadFullSnapshotLocked ((Store.start cfg disk).run steps).disk s31.DiskRef = .ok seed ∧
      (resolveChain (snapshotsOf ((Store.start cfg disk).run steps).engine a)
        s35.SnapshotID).length = 5 ∧
      (resolveChain (snapshotsOf ((Store.start cfg disk).run steps).engine a)
        s35.SnapshotID).getLast? = some s31 ∧
      ResolveSnapshot ((Store.start cfg disk).run steps).engine
          ((Store.start cfg disk).run steps).disk a s35.SnapshotID =
        .ok (s35, replayChain seed
          (resolveChain (snapshotsOf ((Store.start cfg disk).run steps).engine a)
            s35.SnapshotID)) :=
  checkpoint_at_31_of_creates cfg disk steps a hlen happ
    (runAll_imp calmStep_of_goodStep steps _ hgood)
    (runAll_creates_start cfg disk steps happ hgood hdiff)

set_option maxRecDepth 1000000 in
/-- C8, witness: 35 calls on a new engine with the default configuration, each with the
window moved. -/
theorem C8_checkpoint_at_31_witness :
    (movingSteps 35).length = 35 ∧ (∀ st ∈ movingSteps 35, st.app.AppID = "app") ∧
    RunAll GoodStep (Store.start sampleConfig []) (movingSteps 35) ∧
    (∀ p ∈ consecutive (movingSteps 35), Differs p.1 p.2) ∧
    ((snapshotsOf ((Store.start sampleConfig []).run (movingSteps 35)).engine "app").length = 35 ∧
    ∃ s31 s35 seed,
      (snapshotsOf ((Store.start sampleConfig []).run (movingSteps 35)).engine "app")[30]? =
        some s31 ∧
      (snapshotsOf ((Store.start sampleConfig []).run (movingSteps 35)).engine "app")[34]? =
        some s35 ∧
      s31.Spilled = true ∧ s31.DiskRef ≠ "" ∧ s31.BaseSnapshotID = none ∧
      loadFullSnapshotLocked ((Store.start sampleConfig []).run (movingSteps 35)).disk
        s31.DiskRef = .ok seed ∧
      (resolveChain (snapshotsOf ((Store.start sampleConfig []).run (movingSteps 35)).engine "app")
        s35.SnapshotID).length = 5 ∧
      (resolveChain (snapshotsOf ((Store.start sampleConfig []).run (movingSteps 35)).engine "app")
        s35.SnapshotID).getLast? = some s31 ∧
      ResolveSnapshot ((Store.start sampleConfig []).run (movingSteps 35)).engine
          ((Store.start sampleConfig []).run (movingSteps 35)).disk "app" s35.SnapshotID =
        .ok (s35, replayChain seed
          (resolveChain
            (snapshotsOf ((Store.start sampleConfig []).run (movingSteps 35)).engine "app")
            s35.SnapshotID))) :=
  ⟨by decide, by decide, by decide, by decide,
    C8_checkpoint_at_31 sampleConfig [] (movingSteps 35) "app" (by decide) (by decide)
      (by decide) (by decide)⟩

set_option maxRecDepth 1000000 in
/-- C8, counterexample: 35 calls on a new engine with the default configuration, each with
the window retitled and a later capture time, so that the 35 observations are pairwise
different.  Every checkpoint write goes through with a readable file, the identifiers are
fresh and nothing is evicted.  No observation differs from the one before it in a field
`diffStates` compares: only the first call creates a snapshot, and the timeline has no 31st
snapshot. -/
theorem C8_counterexample_retitled :
    (retitledSteps 35).length = 35 ∧ (∀ st ∈ retitledSteps 35, st.app.AppID = "app") ∧
    ((retitledSteps 35).map (fun st => st.app)).Nodup ∧
    (∀ p ∈ consecutive (retitledSteps 35), p.1 ≠ p.2) ∧
    (∀ p ∈ consecutive (retitledSteps 35), ¬ Differs p.1 p.2) ∧
    RunAll GoodStep (Store.start sampleConfig []) (retitledSteps 35) ∧
    (snapshotsOf ((Store.start sampleConfig []).run (retitledSteps 35)).engine "app").map
      (fun sn => sn.SnapshotID) = [idOf 0] ∧
    (snapshotsOf ((Store.start sampleConfig []).run (retitledSteps 35)).engine "app")[30]? =
      none :=
  ⟨by decide, by decide, by decide, by decide, by decide, by decide, by decide, by decide⟩

end Rewinder
